import Mathlib

/-!
# tinyraytracer: recursive ray tracing and stereo compositing

A shallow embedding of `src/tinyraytracer.cpp`.

* Scalars.  The program computes in `float`/`double`.  The embedding is generic over a
  linearly ordered field `K` with a floor function: every arithmetic operation is the exact
  field operation, so the development describes the program up to rounding.  All
  definitions are computable for a computable `K` (for instance `ℚ`).
* NaN and infinities.  A field has neither, so the definitions over `K` describe the
  executions in which every float is a number.  Whether `refract` and `cast_ray` return
  depends on the other executions as well: these two functions, with everything they
  call, are embedded a second time in `namespace Ieee`, over floats that are a number,
  `+inf`, `-inf` or NaN, with the comparisons, `std::min` and `std::max` of IEEE 754 and
  an explicit bound on the depth of recursion.
* Library functions.  `sqrtf`/`sqrt`, `acos`, `atan2`, `powf` and the constant `M_PI` come
  from the C library; they are parameters of the definitions that use them, and the
  theorems state what they need about them (`SqrtSpec`, `AngleSpec`, `PowSpec`).
* Out-parameters become returned values; a function that returns `bool` and writes an
  out-parameter only read on success returns an `Option`.
* Conversions from floating point to `int` / `unsigned char` truncate toward zero
  (`truncToInt`).
* `geometry.h` and `model.h` are not among the sources: vectors, the mesh interface and
  the triangle test are modelled from the specification.
-/

namespace TinyRaytracer

/-! ## Vector and colour arithmetic -/

/-- Modelled from the spec: `Vec3f` of `geometry.h` (not among the sources), a 3-component
vector used both as point/direction and as RGB colour. -/
structure Vec3f (K : Type) where
  x : K
  y : K
  z : K
deriving DecidableEq, Repr

/-- Modelled from the spec: `Vec4f` of `geometry.h` (not among the sources), the 4-way
material weighting (diffuse, specular, reflection, refraction). -/
structure Vec4f (K : Type) where
  a0 : K
  a1 : K
  a2 : K
  a3 : K
deriving DecidableEq, Repr

section Field

variable {K : Type} [LinearOrderedField K]

namespace Vec3f

/-- Modelled from the spec: the default constructor `Vec3f()` of `geometry.h`, all
components zero. -/
def zero : Vec3f K := ⟨0, 0, 0⟩

/-- Modelled from the spec: `operator+` of `geometry.h`, componentwise sum. -/
def add (a b : Vec3f K) : Vec3f K := ⟨a.x + b.x, a.y + b.y, a.z + b.z⟩

/-- Modelled from the spec: binary `operator-` of `geometry.h`, componentwise difference. -/
def sub (a b : Vec3f K) : Vec3f K := ⟨a.x - b.x, a.y - b.y, a.z - b.z⟩

/-- Modelled from the spec: `operator*(vec, scalar)` of `geometry.h`, scaling. -/
def scale (a : Vec3f K) (s : K) : Vec3f K := ⟨a.x * s, a.y * s, a.z * s⟩

/-- Modelled from the spec: unary `operator-` of `geometry.h`, scaling by `-1`. -/
def neg (a : Vec3f K) : Vec3f K := a.scale (-1)

/-- Modelled from the spec: `operator*(vec, vec)` of `geometry.h`, the dot product. -/
def dot (a b : Vec3f K) : K := a.x * b.x + a.y * b.y + a.z * b.z

/-- Modelled from the spec: `cross` of `geometry.h`. -/
def cross (a b : Vec3f K) : Vec3f K :=
  ⟨a.y * b.z - a.z * b.y, a.z * b.x - a.x * b.z, a.x * b.y - a.y * b.x⟩

/-- Modelled from the spec: `norm()` of `geometry.h`, `sqrt(x*x+y*y+z*z)`. -/
def norm (sqrtf : K → K) (a : Vec3f K) : K := sqrtf (a.x * a.x + a.y * a.y + a.z * a.z)

/-- Modelled from the spec: `normalize()` of `geometry.h`, `v * (1 / v.norm())`. -/
def normalize (sqrtf : K → K) (a : Vec3f K) : Vec3f K := a.scale (1 / a.norm sqrtf)

/-- Component access `c[i]`, `i < 3`. -/
def get (a : Vec3f K) (i : ℕ) : K :=
  match i with
  | 0 => a.x
  | 1 => a.y
  | _ => a.z

instance : Add (Vec3f K) := ⟨add⟩
instance : Sub (Vec3f K) := ⟨sub⟩
instance : Neg (Vec3f K) := ⟨neg⟩

end Vec3f

/-- What the development assumes of the C library square root: on a non-negative argument
it returns the non-negative root. -/
def SqrtSpec (sqrtf : K → K) : Prop :=
  ∀ x : K, 0 ≤ x → 0 ≤ sqrtf x ∧ sqrtf x * sqrtf x = x

/-! ## Scene data -/

/-- The `Light` struct. -/
structure Light (K : Type) where
  position : Vec3f K
  intensity : K

/-- The `Material` struct. -/
structure Material (K : Type) where
  refractive_index : K
  albedo : Vec4f K
  diffuse_color : Vec3f K
  specular_exponent : K

/-- The default constructor `Material()`. -/
def Material.default : Material K := ⟨1, ⟨1, 0, 0, 0⟩, Vec3f.zero, 0⟩

/-- The `Sphere` struct. -/
structure Sphere (K : Type) where
  center : Vec3f K
  radius : K
  material : Material K

/-- One-root `Sphere::ray_intersect(orig, dir, t0)`: `some t0` when it returns `true` with
the distance written to `t0`, `none` when it returns `false`. -/
def Sphere.ray_intersect (sqrtf : K → K) (s : Sphere K) (orig dir : Vec3f K) : Option K :=
  let L := s.center - orig
  let tca := L.dot dir
  let d2 := L.dot L - tca * tca
  if d2 > s.radius * s.radius then none
  else
    let thc := sqrtf (s.radius * s.radius - d2)
    let t0 := tca - thc
    let t1 := tca + thc
    let t0 := if t0 < 0 then t1 else t0
    if t0 < 0 then none else some t0

/-- The local `tca` of `Sphere::ray_intersect`: `L*dir` with `L = center - orig`. -/
def Sphere.tca (s : Sphere K) (orig dir : Vec3f K) : K := (s.center - orig).dot dir

/-- The local `thc` of `Sphere::ray_intersect`: `sqrtf(radius*radius - d2)` with
`d2 = L*L - tca*tca`. -/
def Sphere.thc (sqrtf : K → K) (s : Sphere K) (orig dir : Vec3f K) : K :=
  sqrtf (s.radius * s.radius
    - ((s.center - orig).dot (s.center - orig) - s.tca orig dir * s.tca orig dir))

/-- Two-root `Sphere::ray_intersect(orig, dir, t0, t1)`: `some (t0, t1)` when it returns
`true`, `none` when it returns `false`. -/
def Sphere.ray_intersect2 (sqrtf : K → K) (s : Sphere K) (orig dir : Vec3f K) :
    Option (K × K) :=
  let L := s.center - orig
  let tca := L.dot dir
  let d2 := L.dot L - tca * tca
  if d2 > s.radius * s.radius then none
  else
    let thc := sqrtf (s.radius * s.radius - d2)
    let t0 := tca - thc
    let t1 := tca + thc
    if t1 < 0 then none else some (t0, t1)

/-- The point `P` lies on the surface of the sphere `s`: `|P - C|^2 = r^2`. -/
def OnSphere (s : Sphere K) (P : Vec3f K) : Prop :=
  (P - s.center).dot (P - s.center) = s.radius * s.radius

/-! ## Reflection and refraction -/

/-- The function `reflect`: `I - N*2.f*(I*N)`. -/
def reflect (I N : Vec3f K) : Vec3f K := I - (N.scale 2).scale (I.dot N)

/-- The clamped cosine of `refract`: `- max(-1, min(1, I*N))`. -/
def refract_cosi (I N : Vec3f K) : K := -(max (-1) (min 1 (I.dot N)))

/-- The function `refract` (Snell's law) on numbers; the default argument `eta_i = 1.f` is
passed explicitly by the callers of the embedding.  Over the field `K` every dot product is a
number and the recursion is taken at most once, which makes the definition total; the
invocations of the program in which `I*N` is NaN are described by `Ieee.refract`. -/
def refract (sqrtf : K → K) (I N : Vec3f K) (eta_t eta_i : K) : Vec3f K :=
  if h : refract_cosi I N < 0 then refract sqrtf I (-N) eta_i eta_t
  else
    let cosi := refract_cosi I N
    let eta := eta_i / eta_t
    let k := 1 - eta * eta * (1 - cosi * cosi)
    if k < 0 then ⟨1, 0, 0⟩ else I.scale eta + N.scale (eta * cosi - sqrtf k)
termination_by (if refract_cosi I N < 0 then 1 else 0 : ℕ)
decreasing_by
  have hd : I.dot (-N) = -(I.dot N) := by
    show Vec3f.dot I (Vec3f.neg N) = _
    simp only [Vec3f.dot, Vec3f.neg, Vec3f.scale]
    ring
  have h1 : 0 < I.dot N := by
    have h0 := h
    simp only [refract_cosi, neg_lt_zero, lt_max_iff, lt_min_iff] at h0
    rcases h0 with h0 | h0
    · linarith
    · exact h0.2
  have h2 : ¬ refract_cosi I (-N) < 0 := by
    simp only [refract_cosi, hd, neg_lt_zero, lt_max_iff, lt_min_iff]
    intro h3
    rcases h3 with h3 | h3
    · linarith
    · linarith [h3.2]
  simp [h, h2]

/-- The part of `refract` after the recursion test: `eta`, `k` and the returned vector. -/
def refract_body (sqrtf : K → K) (I N : Vec3f K) (eta_t eta_i : K) : Vec3f K :=
  let cosi := refract_cosi I N
  let eta := eta_i / eta_t
  let k := 1 - eta * eta * (1 - cosi * cosi)
  if k < 0 then ⟨1, 0, 0⟩ else I.scale eta + N.scale (eta * cosi - sqrtf k)

/-! ## Scene intersection -/

variable [FloorRing K]

/-- Conversion of a floating-point value to `int`: truncation toward zero. -/
def truncToInt (x : K) : ℤ := if 0 ≤ x then ⌊x⌋ else ⌈x⌉

/-- The constant `std::numeric_limits<float>::max()`. -/
def FLT_MAX : K := 340282346638528859811704183484516925440

/-- Modelled from the spec: the interface of `Model` (`model.h`, not among the sources):
the number of faces, the vertex index of a corner of a face, the position of a vertex, and
`ray_triangle_intersect(fi, orig, dir, tnear)`, which returns its verdict together with the
value it leaves in the out-parameter `tnear`. -/
structure Model (K : Type) where
  nfaces : ℕ
  vert : ℕ → ℕ → ℕ
  point : ℕ → Vec3f K
  ray_triangle_intersect : ℕ → Vec3f K → Vec3f K → K → Bool × K

/-- The mesh without faces. -/
def Model.empty : Model K := ⟨0, fun _ _ => 0, fun _ => Vec3f.zero, fun _ _ _ t => (false, t)⟩

/-- The global variables `envmap_width`, `envmap_height`, `envmap` and `duck`, together with
`dist_tr`, the value found in the local `float dist_tr` of the mesh loop of
`scene_intersect`, which is read there without ever being assigned (one value per face). -/
structure Globals (K : Type) where
  envmap_width : ℤ
  envmap_height : ℤ
  envmap : List (Vec3f K)
  duck : Model K
  dist_tr : ℕ → K

/-- The three out-parameters `hit`, `N`, `material` of `scene_intersect`. -/
structure HitRec (K : Type) where
  hit : Vec3f K
  N : Vec3f K
  material : Material K

/-- What `cast_ray` passes for the out-parameters: default-constructed locals. -/
def HitRec.default : HitRec K := ⟨Vec3f.zero, Vec3f.zero, Material.default⟩

/-- One iteration of the sphere loop of `scene_intersect`; the state is `spheres_dist` and
the out-parameters. -/
def sphere_step (sqrtf : K → K) (orig dir : Vec3f K) (st : K × HitRec K) (s : Sphere K) :
    K × HitRec K :=
  match s.ray_intersect sqrtf orig dir with
  | some dist_i =>
    if dist_i < st.1 then
      let hit := orig + dir.scale dist_i
      (dist_i, ⟨hit, (hit - s.center).normalize sqrtf, s.material⟩)
    else st
  | none => st

/-- The sphere loop of `scene_intersect`. -/
def spheres_loop (sqrtf : K → K) (orig dir : Vec3f K) (spheres : List (Sphere K))
    (out : HitRec K) : K × HitRec K :=
  spheres.foldl (sphere_step sqrtf orig dir) (FLT_MAX, out)

/-- The material given to the whole mesh. -/
def duck_material : Material K := ⟨1.5, ⟨0.0, 0.5, 0.1, 0.8⟩, ⟨0.6, 0.7, 0.8⟩, 125⟩

/-- One iteration of the mesh loop of `scene_intersect`; the state is `duck_dist` and the
out-parameters.  The call writes its distance to `duck_dist` itself, and the comparison
reads the unassigned local `dist_tr`. -/
def duck_step (sqrtf : K → K) (duck : Model K) (dist_tr : ℕ → K) (orig dir : Vec3f K)
    (st : K × HitRec K) (fi : ℕ) : K × HitRec K :=
  let r := duck.ray_triangle_intersect fi orig dir st.1
  if r.1 = true ∧ dist_tr fi < r.2 then
    let vP0 := duck.point (duck.vert fi 0)
    let vP1 := duck.point (duck.vert fi 1)
    let vP2 := duck.point (duck.vert fi 2)
    (dist_tr fi, ⟨orig + dir.scale (dist_tr fi),
      (Vec3f.cross (vP1 - vP0) (vP2 - vP0)).normalize sqrtf, duck_material⟩)
  else (r.2, st.2)

/-- The mesh loop of `scene_intersect`. -/
def duck_loop (sqrtf : K → K) (duck : Model K) (dist_tr : ℕ → K) (orig dir : Vec3f K)
    (out : HitRec K) : K × HitRec K :=
  (List.range duck.nfaces).foldl (duck_step sqrtf duck dist_tr orig dir) (FLT_MAX, out)

/-- The local `small_sphere` of `scene_intersect`. -/
def small_sphere : Sphere K :=
  ⟨⟨-5.5, 4.9, -16⟩, 0.9, ⟨1.0, ⟨0.9, 0.1, 0.0, 0.0⟩, ⟨0.15, 0.15, 0.15⟩, 10⟩⟩

/-- The local `large_sphere` of `scene_intersect`. -/
def large_sphere : Sphere K :=
  ⟨⟨-8, 5, -18⟩, 3, ⟨1.0, ⟨0.9, 0.1, 0.0, 0.0⟩, ⟨0.12, 0.12, 0.12⟩, 10⟩⟩

/-- The containment tests of the portal spheres:
`sqrt(pow(c.x - hit.x, 2) + pow(c.y - hit.y, 2) + pow(c.z - hit.z, 2))`. -/
def center_dist (sqrtf : K → K) (c hit : Vec3f K) : K :=
  sqrtf ((c.x - hit.x) ^ 2 + (c.y - hit.y) ^ 2 + (c.z - hit.z) ^ 2)

/-- The small portal sphere of `scene_intersect`; the state is `spheres_dist` and the
out-parameters.  `hit` is written before the containment test. -/
def small_portal (sqrtf : K → K) (orig dir : Vec3f K) (st : K × HitRec K) : K × HitRec K :=
  match small_sphere.ray_intersect2 sqrtf orig dir with
  | some (dist_i_t0, dist_i_t1) =>
    if dist_i_t0 < st.1 then
      let hit := orig + dir.scale dist_i_t1
      if center_dist sqrtf large_sphere.center hit ≤ large_sphere.radius then
        (dist_i_t1, ⟨hit, (-(hit - small_sphere.center)).normalize sqrtf,
          small_sphere.material⟩)
      else (st.1, ⟨hit, st.2.N, st.2.material⟩)
    else st
  | none => st

/-- The large portal sphere of `scene_intersect`.  `hit` is written before the containment
test. -/
def large_portal (sqrtf : K → K) (orig dir : Vec3f K) (st : K × HitRec K) : K × HitRec K :=
  match large_sphere.ray_intersect sqrtf orig dir with
  | some dist_i =>
    if dist_i < st.1 then
      let hit := orig + dir.scale dist_i
      if center_dist sqrtf small_sphere.center hit ≥ small_sphere.radius then
        (dist_i, ⟨hit, (hit - large_sphere.center).normalize sqrtf, large_sphere.material⟩)
      else (st.1, ⟨hit, st.2.N, st.2.material⟩)
    else st
  | none => st

/-- The shade of the checkerboard at `hit`:
`(int(.5*hit.x+1000) + int(.5*hit.z)) & 1 ? Vec3f(.3,.3,.3) : Vec3f(.3,.2,.1)`. -/
def checker_color (hit : Vec3f K) : Vec3f K :=
  if (truncToInt (0.5 * hit.x + 1000) + truncToInt (0.5 * hit.z)) % 2 ≠ 0 then ⟨0.3, 0.3, 0.3⟩
  else ⟨0.3, 0.2, 0.1⟩

/-- The checkerboard of `scene_intersect`: returns `checkerboard_dist` and the
out-parameters.  Only `material.diffuse_color` is assigned, not the whole material. -/
def checkerboard (orig dir : Vec3f K) (spheres_dist duck_dist : K) (out : HitRec K) :
    K × HitRec K :=
  if |dir.y| > 0.001 then
    let d := -(orig.y + 4) / dir.y
    let pt := orig + dir.scale d
    if d > 0 ∧ |pt.x| < 10 ∧ pt.z < -10 ∧ pt.z > -30 ∧ d < spheres_dist ∧ d < duck_dist then
      (d, ⟨pt, ⟨0, 1, 0⟩,
        ⟨out.material.refractive_index, out.material.albedo, checker_color pt,
          out.material.specular_exponent⟩⟩)
    else (FLT_MAX, out)
  else (FLT_MAX, out)

/-- The function `scene_intersect`: the verdict and the final out-parameters, from the
incoming out-parameters `out`. -/
def scene_intersect (sqrtf : K → K) (g : Globals K) (orig dir : Vec3f K)
    (spheres : List (Sphere K)) (out : HitRec K) : Bool × HitRec K :=
  let s1 := spheres_loop sqrtf orig dir spheres out
  let s2 := duck_loop sqrtf g.duck g.dist_tr orig dir s1.2
  let s3 := small_portal sqrtf orig dir (s1.1, s2.2)
  let s4 := large_portal sqrtf orig dir s3
  let s5 := checkerboard orig dir s4.1 s2.1 s4.2
  (decide (min (min s4.1 s5.1) s2.1 < 1000), s5.2)

/-! ## Shading -/

/-- The C library functions and the constant used by `cast_ray`. -/
structure Libm (K : Type) where
  sqrtf : K → K
  acos : K → K
  atan2 : K → K → K
  powf : K → K → K
  M_PI : K

/-- What the bounds of the environment lookup need of `acos`, `atan2` and `M_PI`: the
ranges `[0, pi]` and `[-pi, pi]`. -/
def AngleSpec (m : Libm K) : Prop :=
  0 < m.M_PI ∧ (∀ x, 0 ≤ m.acos x ∧ m.acos x ≤ m.M_PI) ∧
    ∀ y x, -m.M_PI ≤ m.atan2 y x ∧ m.atan2 y x ≤ m.M_PI

/-- The column `i` and the row `j` computed in the environment branch of `cast_ray`. -/
def envmap_coords (m : Libm K) (g : Globals K) (dir : Vec3f K) : ℤ × ℤ :=
  let theta := m.acos (dir.y / m.sqrtf (dir.dot dir))
  let phi := m.atan2 dir.z dir.x
  let i := truncToInt ((phi + m.M_PI) / (2 * m.M_PI) * ((g.envmap_width - 1 : ℤ) : K))
  let j := truncToInt (theta / m.M_PI * ((g.envmap_height - 1 : ℤ) : K))
  (i, j)

/-- The read `envmap[idx]`; an index outside the vector (undefined in the program) reads
the zero colour. -/
def envmap_at (g : Globals K) (idx : ℤ) : Vec3f K :=
  match idx with
  | Int.ofNat n => g.envmap.getD n Vec3f.zero
  | Int.negSucc _ => Vec3f.zero

/-- The environment branch of `cast_ray`: `envmap[i+j*envmap_width]`. -/
def envmap_sample (m : Libm K) (g : Globals K) (dir : Vec3f K) : Vec3f K :=
  let c := envmap_coords m g dir
  envmap_at g (c.1 + c.2 * g.envmap_width)

/-- The offset origin of a secondary ray:
`d*N < 0 ? point - N*1e-3 : point + N*1e-3`. -/
def offset_orig (d point N : Vec3f K) : Vec3f K :=
  if d.dot N < 0 then point - N.scale 0.001 else point + N.scale 0.001

/-- One iteration of the light loop of `cast_ray`; the state is
`(diffuse_light_intensity, specular_light_intensity)`. -/
def light_step (m : Libm K) (g : Globals K) (spheres : List (Sphere K))
    (dir point N : Vec3f K) (material : Material K) (acc : K × K) (l : Light K) : K × K :=
  let light_dir := (l.position - point).normalize m.sqrtf
  let light_distance := (l.position - point).norm m.sqrtf
  let shadow_orig := offset_orig light_dir point N
  let r := scene_intersect m.sqrtf g shadow_orig light_dir spheres HitRec.default
  if r.1 = true ∧ (r.2.hit - shadow_orig).norm m.sqrtf < light_distance then acc
  else
    (acc.1 + l.intensity * max 0 (light_dir.dot N),
     acc.2 + m.powf (max 0 ((-(reflect (-light_dir) N)).dot dir)) material.specular_exponent
       * l.intensity)

/-- The light loop of `cast_ray`. -/
def light_loop (m : Libm K) (g : Globals K) (spheres : List (Sphere K))
    (lights : List (Light K)) (dir point N : Vec3f K) (material : Material K) : K × K :=
  lights.foldl (light_step m g spheres dir point N material) (0, 0)

/-- The returned colour of `cast_ray` on a hit. -/
def shade (material : Material K) (diffuse_light_intensity specular_light_intensity : K)
    (reflect_color refract_color : Vec3f K) : Vec3f K :=
  (material.diffuse_color.scale diffuse_light_intensity).scale material.albedo.a0
    + ((⟨1, 1, 1⟩ : Vec3f K).scale specular_light_intensity).scale material.albedo.a1
    + reflect_color.scale material.albedo.a2
    + refract_color.scale material.albedo.a3

/-- The function `cast_ray` on numbers, instrumented: next to the colour it returns the log
of the invocations made, in call order, each with its `depth` and whether it called
`scene_intersect`.  The invocations of the program in which a call of `refract` does not
return are described by `Ieee.cast_ray`. -/
def cast_ray_log (m : Libm K) (g : Globals K) (spheres : List (Sphere K))
    (lights : List (Light K)) (orig dir : Vec3f K) (depth : ℕ) :
    Vec3f K × List (ℕ × Bool) :=
  if h : depth > 4 then (envmap_sample m g dir, [(depth, false)])
  else
    let r := scene_intersect m.sqrtf g orig dir spheres HitRec.default
    if r.1 = false then (envmap_sample m g dir, [(depth, true)])
    else
      let point := r.2.hit
      let N := r.2.N
      let material := r.2.material
      let reflect_dir := (reflect dir N).normalize m.sqrtf
      let refract_dir := (refract m.sqrtf dir N material.refractive_index 1).normalize m.sqrtf
      let reflect_orig := offset_orig reflect_dir point N
      let refract_orig := offset_orig refract_dir point N
      let reflect_color := cast_ray_log m g spheres lights reflect_orig reflect_dir (depth + 1)
      let refract_color := cast_ray_log m g spheres lights refract_orig refract_dir (depth + 1)
      let li := light_loop m g spheres lights dir point N material
      (shade material li.1 li.2 reflect_color.1 refract_color.1,
        (depth, true) :: (reflect_color.2 ++ refract_color.2))
termination_by 5 - depth
decreasing_by
  all_goals omega

/-- The function `cast_ray`: the colour. -/
def cast_ray (m : Libm K) (g : Globals K) (spheres : List (Sphere K))
    (lights : List (Light K)) (orig dir : Vec3f K) (depth : ℕ) : Vec3f K :=
  (cast_ray_log m g spheres lights orig dir depth).1

/-! ## Tone mapping and stereo compositing -/

/-- The tone mapping of `render`:
`max = std::max(c[0], std::max(c[1], c[2])); if (max>1) c = c*(1./max);`. -/
def tone_map (c : Vec3f K) : Vec3f K :=
  let mx := max (c.get 0) (max (c.get 1) (c.get 2))
  if mx > 1 then c.scale (1 / mx) else c

/-- The channel average of `render`: `(c.x+c.y+c.z)/3.`. -/
def channel_avg (c : Vec3f K) : K := (c.x + c.y + c.z) / 3

/-- Conversion of a floating-point value to `unsigned char`: truncation toward zero; a
value outside `0..255` (undefined in the program) is reduced modulo 256. -/
def toUChar (x : K) : ℕ := (truncToInt x % 256).toNat

/-- The three bytes written for one output pixel by the compositing loop of `render`. -/
def composite_pixel (c1 c2 : Vec3f K) : ℕ × ℕ × ℕ :=
  let c1 := tone_map c1
  let c2 := tone_map c2
  let avg1 := channel_avg c1
  let avg2 := channel_avg c2
  (toUChar (255 * avg1), 0, toUChar (255 * avg2))

/-- The three assignments to `pixmap` for the output pixel number `p`. -/
def write_pixel (pixmap : List ℕ) (p : ℕ) (px : ℕ × ℕ × ℕ) : List ℕ :=
  ((pixmap.set (p * 3) px.1).set (p * 3 + 1) px.2.1).set (p * 3 + 2) px.2.2

/-- The compositing loops of `render` for image parameters `width`, `height`, `delta`. -/
def composite_loop (width height delta : ℕ) (framebuffer1 framebuffer2 : List (Vec3f K)) :
    List ℕ :=
  (List.range height).foldl
    (fun pixmap j =>
      (List.range (width - delta)).foldl
        (fun pixmap i =>
          let c1 := framebuffer1.getD (i + delta + j * width) Vec3f.zero
          let c2 := framebuffer2.getD (i + j * width) Vec3f.zero
          write_pixel pixmap (j * (width - delta) + i) (composite_pixel c1 c2))
        pixmap)
    (List.replicate ((width - delta) * height * 3) 0)

/-- The constant `delta` of `render`. -/
def delta : ℕ := 60

/-- The constant `width` of `render`. -/
def width : ℕ := 1024 + delta

/-- The constant `height` of `render`. -/
def height : ℕ := 768

/-- The `pixmap` that `render` hands to the image writer, from the two framebuffers. -/
def render_pixmap (framebuffer1 framebuffer2 : List (Vec3f K)) : List ℕ :=
  composite_loop width height delta framebuffer1 framebuffer2


/-- A colour whose three channels lie in `[0, 1]`. -/
def InUnit (c : Vec3f K) : Prop :=
  0 ≤ c.x ∧ c.x ≤ 1 ∧ 0 ≤ c.y ∧ c.y ≤ 1 ∧ 0 ≤ c.z ∧ c.z ≤ 1

/-- Two spheres that the ray both hits are hit at different distances. -/
def DistinctHits (sqrtf : K → K) (orig dir : Vec3f K) (a b : Sphere K) : Prop :=
  ∀ da db : K, a.ray_intersect sqrtf orig dir = some da →
    b.ray_intersect sqrtf orig dir = some db → da ≠ db

/-- The two tests that guard the assignments of `N` and `material` in the small portal
branch of `scene_intersect`, with `spheres_dist` the running minimum at that point. -/
def small_portal_taken (sqrtf : K → K) (orig dir : Vec3f K) (spheres_dist : K) : Prop :=
  ∃ t0 t1 : K, small_sphere.ray_intersect2 sqrtf orig dir = some (t0, t1) ∧
    t0 < spheres_dist ∧
    center_dist sqrtf large_sphere.center (orig + dir.scale t1) ≤ large_sphere.radius

/-- The two tests that guard the assignments of `N` and `material` in the large portal
branch of `scene_intersect`, with `spheres_dist` the running minimum at that point. -/
def large_portal_taken (sqrtf : K → K) (orig dir : Vec3f K) (spheres_dist : K) : Prop :=
  ∃ dist_i : K, large_sphere.ray_intersect sqrtf orig dir = some dist_i ∧
    dist_i < spheres_dist ∧
    center_dist sqrtf small_sphere.center (orig + dir.scale dist_i) ≥ small_sphere.radius

/-- A point inside the region tested by the checkerboard branch: `|x| < 10`,
`-30 < z < -10`. -/
def InBoard (p : Vec3f K) : Prop := |p.x| < 10 ∧ -30 < p.z ∧ p.z < -10

/-- A colour without negative channel. -/
def NonnegColor (c : Vec3f K) : Prop := 0 ≤ c.x ∧ 0 ≤ c.y ∧ 0 ≤ c.z

/-- A material with non-negative albedo weights and non-negative diffuse colour. -/
def NonnegMaterial (mat : Material K) : Prop :=
  0 ≤ mat.albedo.a0 ∧ 0 ≤ mat.albedo.a1 ∧ 0 ≤ mat.albedo.a2 ∧ 0 ≤ mat.albedo.a3 ∧
    NonnegColor mat.diffuse_color

/-- What the development assumes of the C library `powf`: on a non-negative base it does
not return a negative value. -/
def PowSpec (powf : K → K → K) : Prop := ∀ x y : K, 0 ≤ x → 0 ≤ powf x y

/-! ## Concrete data used to instantiate the theorems -/

/-- A two-by-one environment map, with no mesh. -/
def demo_globals : Globals K := ⟨2, 1, [⟨1, 1, 1⟩, ⟨0, 0, 0⟩], Model.empty, fun _ => 0⟩

/-- A purely diffuse material: albedo `(1,0,0,0)`. -/
def demo_diffuse : Material K := ⟨1, ⟨1, 0, 0, 0⟩, ⟨0.3, 0.1, 0.1⟩, 10⟩

/-- A purely reflective material: albedo `(0,0,1,0)`. -/
def demo_mirror : Material K := ⟨1, ⟨0, 0, 1, 0⟩, ⟨1, 1, 1⟩, 1425⟩

/-- Modelled from the spec: `Model::ray_triangle_intersect` (`model.cpp`, not among the
sources), the standard Möller–Trumbore test on the triangle `v0 v1 v2`: it fails if the ray
is parallel to the triangle plane, if the hit lies outside the triangle (barycentric bounds)
or if it does not lie in front of the origin; on success it writes the distance to `tnear`,
on failure `tnear` is left as it was. -/
def ray_triangle (v0 v1 v2 orig dir : Vec3f K) (tnear : K) : Bool × K :=
  let edge1 := v1 - v0
  let edge2 := v2 - v0
  let pvec := Vec3f.cross dir edge2
  let det := edge1.dot pvec
  if det = 0 then (false, tnear)
  else
    let tvec := orig - v0
    let u := tvec.dot pvec / det
    if u < 0 ∨ u > 1 then (false, tnear)
    else
      let qvec := Vec3f.cross tvec edge1
      let v := dir.dot qvec / det
      if v < 0 ∨ u + v > 1 then (false, tnear)
      else
        let t := edge2.dot qvec / det
        if t > 0 then (true, t) else (false, tnear)

/-- The mesh made of the listed triangles: face `fi` has the vertices `3*fi`, `3*fi+1`,
`3*fi+2`. -/
def Model.ofTriangles (tris : List (Vec3f K × Vec3f K × Vec3f K)) : Model K :=
  let point : ℕ → Vec3f K := fun p =>
    match tris[p / 3]? with
    | some t => if p % 3 = 0 then t.1 else if p % 3 = 1 then t.2.1 else t.2.2
    | none => Vec3f.zero
  let vert : ℕ → ℕ → ℕ := fun fi k => 3 * fi + k
  { nfaces := tris.length
    vert := vert
    point := point
    ray_triangle_intersect := fun fi orig dir tnear =>
      ray_triangle (point (vert fi 0)) (point (vert fi 1)) (point (vert fi 2)) orig dir tnear }

/-- A mesh of two triangles crossing the negative z axis, the first at distance 1 from the
origin with face normal `(0,0,1)`, the second at distance 2.75 with face normal
`(0, 3/5, 4/5)`. -/
def demo_mesh : Model K :=
  Model.ofTriangles
    [(⟨-1, -1, -1⟩, ⟨1, -1, -1⟩, ⟨0, 1, -1⟩), (⟨-1, -1, -2⟩, ⟨1, -1, -2⟩, ⟨0, 1, -3.5⟩)]

end Field

/-! ## Floats with NaN and infinities

The second embedding.  A float is a number of `K`, `+inf`, `-inf` or NaN (`Fl K`).  The
result of an operation on two numbers is the rounding of the exact result (`Rounding.rnd`:
any function that commutes with the sign; the theorems hold for every such rounding); the
operations on infinities and NaN, division by zero, the comparisons (false as soon as one
side is NaN), `std::min` and `std::max` follow IEEE 754 and the C++ library.  The sign of
zero is not tracked: `x / 0` is the infinity of the sign of `x`.

The functions are those of the first embedding, under the same names, translated from the
same source lines.  `refract` and `cast_ray` take as an argument the number of nested
invocations they are allowed, and report when it does not suffice. -/

namespace Ieee

/-- A `float` value: a number, `+inf`, `-inf` or NaN.  The sign of zero is not tracked. -/
inductive Fl (K : Type) where
  | num (x : K)
  | pinf
  | ninf
  | nan

section Arith

variable {K : Type} [LinearOrderedField K]

open Fl

/-- Unary minus. -/
def Fl.neg : Fl K → Fl K
  | num x => num (-x)
  | pinf => ninf
  | ninf => pinf
  | nan => nan

/-- The rounding of the exact result of an operation on two numbers to a float: a number,
or an infinity when the result overflows.  The one law assumed of it is that it commutes
with the sign, as every rounding to nearest does. -/
class Rounding (K : Type) [LinearOrderedField K] where
  rnd : K → Fl K
  rnd_neg : ∀ x, rnd (-x) = Fl.neg (rnd x)

/-- The rounding of the example scenes: exact up to `FLT_MAX`, an infinity beyond it. -/
def Fl.ofExact (x : K) : Fl K :=
  if FLT_MAX < x then pinf else if x < -FLT_MAX then ninf else num x

/-- The rounding used where none is given: `Fl.ofExact`. -/
instance idealRounding : Rounding K where
  rnd := Fl.ofExact
  rnd_neg := fun x => by
    have hM : (0 : K) < FLT_MAX := by unfold FLT_MAX; norm_num
    unfold Fl.ofExact
    by_cases h1 : FLT_MAX < x
    · have h2 : ¬ FLT_MAX < -x := by intro h; linarith
      have h3 : -x < -FLT_MAX := by linarith
      rw [if_pos h1, if_neg h2, if_pos h3]; rfl
    · by_cases h4 : x < -FLT_MAX
      · have h5 : FLT_MAX < -x := by linarith
        rw [if_neg h1, if_pos h4, if_pos h5]; rfl
      · have h6 : ¬ FLT_MAX < -x := by intro h; apply h4; linarith
        have h7 : ¬ -x < -FLT_MAX := by intro h; apply h1; linarith
        rw [if_neg h1, if_neg h4, if_neg h6, if_neg h7]; rfl

variable [Rounding K]

/-- The infinity of the sign of `x`; NaN for `x = 0` (`0 * inf`, `0 / 0`). -/
def Fl.signedInf (x : K) : Fl K := if 0 < x then pinf else if x < 0 then ninf else nan

/-- Addition of IEEE 754: the rounded sum of two numbers, `inf - inf` is NaN. -/
def Fl.add : Fl K → Fl K → Fl K
  | num x, num y => Rounding.rnd (x + y)
  | num _, pinf => pinf
  | num _, ninf => ninf
  | num _, nan => nan
  | pinf, num _ => pinf
  | pinf, pinf => pinf
  | pinf, ninf => nan
  | pinf, nan => nan
  | ninf, num _ => ninf
  | ninf, pinf => nan
  | ninf, ninf => ninf
  | ninf, nan => nan
  | nan, _ => nan

/-- Multiplication of IEEE 754: the rounded product of two numbers, `0 * inf` is NaN. -/
def Fl.mul : Fl K → Fl K → Fl K
  | num x, num y => Rounding.rnd (x * y)
  | num x, pinf => Fl.signedInf x
  | num x, ninf => Fl.signedInf (-x)
  | num _, nan => nan
  | pinf, num y => Fl.signedInf y
  | pinf, pinf => pinf
  | pinf, ninf => ninf
  | pinf, nan => nan
  | ninf, num y => Fl.signedInf (-y)
  | ninf, pinf => ninf
  | ninf, ninf => pinf
  | ninf, nan => nan
  | nan, _ => nan

/-- Division of IEEE 754: the rounded quotient of two numbers, `x / 0` is the infinity of
the sign of `x`, `0 / 0` and `inf / inf` are NaN. -/
def Fl.div : Fl K → Fl K → Fl K
  | num x, num y => if y = 0 then Fl.signedInf x else Rounding.rnd (x / y)
  | num _, pinf => num 0
  | num _, ninf => num 0
  | num _, nan => nan
  | pinf, num y => if 0 ≤ y then pinf else ninf
  | pinf, pinf => nan
  | pinf, ninf => nan
  | pinf, nan => nan
  | ninf, num y => if 0 ≤ y then ninf else pinf
  | ninf, pinf => nan
  | ninf, ninf => nan
  | ninf, nan => nan
  | nan, _ => nan

/-- The comparison `a < b`: false as soon as one side is NaN. -/
def Fl.ltb : Fl K → Fl K → Bool
  | num x, num y => decide (x < y)
  | num _, pinf => true
  | num _, ninf => false
  | num _, nan => false
  | pinf, _ => false
  | ninf, num _ => true
  | ninf, pinf => true
  | ninf, ninf => false
  | ninf, nan => false
  | nan, _ => false

/-- The comparison `a <= b`: false as soon as one side is NaN. -/
def Fl.leb : Fl K → Fl K → Bool
  | num x, num y => decide (x ≤ y)
  | num _, pinf => true
  | num _, ninf => false
  | num _, nan => false
  | pinf, pinf => true
  | pinf, num _ => false
  | pinf, ninf => false
  | pinf, nan => false
  | ninf, num _ => true
  | ninf, pinf => true
  | ninf, ninf => true
  | ninf, nan => false
  | nan, _ => false

instance : Neg (Fl K) := ⟨Fl.neg⟩
instance : Add (Fl K) := ⟨Fl.add⟩
instance : Sub (Fl K) := ⟨fun a b => Fl.add a (Fl.neg b)⟩
instance : Mul (Fl K) := ⟨Fl.mul⟩
instance : Div (Fl K) := ⟨Fl.div⟩
instance : LT (Fl K) := ⟨fun a b => Fl.ltb a b = true⟩
instance : LE (Fl K) := ⟨fun a b => Fl.leb a b = true⟩
instance (a b : Fl K) : Decidable (a < b) := inferInstanceAs (Decidable (Fl.ltb a b = true))
instance (a b : Fl K) : Decidable (a ≤ b) := inferInstanceAs (Decidable (Fl.leb a b = true))

/-- The function `std::min(a, b)`: `(b < a) ? b : a`. -/
def std_min (a b : Fl K) : Fl K := if b < a then b else a

/-- The function `std::max(a, b)`: `(a < b) ? b : a`. -/
def std_max (a b : Fl K) : Fl K := if a < b then b else a

/-- The function `fabs`. -/
def fabs : Fl K → Fl K
  | num x => num |x|
  | pinf => pinf
  | ninf => pinf
  | nan => nan

/-- A function of the C library on floats, from the function `f` on numbers: the rounded
value on a number, NaN elsewhere. -/
def Fl.map (f : K → K) : Fl K → Fl K
  | num x => Rounding.rnd (f x)
  | _ => nan

/-- A function of two arguments of the C library on floats, from the function `f` on
numbers: the rounded value on numbers, NaN elsewhere. -/
def Fl.map2 (f : K → K → K) : Fl K → Fl K → Fl K
  | num x, num y => Rounding.rnd (f x y)
  | _, _ => nan

/-- The square root of the C library on floats, from the square root `s` on numbers: NaN on
a negative argument and on NaN, `+inf` on `+inf`. -/
def Fl.sqrt (s : K → K) : Fl K → Fl K
  | num x => if x < 0 then nan else Rounding.rnd (s x)
  | pinf => pinf
  | ninf => nan
  | nan => nan

end Arith

section Program

variable {K : Type} [LinearOrderedField K] [FloorRing K] [Rounding K]

open Fl

/-- Conversion of a float to `int`: truncation toward zero; the conversion of an infinity or
of NaN (undefined in the program) gives 0. -/
def toInt : Fl K → ℤ
  | num x => truncToInt x
  | pinf => 0
  | ninf => 0
  | nan => 0

/-- Modelled from the spec: `operator+` of `geometry.h` on float vectors. -/
def vadd (a b : Vec3f (Fl K)) : Vec3f (Fl K) := ⟨a.x + b.x, a.y + b.y, a.z + b.z⟩

/-- Modelled from the spec: binary `operator-` of `geometry.h` on float vectors. -/
def vsub (a b : Vec3f (Fl K)) : Vec3f (Fl K) := ⟨a.x - b.x, a.y - b.y, a.z - b.z⟩

/-- Modelled from the spec: `operator*(vec, scalar)` of `geometry.h` on float vectors. -/
def vscale (a : Vec3f (Fl K)) (s : Fl K) : Vec3f (Fl K) := ⟨a.x * s, a.y * s, a.z * s⟩

/-- Modelled from the spec: unary `operator-` of `geometry.h`, every component times `-1`;
on a float that is its exact negation. -/
def vneg (a : Vec3f (Fl K)) : Vec3f (Fl K) := ⟨-a.x, -a.y, -a.z⟩

/-- Modelled from the spec: `operator*(vec, vec)` of `geometry.h`, the dot product. -/
def vdot (a b : Vec3f (Fl K)) : Fl K := a.x * b.x + a.y * b.y + a.z * b.z

/-- Modelled from the spec: `cross` of `geometry.h`. -/
def vcross (a b : Vec3f (Fl K)) : Vec3f (Fl K) :=
  ⟨a.y * b.z - a.z * b.y, a.z * b.x - a.x * b.z, a.x * b.y - a.y * b.x⟩

/-- Modelled from the spec: `norm()` of `geometry.h`. -/
def vnorm (sqrtf : Fl K → Fl K) (a : Vec3f (Fl K)) : Fl K :=
  sqrtf (a.x * a.x + a.y * a.y + a.z * a.z)

/-- Modelled from the spec: `normalize()` of `geometry.h`, `v * (1 / v.norm())`; on the zero
vector this is `0 * (1/0)`, NaN in every component. -/
def vnormalize (sqrtf : Fl K → Fl K) (a : Vec3f (Fl K)) : Vec3f (Fl K) :=
  vscale a (num 1 / vnorm sqrtf a)

/-- The vector of the numbers `x`, `y`, `z`. -/
def vec (x y z : K) : Vec3f (Fl K) := ⟨num x, num y, num z⟩

/-- The default constructor `Material()`. -/
def default_material : Material (Fl K) := ⟨num 1, ⟨num 1, num 0, num 0, num 0⟩, vec 0 0 0, num 0⟩

/-- What `cast_ray` passes for the out-parameters: default-constructed locals. -/
def default_hit : HitRec (Fl K) := ⟨vec 0 0 0, vec 0 0 0, default_material⟩

/-- One-root `Sphere::ray_intersect(orig, dir, t0)` on floats. -/
def ray_intersect (sqrtf : Fl K → Fl K) (s : Sphere (Fl K)) (orig dir : Vec3f (Fl K)) :
    Option (Fl K) :=
  let L := vsub s.center orig
  let tca := vdot L dir
  let d2 := vdot L L - tca * tca
  if d2 > s.radius * s.radius then none
  else
    let thc := sqrtf (s.radius * s.radius - d2)
    let t0 := tca - thc
    let t1 := tca + thc
    let t0 := if t0 < num 0 then t1 else t0
    if t0 < num 0 then none else some t0

/-- Two-root `Sphere::ray_intersect(orig, dir, t0, t1)` on floats. -/
def ray_intersect2 (sqrtf : Fl K → Fl K) (s : Sphere (Fl K)) (orig dir : Vec3f (Fl K)) :
    Option (Fl K × Fl K) :=
  let L := vsub s.center orig
  let tca := vdot L dir
  let d2 := vdot L L - tca * tca
  if d2 > s.radius * s.radius then none
  else
    let thc := sqrtf (s.radius * s.radius - d2)
    let t0 := tca - thc
    let t1 := tca + thc
    if t1 < num 0 then none else some (t0, t1)

/-- The function `reflect` on floats: `I - N*2.f*(I*N)`. -/
def reflect (I N : Vec3f (Fl K)) : Vec3f (Fl K) :=
  vsub I (vscale (vscale N (num 2)) (vdot I N))

/-- The clamped cosine of `refract` on floats: `- std::max(-1.f, std::min(1.f, I*N))`.  With
`I*N` NaN, `std::min(1.f, NaN)` is `1.f` and the value is `-1`. -/
def refract_cosi (I N : Vec3f (Fl K)) : Fl K :=
  -(std_max (num (-1)) (std_min (num 1) (vdot I N)))

/-- The part of `refract` after the recursion test, on floats. -/
def refract_body (sqrtf : Fl K → Fl K) (I N : Vec3f (Fl K)) (eta_t eta_i : Fl K) :
    Vec3f (Fl K) :=
  let cosi := refract_cosi I N
  let eta := eta_i / eta_t
  let k := num 1 - eta * eta * (num 1 - cosi * cosi)
  if k < num 0 then vec 1 0 0 else vadd (vscale I eta) (vscale N (eta * cosi - sqrtf k))

/-- The function `refract` on floats, with `fuel` bounding the depth of its recursion:
`none` when the recursion is deeper than `fuel`. -/
def refract (sqrtf : Fl K → Fl K) (fuel : ℕ) (I N : Vec3f (Fl K)) (eta_t eta_i : Fl K) :
    Option (Vec3f (Fl K)) :=
  match fuel with
  | 0 => none
  | fuel + 1 =>
    if refract_cosi I N < num 0 then refract sqrtf fuel I (vneg N) eta_i eta_t
    else some (refract_body sqrtf I N eta_t eta_i)

/-- One iteration of the sphere loop of `scene_intersect`, on floats. -/
def sphere_step (sqrtf : Fl K → Fl K) (orig dir : Vec3f (Fl K)) (st : Fl K × HitRec (Fl K))
    (s : Sphere (Fl K)) : Fl K × HitRec (Fl K) :=
  match ray_intersect sqrtf s orig dir with
  | some dist_i =>
    if dist_i < st.1 then
      let hit := vadd orig (vscale dir dist_i)
      (dist_i, ⟨hit, vnormalize sqrtf (vsub hit s.center), s.material⟩)
    else st
  | none => st

/-- The sphere loop of `scene_intersect`, on floats. -/
def spheres_loop (sqrtf : Fl K → Fl K) (orig dir : Vec3f (Fl K))
    (spheres : List (Sphere (Fl K))) (out : HitRec (Fl K)) : Fl K × HitRec (Fl K) :=
  spheres.foldl (sphere_step sqrtf orig dir) (num FLT_MAX, out)

/-- The material given to the whole mesh. -/
def duck_material : Material (Fl K) :=
  ⟨num 1.5, ⟨num 0.0, num 0.5, num 0.1, num 0.8⟩, vec 0.6 0.7 0.8, num 125⟩

/-- One iteration of the mesh loop of `scene_intersect`, on floats. -/
def duck_step (sqrtf : Fl K → Fl K) (duck : Model (Fl K)) (dist_tr : ℕ → Fl K)
    (orig dir : Vec3f (Fl K)) (st : Fl K × HitRec (Fl K)) (fi : ℕ) :
    Fl K × HitRec (Fl K) :=
  let r := duck.ray_triangle_intersect fi orig dir st.1
  if r.1 = true ∧ dist_tr fi < r.2 then
    let vP0 := duck.point (duck.vert fi 0)
    let vP1 := duck.point (duck.vert fi 1)
    let vP2 := duck.point (duck.vert fi 2)
    (dist_tr fi, ⟨vadd orig (vscale dir (dist_tr fi)),
      vnormalize sqrtf (vcross (vsub vP1 vP0) (vsub vP2 vP0)), duck_material⟩)
  else (r.2, st.2)

/-- The mesh loop of `scene_intersect`, on floats. -/
def duck_loop (sqrtf : Fl K → Fl K) (duck : Model (Fl K)) (dist_tr : ℕ → Fl K)
    (orig dir : Vec3f (Fl K)) (out : HitRec (Fl K)) : Fl K × HitRec (Fl K) :=
  (List.range duck.nfaces).foldl (duck_step sqrtf duck dist_tr orig dir) (num FLT_MAX, out)

/-- The local `small_sphere` of `scene_intersect`. -/
def small_sphere : Sphere (Fl K) :=
  ⟨vec (-5.5) 4.9 (-16), num 0.9,
    ⟨num 1.0, ⟨num 0.9, num 0.1, num 0.0, num 0.0⟩, vec 0.15 0.15 0.15, num 10⟩⟩

/-- The local `large_sphere` of `scene_intersect`. -/
def large_sphere : Sphere (Fl K) :=
  ⟨vec (-8) 5 (-18), num 3,
    ⟨num 1.0, ⟨num 0.9, num 0.1, num 0.0, num 0.0⟩, vec 0.12 0.12 0.12, num 10⟩⟩

/-- The containment tests of the portal spheres, on floats. -/
def center_dist (sqrtf : Fl K → Fl K) (c hit : Vec3f (Fl K)) : Fl K :=
  sqrtf ((c.x - hit.x) * (c.x - hit.x) + (c.y - hit.y) * (c.y - hit.y)
    + (c.z - hit.z) * (c.z - hit.z))

/-- The small portal sphere of `scene_intersect`, on floats. -/
def small_portal (sqrtf : Fl K → Fl K) (orig dir : Vec3f (Fl K))
    (st : Fl K × HitRec (Fl K)) : Fl K × HitRec (Fl K) :=
  match ray_intersect2 sqrtf small_sphere orig dir with
  | some (dist_i_t0, dist_i_t1) =>
    if dist_i_t0 < st.1 then
      let hit := vadd orig (vscale dir dist_i_t1)
      if center_dist sqrtf large_sphere.center hit ≤ large_sphere.radius then
        (dist_i_t1, ⟨hit, vnormalize sqrtf (vneg (vsub hit small_sphere.center)),
          small_sphere.material⟩)
      else (st.1, ⟨hit, st.2.N, st.2.material⟩)
    else st
  | none => st

/-- The large portal sphere of `scene_intersect`, on floats. -/
def large_portal (sqrtf : Fl K → Fl K) (orig dir : Vec3f (Fl K))
    (st : Fl K × HitRec (Fl K)) : Fl K × HitRec (Fl K) :=
  match ray_intersect sqrtf large_sphere orig dir with
  | some dist_i =>
    if dist_i < st.1 then
      let hit := vadd orig (vscale dir dist_i)
      if center_dist sqrtf small_sphere.center hit ≥ small_sphere.radius then
        (dist_i, ⟨hit, vnormalize sqrtf (vsub hit large_sphere.center),
          large_sphere.material⟩)
      else (st.1, ⟨hit, st.2.N, st.2.material⟩)
    else st
  | none => st

/-- The shade of the checkerboard at `hit`, on floats. -/
def checker_color (hit : Vec3f (Fl K)) : Vec3f (Fl K) :=
  if (toInt (num 0.5 * hit.x + num 1000) + toInt (num 0.5 * hit.z)) % 2 ≠ 0 then
    vec 0.3 0.3 0.3
  else vec 0.3 0.2 0.1

/-- The checkerboard of `scene_intersect`, on floats. -/
def checkerboard (orig dir : Vec3f (Fl K)) (spheres_dist duck_dist : Fl K)
    (out : HitRec (Fl K)) : Fl K × HitRec (Fl K) :=
  if fabs dir.y > num 0.001 then
    let d := -(orig.y + num 4) / dir.y
    let pt := vadd orig (vscale dir d)
    if d > num 0 ∧ fabs pt.x < num 10 ∧ pt.z < num (-10) ∧ pt.z > num (-30)
        ∧ d < spheres_dist ∧ d < duck_dist then
      (d, ⟨pt, vec 0 1 0,
        ⟨out.material.refractive_index, out.material.albedo, checker_color pt,
          out.material.specular_exponent⟩⟩)
    else (num FLT_MAX, out)
  else (num FLT_MAX, out)

/-- The function `scene_intersect` on floats. -/
def scene_intersect (sqrtf : Fl K → Fl K) (g : Globals (Fl K)) (orig dir : Vec3f (Fl K))
    (spheres : List (Sphere (Fl K))) (out : HitRec (Fl K)) : Bool × HitRec (Fl K) :=
  let s1 := spheres_loop sqrtf orig dir spheres out
  let s2 := duck_loop sqrtf g.duck g.dist_tr orig dir s1.2
  let s3 := small_portal sqrtf orig dir (s1.1, s2.2)
  let s4 := large_portal sqrtf orig dir s3
  let s5 := checkerboard orig dir s4.1 s2.1 s4.2
  (decide (std_min (std_min s4.1 s5.1) s2.1 < num 1000), s5.2)

/-- The column `i` and the row `j` computed in the environment branch of `cast_ray`, on
floats. -/
def envmap_coords (m : Libm (Fl K)) (g : Globals (Fl K)) (dir : Vec3f (Fl K)) : ℤ × ℤ :=
  let theta := m.acos (dir.y / m.sqrtf (vdot dir dir))
  let phi := m.atan2 dir.z dir.x
  let i := toInt ((phi + m.M_PI) / (num 2 * m.M_PI) * num ((g.envmap_width - 1 : ℤ) : K))
  let j := toInt (theta / m.M_PI * num ((g.envmap_height - 1 : ℤ) : K))
  (i, j)

/-- The read `envmap[idx]`; an index outside the vector (undefined in the program) reads
the zero colour. -/
def envmap_at (g : Globals (Fl K)) (idx : ℤ) : Vec3f (Fl K) :=
  match idx with
  | Int.ofNat n => g.envmap.getD n (vec 0 0 0)
  | Int.negSucc _ => vec 0 0 0

/-- The environment branch of `cast_ray`, on floats. -/
def envmap_sample (m : Libm (Fl K)) (g : Globals (Fl K)) (dir : Vec3f (Fl K)) :
    Vec3f (Fl K) :=
  let c := envmap_coords m g dir
  envmap_at g (c.1 + c.2 * g.envmap_width)

/-- The offset origin of a secondary ray, on floats. -/
def offset_orig (d point N : Vec3f (Fl K)) : Vec3f (Fl K) :=
  if vdot d N < num 0 then vsub point (vscale N (num 0.001))
  else vadd point (vscale N (num 0.001))

/-- One iteration of the light loop of `cast_ray`, on floats. -/
def light_step (m : Libm (Fl K)) (g : Globals (Fl K)) (spheres : List (Sphere (Fl K)))
    (dir point N : Vec3f (Fl K)) (material : Material (Fl K)) (acc : Fl K × Fl K)
    (l : Light (Fl K)) : Fl K × Fl K :=
  let light_dir := vnormalize m.sqrtf (vsub l.position point)
  let light_distance := vnorm m.sqrtf (vsub l.position point)
  let shadow_orig := offset_orig light_dir point N
  let r := scene_intersect m.sqrtf g shadow_orig light_dir spheres default_hit
  if r.1 = true ∧ vnorm m.sqrtf (vsub r.2.hit shadow_orig) < light_distance then acc
  else
    (acc.1 + l.intensity * std_max (num 0) (vdot light_dir N),
     acc.2 + m.powf (std_max (num 0) (vdot (vneg (reflect (vneg light_dir) N)) dir))
       material.specular_exponent * l.intensity)

/-- The light loop of `cast_ray`, on floats. -/
def light_loop (m : Libm (Fl K)) (g : Globals (Fl K)) (spheres : List (Sphere (Fl K)))
    (lights : List (Light (Fl K))) (dir point N : Vec3f (Fl K))
    (material : Material (Fl K)) : Fl K × Fl K :=
  lights.foldl (light_step m g spheres dir point N material) (num 0, num 0)

/-- The returned colour of `cast_ray` on a hit, on floats. -/
def shade (material : Material (Fl K)) (diffuse_light_intensity specular_light_intensity : Fl K)
    (reflect_color refract_color : Vec3f (Fl K)) : Vec3f (Fl K) :=
  vadd (vadd (vadd
    (vscale (vscale material.diffuse_color diffuse_light_intensity) material.albedo.a0)
    (vscale (vscale (vec 1 1 1) specular_light_intensity) material.albedo.a1))
    (vscale reflect_color material.albedo.a2))
    (vscale refract_color material.albedo.a3)

/-- How an invocation of `cast_ray` ends: it returns a colour (with the log of the
invocations made, as in `cast_ray_log`), or the call `refract(I, N, ...)` it makes does not
return within the fuel given to `refract`, or its own recursion is deeper than its fuel. -/
inductive Outcome (K : Type) where
  | value (color : Vec3f (Fl K)) (log : List (ℕ × Bool))
  | refract_stuck (I N : Vec3f (Fl K))
  | out_of_fuel

/-- The function `cast_ray` on floats, statement by statement in the order of the source;
`fuel` bounds the depth of its own recursion, `rfuel` the depth of the recursion of
`refract`. -/
def cast_ray (m : Libm (Fl K)) (g : Globals (Fl K)) (spheres : List (Sphere (Fl K)))
    (lights : List (Light (Fl K))) (rfuel : ℕ) (fuel : ℕ) (orig dir : Vec3f (Fl K))
    (depth : ℕ) : Outcome K :=
  match fuel with
  | 0 => Outcome.out_of_fuel
  | fuel + 1 =>
    if depth > 4 then Outcome.value (envmap_sample m g dir) [(depth, false)]
    else
      let r := scene_intersect m.sqrtf g orig dir spheres default_hit
      if r.1 = false then Outcome.value (envmap_sample m g dir) [(depth, true)]
      else
        let point := r.2.hit
        let N := r.2.N
        let material := r.2.material
        let reflect_dir := vnormalize m.sqrtf (reflect dir N)
        match refract m.sqrtf rfuel dir N material.refractive_index (num 1) with
        | none => Outcome.refract_stuck dir N
        | some refracted =>
          let refract_dir := vnormalize m.sqrtf refracted
          let reflect_orig := offset_orig reflect_dir point N
          let refract_orig := offset_orig refract_dir point N
          match cast_ray m g spheres lights rfuel fuel reflect_orig reflect_dir (depth + 1) with
          | Outcome.value reflect_color log1 =>
            match cast_ray m g spheres lights rfuel fuel refract_orig refract_dir (depth + 1)
            with
            | Outcome.value refract_color log2 =>
              let li := light_loop m g spheres lights dir point N material
              Outcome.value (shade material li.1 li.2 reflect_color refract_color)
                ((depth, true) :: (log1 ++ log2))
            | Outcome.refract_stuck I N2 => Outcome.refract_stuck I N2
            | Outcome.out_of_fuel => Outcome.out_of_fuel
          | Outcome.refract_stuck I N2 => Outcome.refract_stuck I N2
          | Outcome.out_of_fuel => Outcome.out_of_fuel

/-- The mesh without faces. -/
def empty_model : Model (Fl K) :=
  ⟨0, fun _ _ => 0, fun _ => vec 0 0 0, fun _ _ _ t => (false, t)⟩

/-- Globals of the example scenes: a two-pixel environment map, no mesh. -/
def demo_globals : Globals (Fl K) :=
  ⟨2, 1, [vec 1 1 1, vec 0 0 0], empty_model, fun _ => num 0⟩

/-- The vector whose three components are NaN. -/
def nan_vec : Vec3f (Fl K) := ⟨nan, nan, nan⟩

/-- The sphere of radius 0 of the example scene, of the material `ivory` of `main`. -/
def point_sphere : Sphere (Fl K) :=
  ⟨vec 0 0 (-10), num 0, ⟨num 1.0, ⟨num 0.6, num 0.3, num 0.1, num 0.0⟩, vec 0.4 0.4 0.3, num 50⟩⟩

end Program

end Ieee

/-! ## Basic facts about vectors and the square root -/

section FieldLemmas

variable {K : Type} [LinearOrderedField K]

theorem Vec3f.add_def (a b : Vec3f K) : a + b = ⟨a.x + b.x, a.y + b.y, a.z + b.z⟩ := rfl

theorem Vec3f.sub_def (a b : Vec3f K) : a - b = ⟨a.x - b.x, a.y - b.y, a.z - b.z⟩ := rfl

theorem Vec3f.neg_def (a : Vec3f K) : -a = ⟨a.x * -1, a.y * -1, a.z * -1⟩ := rfl

theorem Vec3f.dot_self_nonneg (a : Vec3f K) : 0 ≤ a.dot a := by
  unfold Vec3f.dot
  nlinarith [mul_self_nonneg a.x, mul_self_nonneg a.y, mul_self_nonneg a.z]

theorem SqrtSpec.norm_nonneg {sqrtf : K → K} (hs : SqrtSpec sqrtf) (a : Vec3f K) :
    0 ≤ a.norm sqrtf :=
  (hs _ a.dot_self_nonneg).1

theorem SqrtSpec.norm_mul_self {sqrtf : K → K} (hs : SqrtSpec sqrtf) (a : Vec3f K) :
    a.norm sqrtf * a.norm sqrtf = a.dot a :=
  (hs _ a.dot_self_nonneg).2

theorem SqrtSpec.dot_self_of_norm_one {sqrtf : K → K} (hs : SqrtSpec sqrtf) (a : Vec3f K)
    (h : a.norm sqrtf = 1) : a.dot a = 1 := by
  rw [← hs.norm_mul_self a, h, mul_one]

theorem SqrtSpec.sqrtf_mul_self {sqrtf : K → K} (hs : SqrtSpec sqrtf) (a : K) (ha : 0 ≤ a) :
    sqrtf (a * a) = a := by
  obtain ⟨h0, h1⟩ := hs (a * a) (mul_self_nonneg a)
  exact (mul_self_inj h0 ha).1 h1

theorem reflect_dot_self (D N : Vec3f K) (hN : N.dot N = 1) :
    (reflect D N).dot (reflect D N) = D.dot D := by
  simp only [reflect, Vec3f.sub_def, Vec3f.scale, Vec3f.dot] at hN ⊢
  linear_combination (4 * (D.x * N.x + D.y * N.y + D.z * N.z) ^ 2) * hN

theorem duck_loop_empty (sqrtf : K → K) (duck : Model K) (dist_tr : ℕ → K)
    (orig dir : Vec3f K) (out : HitRec K) (h : duck.nfaces = 0) :
    duck_loop sqrtf duck dist_tr orig dir out = (FLT_MAX, out) := by
  simp [duck_loop, h]

theorem SqrtSpec.sqrtf_four {sqrtf : K → K} (hs : SqrtSpec sqrtf) : sqrtf 4 = 2 := by
  have h := hs.sqrtf_mul_self 2 (by norm_num)
  norm_num at h
  exact h

theorem SqrtSpec.sqrtf_nine {sqrtf : K → K} (hs : SqrtSpec sqrtf) : sqrtf 9 = 3 := by
  have h := hs.sqrtf_mul_self 3 (by norm_num)
  norm_num at h
  exact h

theorem SqrtSpec.sqrtf_one {sqrtf : K → K} (hs : SqrtSpec sqrtf) : sqrtf 1 = 1 := by
  have h := hs.sqrtf_mul_self 1 (by norm_num)
  norm_num at h
  exact h

theorem Vec3f.scale_zero (a : Vec3f K) : a.scale 0 = ⟨0, 0, 0⟩ := by
  simp [Vec3f.scale]

/-! ## Claims -/

/-- C8: `reflect` is an involution in its first argument: for every vector `D` and every
unit vector `N`, `reflect(reflect(D, N), N) = D`. -/
theorem reflect_involution (sqrtf : K → K) (hs : SqrtSpec sqrtf) (D N : Vec3f K)
    (hN : N.norm sqrtf = 1) : reflect (reflect D N) N = D := by
  have h1 := hs.dot_self_of_norm_one N hN
  simp only [reflect, Vec3f.sub_def, Vec3f.scale, Vec3f.dot] at h1 ⊢
  cases D with
  | mk dx dy dz =>
    simp only [Vec3f.mk.injEq]
    refine ⟨?_, ?_, ?_⟩
    · linear_combination (4 * N.x * (dx * N.x + dy * N.y + dz * N.z)) * h1
    · linear_combination (4 * N.y * (dx * N.x + dy * N.y + dz * N.z)) * h1
    · linear_combination (4 * N.z * (dx * N.x + dy * N.y + dz * N.z)) * h1

/-- C9: `reflect` preserves length: for a unit normal `N`, `|reflect(D, N)| = |D|`, so the
reflection of a unit direction is a unit vector. -/
theorem reflect_norm (sqrtf : K → K) (hs : SqrtSpec sqrtf) (D N : Vec3f K)
    (hN : N.norm sqrtf = 1) :
    (reflect D N).norm sqrtf = D.norm sqrtf ∧
      (D.norm sqrtf = 1 → (reflect D N).norm sqrtf = 1) := by
  have h1 := reflect_dot_self D N (hs.dot_self_of_norm_one N hN)
  have h2 : (reflect D N).norm sqrtf = D.norm sqrtf := by
    unfold Vec3f.norm
    unfold Vec3f.dot at h1
    rw [h1]
  exact ⟨h2, fun hD => h2.trans hD⟩

/-- C10: refraction at normal incidence does not bend the ray when the media match: for a
unit normal `N`, `D = -N` and a non-zero index `eta`, `refract(D, N, eta, eta) = D`. -/
theorem refract_normal_incidence (sqrtf : K → K) (hs : SqrtSpec sqrtf) (N : Vec3f K)
    (eta : K) (hN : N.norm sqrtf = 1) (heta : eta ≠ 0) :
    refract sqrtf (-N) N eta eta = -N := by
  have h1 := hs.dot_self_of_norm_one N hN
  have hd : (-N).dot N = -1 := by
    rw [← h1]
    simp only [Vec3f.neg_def, Vec3f.dot]
    ring
  have hc : refract_cosi (-N) N = 1 := by
    simp [refract_cosi, hd]
  have hsq : sqrtf 1 = 1 := by
    have := hs.sqrtf_mul_self 1 zero_le_one
    simpa using this
  rw [refract]
  simp only [hc, div_self heta]
  norm_num [hsq]
  simp only [Vec3f.add_def, Vec3f.scale, Vec3f.neg_def]
  simp

theorem onSphere_iff (s : Sphere K) (orig dir : Vec3f K) (hD : dir.dot dir = 1) (u : K) :
    OnSphere s (orig + dir.scale u) ↔
      (u - (s.center - orig).dot dir) * (u - (s.center - orig).dot dir) =
        s.radius * s.radius - ((s.center - orig).dot (s.center - orig)
          - (s.center - orig).dot dir * (s.center - orig).dot dir) := by
  simp only [OnSphere, Vec3f.add_def, Vec3f.sub_def, Vec3f.scale, Vec3f.dot] at hD ⊢
  constructor
  · intro h
    linear_combination h - u ^ 2 * hD
  · intro h
    linear_combination h + u ^ 2 * hD

/-- C1: for a unit direction, the one-root `Sphere::ray_intersect` returns `t` exactly when
`t` is the smallest `s >= 0` with `O + s*D` on the sphere surface, it fails exactly when the
half-line does not meet the surface, and the distance returned is the near root
`tca - thc` when that is `>= 0` and the far root `tca + thc` otherwise. -/
theorem ray_intersect_spec (sqrtf : K → K) (hs : SqrtSpec sqrtf) (s : Sphere K)
    (orig dir : Vec3f K) (hD : dir.norm sqrtf = 1) :
    (∀ t, s.ray_intersect sqrtf orig dir = some t ↔
      (0 ≤ t ∧ OnSphere s (orig + dir.scale t) ∧
        ∀ u, 0 ≤ u → OnSphere s (orig + dir.scale u) → t ≤ u)) ∧
    (s.ray_intersect sqrtf orig dir = none ↔
      ¬ ∃ u, 0 ≤ u ∧ OnSphere s (orig + dir.scale u)) ∧
    (∀ t, s.ray_intersect sqrtf orig dir = some t →
      t = if 0 ≤ s.tca orig dir - s.thc sqrtf orig dir
          then s.tca orig dir - s.thc sqrtf orig dir
          else s.tca orig dir + s.thc sqrtf orig dir) := by
  have hDD := hs.dot_self_of_norm_one dir hD
  have key := onSphere_iff s orig dir hDD
  simp only [Sphere.ray_intersect, Sphere.tca, Sphere.thc]
  generalize (s.center - orig).dot dir = tca at key ⊢
  generalize (s.center - orig).dot (s.center - orig) = LL at key ⊢
  generalize s.radius * s.radius = rr at key ⊢
  by_cases hd : LL - tca * tca > rr
  · -- the line misses the sphere
    have hno : ∀ u, ¬ OnSphere s (orig + dir.scale u) := by
      intro u hu
      have h1 := (key u).1 hu
      nlinarith [mul_self_nonneg (u - tca)]
    rw [if_pos hd]
    refine ⟨fun t => ⟨fun h => (by cases h), fun h => absurd h.2.1 (hno t)⟩, ?_, ?_⟩
    · refine ⟨fun _ => ?_, fun _ => rfl⟩
      rintro ⟨u, _, hu⟩
      exact hno u hu
    · intro t h
      cases h
  · have hdisc : 0 ≤ rr - (LL - tca * tca) := by
      have := not_lt.1 hd
      linarith
    obtain ⟨hthc0, hthc⟩ := hs _ hdisc
    generalize sqrtf (rr - (LL - tca * tca)) = thc at hthc0 hthc ⊢
    rw [← hthc] at key
    have root : ∀ u, OnSphere s (orig + dir.scale u) ↔ (u = tca - thc ∨ u = tca + thc) := by
      intro u
      rw [key u]
      constructor
      · intro h
        rcases mul_self_eq_mul_self_iff.1 h with h | h
        · right; linarith
        · left; linarith
      · rintro (h | h) <;> rw [h] <;> ring
    rw [if_neg hd]
    by_cases h0 : tca - thc < 0
    · simp only [if_pos h0]
      by_cases h1 : tca + thc < 0
      · simp only [if_pos h1]
        refine ⟨fun t => ⟨fun h => (by cases h), ?_⟩, ?_, ?_⟩
        · rintro ⟨ht, hon, _⟩
          rcases (root t).1 hon with h | h <;> linarith
        · refine ⟨fun _ => ?_, fun _ => trivial⟩
          rintro ⟨u, hu, hon⟩
          rcases (root u).1 hon with h | h <;> linarith
        · intro t h
          cases h
      · simp only [if_neg h1]
        have h1' : 0 ≤ tca + thc := not_lt.1 h1
        refine ⟨fun t => ⟨?_, ?_⟩, ?_, ?_⟩
        · intro h
          have ht : tca + thc = t := Option.some.inj h
          subst ht
          refine ⟨h1', (root _).2 (Or.inr rfl), ?_⟩
          intro u hu hon
          rcases (root u).1 hon with h | h
          · linarith
          · linarith
        · rintro ⟨ht, hon, _⟩
          rcases (root t).1 hon with h | h
          · linarith
          · rw [h]
        · refine ⟨fun h => (by cases h), fun h => absurd ?_ h⟩
          exact ⟨tca + thc, h1', (root _).2 (Or.inr rfl)⟩
        · intro t h
          have ht : tca + thc = t := Option.some.inj h
          rw [if_neg (not_le.2 h0)]
          exact ht.symm
    · simp only [if_neg h0]
      have h0' : 0 ≤ tca - thc := not_lt.1 h0
      refine ⟨fun t => ⟨?_, ?_⟩, ?_, ?_⟩
      · intro h
        have ht : tca - thc = t := Option.some.inj h
        subst ht
        refine ⟨h0', (root _).2 (Or.inl rfl), ?_⟩
        intro u hu hon
        rcases (root u).1 hon with h | h
        · linarith
        · linarith
      · rintro ⟨ht, hon, hmin⟩
        have := hmin (tca - thc) h0' ((root _).2 (Or.inl rfl))
        rcases (root t).1 hon with h | h
        · rw [h]
        · have : thc = 0 := by linarith
          rw [h, this]; simp
      · refine ⟨fun h => (by cases h), fun h => absurd ?_ h⟩
        exact ⟨tca - thc, h0', (root _).2 (Or.inl rfl)⟩
      · intro t h
        have ht : tca - thc = t := Option.some.inj h
        rw [if_pos h0']
        exact ht.symm

/-- C6: tone mapping never increases brightness: with `m` the maximum channel of `c`, the
maximum channel of the tone-mapped colour is `<= max(1, m)`, it is `<= 1` whenever
`m > 1`, and the colour is unchanged when `m <= 1`. -/
theorem tone_map_bound (c : Vec3f K) :
    max (tone_map c).x (max (tone_map c).y (tone_map c).z) ≤ max 1 (max c.x (max c.y c.z)) ∧
    (max c.x (max c.y c.z) > 1 → max (tone_map c).x (max (tone_map c).y (tone_map c).z) ≤ 1) ∧
    (max c.x (max c.y c.z) ≤ 1 → tone_map c = c) := by
  have hget : max (c.get 0) (max (c.get 1) (c.get 2)) = max c.x (max c.y c.z) := rfl
  by_cases hm : max c.x (max c.y c.z) > 1
  · have hpos : 0 < max c.x (max c.y c.z) := lt_trans zero_lt_one hm
    have hle : max (tone_map c).x (max (tone_map c).y (tone_map c).z) ≤ 1 := by
      simp only [tone_map, hget, hm, if_true, Vec3f.scale]
      rw [← max_mul_of_nonneg _ _ (le_of_lt (one_div_pos.2 hpos)),
        ← max_mul_of_nonneg _ _ (le_of_lt (one_div_pos.2 hpos))]
      rw [mul_one_div, div_self (ne_of_gt hpos)]
    exact ⟨le_trans hle (le_max_left _ _), fun _ => hle, fun h => absurd hm (not_lt.2 h)⟩
  · have ht : tone_map c = c := by
      simp only [tone_map, hget, hm, if_false]
    rw [ht]
    exact ⟨le_max_right _ _, fun h => absurd h hm, fun _ => rfl⟩

theorem tone_map_of_inUnit (c : Vec3f K) (h : InUnit c) : tone_map c = c := by
  obtain ⟨_, hx, _, hy, _, hz⟩ := h
  have hm : ¬ max (c.get 0) (max (c.get 1) (c.get 2)) > 1 :=
    not_lt.2 (max_le hx (max_le hy hz))
  simp only [tone_map, hm, if_false]

theorem sqrtSpec_real : SqrtSpec Real.sqrt :=
  fun x hx => ⟨Real.sqrt_nonneg x, Real.mul_self_sqrt hx⟩

theorem norm_unit_z_real : (⟨0, 0, 1⟩ : Vec3f ℝ).norm Real.sqrt = 1 := by
  simp [Vec3f.norm]

theorem norm_neg_unit_z_real : (⟨0, 0, -1⟩ : Vec3f ℝ).norm Real.sqrt = 1 := by
  simp [Vec3f.norm]

theorem ray_intersect_spec_witness :
    SqrtSpec Real.sqrt ∧ (⟨0, 0, -1⟩ : Vec3f ℝ).norm Real.sqrt = 1 ∧
    ((∀ t, (⟨⟨0, 0, -10⟩, 2, Material.default⟩ : Sphere ℝ).ray_intersect Real.sqrt
        ⟨0, 0, 0⟩ ⟨0, 0, -1⟩ = some t ↔
      (0 ≤ t ∧ OnSphere (⟨⟨0, 0, -10⟩, 2, Material.default⟩ : Sphere ℝ)
          ((⟨0, 0, 0⟩ : Vec3f ℝ) + (⟨0, 0, -1⟩ : Vec3f ℝ).scale t) ∧
        ∀ u, 0 ≤ u → OnSphere (⟨⟨0, 0, -10⟩, 2, Material.default⟩ : Sphere ℝ)
          ((⟨0, 0, 0⟩ : Vec3f ℝ) + (⟨0, 0, -1⟩ : Vec3f ℝ).scale u) → t ≤ u)) ∧
    ((⟨⟨0, 0, -10⟩, 2, Material.default⟩ : Sphere ℝ).ray_intersect Real.sqrt
        ⟨0, 0, 0⟩ ⟨0, 0, -1⟩ = none ↔
      ¬ ∃ u, 0 ≤ u ∧ OnSphere (⟨⟨0, 0, -10⟩, 2, Material.default⟩ : Sphere ℝ)
          ((⟨0, 0, 0⟩ : Vec3f ℝ) + (⟨0, 0, -1⟩ : Vec3f ℝ).scale u)) ∧
    (∀ t, (⟨⟨0, 0, -10⟩, 2, Material.default⟩ : Sphere ℝ).ray_intersect Real.sqrt
        ⟨0, 0, 0⟩ ⟨0, 0, -1⟩ = some t →
      t = if 0 ≤ (⟨⟨0, 0, -10⟩, 2, Material.default⟩ : Sphere ℝ).tca ⟨0, 0, 0⟩ ⟨0, 0, -1⟩
              - (⟨⟨0, 0, -10⟩, 2, Material.default⟩ : Sphere ℝ).thc Real.sqrt
                  ⟨0, 0, 0⟩ ⟨0, 0, -1⟩
          then (⟨⟨0, 0, -10⟩, 2, Material.default⟩ : Sphere ℝ).tca ⟨0, 0, 0⟩ ⟨0, 0, -1⟩
              - (⟨⟨0, 0, -10⟩, 2, Material.default⟩ : Sphere ℝ).thc Real.sqrt
                  ⟨0, 0, 0⟩ ⟨0, 0, -1⟩
          else (⟨⟨0, 0, -10⟩, 2, Material.default⟩ : Sphere ℝ).tca ⟨0, 0, 0⟩ ⟨0, 0, -1⟩
              + (⟨⟨0, 0, -10⟩, 2, Material.default⟩ : Sphere ℝ).thc Real.sqrt
                  ⟨0, 0, 0⟩ ⟨0, 0, -1⟩)) :=
  ⟨sqrtSpec_real, norm_neg_unit_z_real,
    ray_intersect_spec Real.sqrt sqrtSpec_real ⟨⟨0, 0, -10⟩, 2, Material.default⟩
      ⟨0, 0, 0⟩ ⟨0, 0, -1⟩ norm_neg_unit_z_real⟩

theorem reflect_involution_witness :
    SqrtSpec Real.sqrt ∧ (⟨0, 0, 1⟩ : Vec3f ℝ).norm Real.sqrt = 1 ∧
      reflect (reflect (⟨1, 2, 3⟩ : Vec3f ℝ) ⟨0, 0, 1⟩) ⟨0, 0, 1⟩ = ⟨1, 2, 3⟩ :=
  ⟨sqrtSpec_real, norm_unit_z_real,
    reflect_involution Real.sqrt sqrtSpec_real ⟨1, 2, 3⟩ ⟨0, 0, 1⟩ norm_unit_z_real⟩

theorem reflect_norm_witness :
    SqrtSpec Real.sqrt ∧ (⟨0, 0, 1⟩ : Vec3f ℝ).norm Real.sqrt = 1 ∧
      ((reflect (⟨0, 0, -1⟩ : Vec3f ℝ) ⟨0, 0, 1⟩).norm Real.sqrt
          = (⟨0, 0, -1⟩ : Vec3f ℝ).norm Real.sqrt ∧
        ((⟨0, 0, -1⟩ : Vec3f ℝ).norm Real.sqrt = 1 →
          (reflect (⟨0, 0, -1⟩ : Vec3f ℝ) ⟨0, 0, 1⟩).norm Real.sqrt = 1)) :=
  ⟨sqrtSpec_real, norm_unit_z_real,
    reflect_norm Real.sqrt sqrtSpec_real ⟨0, 0, -1⟩ ⟨0, 0, 1⟩ norm_unit_z_real⟩

theorem refract_normal_incidence_witness :
    SqrtSpec Real.sqrt ∧ (⟨0, 0, 1⟩ : Vec3f ℝ).norm Real.sqrt = 1 ∧ (3 / 2 : ℝ) ≠ 0 ∧
      refract Real.sqrt (-(⟨0, 0, 1⟩ : Vec3f ℝ)) ⟨0, 0, 1⟩ (3 / 2) (3 / 2)
        = -(⟨0, 0, 1⟩ : Vec3f ℝ) :=
  ⟨sqrtSpec_real, norm_unit_z_real, by norm_num,
    refract_normal_incidence Real.sqrt sqrtSpec_real ⟨0, 0, 1⟩ (3 / 2) norm_unit_z_real
      (by norm_num)⟩

theorem SqrtSpec.lt_of_mul_self_lt {sqrtf : K → K} (hs : SqrtSpec sqrtf) (x b : K)
    (hx : 0 ≤ x) (hb : 0 ≤ b) (h : x < b * b) : sqrtf x < b := by
  obtain ⟨h0, h1⟩ := hs x hx
  by_contra hc
  have hc2 : b ≤ sqrtf x := not_lt.1 hc
  have : b * b ≤ sqrtf x * sqrtf x := mul_self_le_mul_self hb hc2
  linarith

theorem SqrtSpec.le_of_le_mul_self {sqrtf : K → K} (hs : SqrtSpec sqrtf) (x b : K)
    (hx : 0 ≤ x) (hb : 0 ≤ b) (h : x ≤ b * b) : sqrtf x ≤ b := by
  obtain ⟨h0, h1⟩ := hs x hx
  by_contra hc
  have hc2 : b < sqrtf x := not_le.1 hc
  have : b * b < sqrtf x * sqrtf x := mul_self_lt_mul_self hb hc2
  linarith

theorem SqrtSpec.lt_sqrtf {sqrtf : K → K} (hs : SqrtSpec sqrtf) (x b : K)
    (hx : 0 ≤ x) (h : b * b < x) : b < sqrtf x := by
  obtain ⟨h0, h1⟩ := hs x hx
  by_contra hc
  have hc2 : sqrtf x ≤ b := not_lt.1 hc
  have : sqrtf x * sqrtf x ≤ b * b := mul_self_le_mul_self h0 hc2
  linarith

theorem refract_cosi_neg (I N : Vec3f K) (h : refract_cosi I N < 0) :
    0 < refract_cosi I (-N) := by
  have hd : I.dot (-N) = -(I.dot N) := by
    simp only [Vec3f.neg_def, Vec3f.dot]
    ring
  have h1 : 0 < I.dot N := by
    simp only [refract_cosi, neg_lt_zero, lt_max_iff, lt_min_iff] at h
    rcases h with h | h
    · linarith
    · exact h.2
  simp only [refract_cosi, hd, Left.neg_pos_iff, max_lt_iff, min_lt_iff]
  exact ⟨by norm_num, Or.inr (by linarith)⟩

theorem refract_of_nonneg (sqrtf : K → K) (I N : Vec3f K) (eta_t eta_i : K)
    (h : ¬ refract_cosi I N < 0) :
    refract sqrtf I N eta_t eta_i = refract_body sqrtf I N eta_t eta_i := by
  rw [refract, dif_neg h]
  rfl

theorem refract_of_neg (sqrtf : K → K) (I N : Vec3f K) (eta_t eta_i : K)
    (h : refract_cosi I N < 0) :
    refract sqrtf I N eta_t eta_i = refract_body sqrtf I (-N) eta_i eta_t := by
  rw [refract, dif_pos h]
  exact refract_of_nonneg sqrtf I (-N) eta_i eta_t (not_lt.2 (le_of_lt (refract_cosi_neg I N h)))

/-- C11: for a sphere of radius `r > 0` and a ray with unit direction whose origin satisfies
`C = O + dist*D` with `dist >= 0`, the two-root `Sphere::ray_intersect` succeeds and writes
`t0 = dist - r` and `t1 = dist + r`, with `t1 > t0`. -/
theorem ray_intersect2_through_center (sqrtf : K → K) (hs : SqrtSpec sqrtf) (s : Sphere K)
    (orig dir : Vec3f K) (dist : K) (hr : 0 < s.radius) (hD : dir.norm sqrtf = 1)
    (hdist : 0 ≤ dist) (hc : s.center = orig + dir.scale dist) :
    s.ray_intersect2 sqrtf orig dir = some (dist - s.radius, dist + s.radius) ∧
      dist - s.radius < dist + s.radius := by
  have hDD := hs.dot_self_of_norm_one dir hD
  have htca : (s.center - orig).dot dir = dist := by
    rw [hc]
    simp only [Vec3f.add_def, Vec3f.sub_def, Vec3f.scale, Vec3f.dot] at hDD ⊢
    linear_combination dist * hDD
  have hLL : (s.center - orig).dot (s.center - orig) = dist * dist := by
    rw [hc]
    simp only [Vec3f.add_def, Vec3f.sub_def, Vec3f.scale, Vec3f.dot] at hDD ⊢
    linear_combination dist * dist * hDD
  have hthc : sqrtf (s.radius * s.radius - (dist * dist - dist * dist)) = s.radius := by
    rw [sub_self, sub_zero]
    exact hs.sqrtf_mul_self s.radius (le_of_lt hr)
  simp only [Sphere.ray_intersect2, htca, hLL, hthc]
  have h1 : ¬ dist * dist - dist * dist > s.radius * s.radius := by
    rw [sub_self]
    exact not_lt.2 (mul_self_nonneg _)
  have h2 : ¬ dist + s.radius < 0 := not_lt.2 (by linarith)
  rw [if_neg h1, if_neg h2]
  exact ⟨rfl, by linarith⟩

theorem ray_intersect2_through_center_witness :
    SqrtSpec Real.sqrt ∧ (0 : ℝ) < (⟨⟨0, 0, -10⟩, 2, Material.default⟩ : Sphere ℝ).radius ∧
    (⟨0, 0, -1⟩ : Vec3f ℝ).norm Real.sqrt = 1 ∧ (0 : ℝ) ≤ 10 ∧
    (⟨⟨0, 0, -10⟩, 2, Material.default⟩ : Sphere ℝ).center
      = (⟨0, 0, 0⟩ : Vec3f ℝ) + (⟨0, 0, -1⟩ : Vec3f ℝ).scale 10 ∧
    ((⟨⟨0, 0, -10⟩, 2, Material.default⟩ : Sphere ℝ).ray_intersect2 Real.sqrt
        ⟨0, 0, 0⟩ ⟨0, 0, -1⟩
      = some (10 - (⟨⟨0, 0, -10⟩, 2, Material.default⟩ : Sphere ℝ).radius,
          10 + (⟨⟨0, 0, -10⟩, 2, Material.default⟩ : Sphere ℝ).radius) ∧
      10 - (⟨⟨0, 0, -10⟩, 2, Material.default⟩ : Sphere ℝ).radius
        < 10 + (⟨⟨0, 0, -10⟩, 2, Material.default⟩ : Sphere ℝ).radius) :=
  ⟨sqrtSpec_real, by norm_num, norm_neg_unit_z_real, by norm_num,
    by simp [Vec3f.add_def, Vec3f.scale],
    ray_intersect2_through_center Real.sqrt sqrtSpec_real ⟨⟨0, 0, -10⟩, 2, Material.default⟩
      ⟨0, 0, 0⟩ ⟨0, 0, -1⟩ 10 (by norm_num) norm_neg_unit_z_real (by norm_num)
      (by simp [Vec3f.add_def, Vec3f.scale])⟩

/-- C12 (as stated, refuted): for the sphere centred at the origin with radius `-5` and the
ray from `(1,0,0)` toward `(1,0,0)`, `|C - O| = 1 > r` and `(C - O).D = -1 < 0`, yet the
one-root `Sphere::ray_intersect` returns `true` with distance 4: only `radius*radius` enters
the computation. -/
theorem ray_intersect_away_counterexample :
    (⟨⟨0, 0, 0⟩, -5, Material.default⟩ : Sphere ℝ).radius
      < ((⟨⟨0, 0, 0⟩, -5, Material.default⟩ : Sphere ℝ).center - ⟨1, 0, 0⟩).norm Real.sqrt ∧
    ((⟨⟨0, 0, 0⟩, -5, Material.default⟩ : Sphere ℝ).center - ⟨1, 0, 0⟩).dot ⟨1, 0, 0⟩ < 0 ∧
    (⟨⟨0, 0, 0⟩, -5, Material.default⟩ : Sphere ℝ).ray_intersect Real.sqrt
      ⟨1, 0, 0⟩ ⟨1, 0, 0⟩ = some 4 := by
  have h25 : Real.sqrt 25 = 5 := by
    have := sqrtSpec_real.sqrtf_mul_self 5 (by norm_num)
    norm_num at this
    exact this
  refine ⟨?_, ?_, ?_⟩
  · simp only [Vec3f.sub_def, Vec3f.norm]
    norm_num
  · simp only [Vec3f.sub_def, Vec3f.dot]
    norm_num
  · simp only [Sphere.ray_intersect, Vec3f.sub_def, Vec3f.dot]
    norm_num [h25]

/-- C12 (amended): rays aimed away never hit: for every sphere with radius `r >= 0` and
every ray whose origin lies strictly outside it (`|C - O| > r`) and whose direction points
away from it (`(C - O).D < 0`), the one-root `Sphere::ray_intersect` returns `false`. -/
theorem ray_intersect_away (sqrtf : K → K) (hs : SqrtSpec sqrtf) (s : Sphere K)
    (orig dir : Vec3f K) (hr : 0 ≤ s.radius)
    (hout : s.radius < (s.center - orig).norm sqrtf)
    (haway : (s.center - orig).dot dir < 0) :
    s.ray_intersect sqrtf orig dir = none := by
  have hLL : s.radius * s.radius < (s.center - orig).dot (s.center - orig) := by
    rw [← hs.norm_mul_self]
    exact mul_self_lt_mul_self hr hout
  simp only [Sphere.ray_intersect]
  generalize (s.center - orig).dot dir = tca at haway ⊢
  generalize (s.center - orig).dot (s.center - orig) = LL at hLL ⊢
  generalize s.radius * s.radius = rr at hLL ⊢
  by_cases hd : LL - tca * tca > rr
  · rw [if_pos hd]
  · rw [if_neg hd]
    have hdisc : 0 ≤ rr - (LL - tca * tca) := by
      have := not_lt.1 hd
      linarith
    have hlt : sqrtf (rr - (LL - tca * tca)) < -tca :=
      hs.lt_of_mul_self_lt _ _ hdisc (by linarith) (by nlinarith)
    have h0 := (hs _ hdisc).1
    generalize sqrtf (rr - (LL - tca * tca)) = thc at hlt h0 ⊢
    have h1 : tca - thc < 0 := by linarith
    have h2 : tca + thc < 0 := by linarith
    simp only [if_pos h1, if_pos h2]

theorem ray_intersect_away_witness :
    SqrtSpec Real.sqrt ∧ (0 : ℝ) ≤ (⟨⟨0, 0, 0⟩, 1, Material.default⟩ : Sphere ℝ).radius ∧
    (⟨⟨0, 0, 0⟩, 1, Material.default⟩ : Sphere ℝ).radius
      < ((⟨⟨0, 0, 0⟩, 1, Material.default⟩ : Sphere ℝ).center - ⟨2, 0, 0⟩).norm Real.sqrt ∧
    ((⟨⟨0, 0, 0⟩, 1, Material.default⟩ : Sphere ℝ).center - ⟨2, 0, 0⟩).dot ⟨1, 0, 0⟩ < 0 ∧
    (⟨⟨0, 0, 0⟩, 1, Material.default⟩ : Sphere ℝ).ray_intersect Real.sqrt
      ⟨2, 0, 0⟩ ⟨1, 0, 0⟩ = none := by
  have h4 : Real.sqrt 4 = 2 := sqrtSpec_real.sqrtf_four
  have hn : (⟨⟨0, 0, 0⟩, 1, Material.default⟩ : Sphere ℝ).radius
      < ((⟨⟨0, 0, 0⟩, 1, Material.default⟩ : Sphere ℝ).center - ⟨2, 0, 0⟩).norm Real.sqrt := by
    simp only [Vec3f.sub_def, Vec3f.norm]
    norm_num [h4]
  have hd : ((⟨⟨0, 0, 0⟩, 1, Material.default⟩ : Sphere ℝ).center - ⟨2, 0, 0⟩).dot
      ⟨1, 0, 0⟩ < 0 := by
    simp only [Vec3f.sub_def, Vec3f.dot]
    norm_num
  exact ⟨sqrtSpec_real, by norm_num, hn, hd,
    ray_intersect_away Real.sqrt sqrtSpec_real ⟨⟨0, 0, 0⟩, 1, Material.default⟩
      ⟨2, 0, 0⟩ ⟨1, 0, 0⟩ (by norm_num) hn hd⟩

theorem dot_le_one_of_unit (I N : Vec3f K) (hI : I.dot I = 1) (hN : N.dot N = 1) :
    -1 ≤ I.dot N ∧ I.dot N ≤ 1 := by
  simp only [Vec3f.dot] at hI hN ⊢
  have hsq : (I.x * N.x + I.y * N.y + I.z * N.z) ^ 2 ≤ 1 := by
    nlinarith [sq_nonneg (I.x * N.y - I.y * N.x), sq_nonneg (I.y * N.z - I.z * N.y),
      sq_nonneg (I.z * N.x - I.x * N.z)]
  constructor <;> nlinarith

theorem refract_cosi_of_unit (I N : Vec3f K) (hI : I.dot I = 1) (hN : N.dot N = 1) :
    refract_cosi I N = -(I.dot N) := by
  obtain ⟨h1, h2⟩ := dot_le_one_of_unit I N hI hN
  unfold refract_cosi
  rw [min_eq_right h2, max_eq_right h1]

theorem refract_body_dot_self (sqrtf : K → K) (hs : SqrtSpec sqrtf) (I N : Vec3f K)
    (eta_t eta_i : K) (hI : I.dot I = 1) (hN : N.dot N = 1) :
    (refract_body sqrtf I N eta_t eta_i).dot (refract_body sqrtf I N eta_t eta_i) = 1 := by
  simp only [refract_body, refract_cosi_of_unit I N hI hN]
  generalize eta_i / eta_t = eta
  by_cases hk : 1 - eta * eta * (1 - -(I.dot N) * -(I.dot N)) < 0
  · rw [if_pos hk]
    simp [Vec3f.dot]
  · rw [if_neg hk]
    obtain ⟨_, hsk⟩ := hs _ (not_lt.1 hk)
    generalize sqrtf (1 - eta * eta * (1 - -(I.dot N) * -(I.dot N))) = sk at hsk ⊢
    simp only [Vec3f.dot, Vec3f.add_def, Vec3f.scale] at hI hN hsk ⊢
    linear_combination (eta * eta) * hI
      + ((eta * -(I.x * N.x + I.y * N.y + I.z * N.z) - sk)
          * (eta * -(I.x * N.x + I.y * N.y + I.z * N.z) - sk)) * hN + hsk

theorem neg_dot_self (N : Vec3f K) : (-N).dot (-N) = N.dot N := by
  simp only [Vec3f.neg_def, Vec3f.dot]
  ring

theorem refract_dot_self (sqrtf : K → K) (hs : SqrtSpec sqrtf) (I N : Vec3f K)
    (eta_t eta_i : K) (hI : I.dot I = 1) (hN : N.dot N = 1) :
    (refract sqrtf I N eta_t eta_i).dot (refract sqrtf I N eta_t eta_i) = 1 := by
  by_cases h : refract_cosi I N < 0
  · rw [refract_of_neg sqrtf I N eta_t eta_i h]
    exact refract_body_dot_self sqrtf hs I (-N) eta_i eta_t hI (by rw [neg_dot_self]; exact hN)
  · rw [refract_of_nonneg sqrtf I N eta_t eta_i h]
    exact refract_body_dot_self sqrtf hs I N eta_t eta_i hI hN

/-- C19: `refract` returns a unit vector on unit inputs: for every unit direction `I`, unit
normal `N` and indices `eta_t`, `eta_i`, the result of `refract(I, N, eta_t, eta_i)` has
length 1 (in the Snell branch and in the total-internal-reflection branch alike), so the
`normalize()` applied to it in `cast_ray` returns it unchanged. -/
theorem refract_unit (sqrtf : K → K) (hs : SqrtSpec sqrtf) (I N : Vec3f K) (eta_t eta_i : K)
    (hI : I.norm sqrtf = 1) (hN : N.norm sqrtf = 1) :
    (refract sqrtf I N eta_t eta_i).norm sqrtf = 1 ∧
    (refract sqrtf I N eta_t eta_i).normalize sqrtf = refract sqrtf I N eta_t eta_i := by
  have h1 := refract_dot_self sqrtf hs I N eta_t eta_i (hs.dot_self_of_norm_one I hI)
    (hs.dot_self_of_norm_one N hN)
  have hn : (refract sqrtf I N eta_t eta_i).norm sqrtf = 1 := by
    unfold Vec3f.norm
    unfold Vec3f.dot at h1
    rw [h1]
    exact hs.sqrtf_one
  refine ⟨hn, ?_⟩
  unfold Vec3f.normalize
  rw [hn]
  simp [Vec3f.scale]

theorem refract_unit_witness :
    SqrtSpec Real.sqrt ∧ (⟨0, 0, -1⟩ : Vec3f ℝ).norm Real.sqrt = 1 ∧
    (⟨0, 0, 1⟩ : Vec3f ℝ).norm Real.sqrt = 1 ∧
    ((refract Real.sqrt (⟨0, 0, -1⟩ : Vec3f ℝ) ⟨0, 0, 1⟩ (3 / 2) 1).norm Real.sqrt = 1 ∧
     (refract Real.sqrt (⟨0, 0, -1⟩ : Vec3f ℝ) ⟨0, 0, 1⟩ (3 / 2) 1).normalize Real.sqrt
        = refract Real.sqrt (⟨0, 0, -1⟩ : Vec3f ℝ) ⟨0, 0, 1⟩ (3 / 2) 1) :=
  ⟨sqrtSpec_real, norm_neg_unit_z_real, norm_unit_z_real,
    refract_unit Real.sqrt sqrtSpec_real ⟨0, 0, -1⟩ ⟨0, 0, 1⟩ (3 / 2) 1
      norm_neg_unit_z_real norm_unit_z_real⟩

end FieldLemmas

section FloorLemmas

variable {K : Type} [LinearOrderedField K] [FloorRing K]

theorem truncToInt_bounds (x : K) (n : ℤ) (h0 : 0 ≤ x) (h1 : x ≤ (n : K)) :
    0 ≤ truncToInt x ∧ truncToInt x ≤ n := by
  unfold truncToInt
  rw [if_pos h0]
  refine ⟨Int.floor_nonneg.2 h0, ?_⟩
  have h2 : ((⌊x⌋ : ℤ) : K) ≤ (n : K) := le_trans (Int.floor_le x) h1
  exact_mod_cast h2

/-- C7: the environment lookup stays in bounds without clamping: for every direction and
every environment map with `width >= 1` and `height >= 1`, the column `i` and the row `j`
computed in the miss branch of `cast_ray` satisfy `0 <= i <= width-1` and
`0 <= j <= height-1`, so the index `i + j*width` lies in `[0, width*height)`. -/
theorem envmap_coords_in_bounds (m : Libm K) (hm : AngleSpec m) (g : Globals K)
    (dir : Vec3f K) (hw : 1 ≤ g.envmap_width) (hh : 1 ≤ g.envmap_height) :
    0 ≤ (envmap_coords m g dir).1 ∧ (envmap_coords m g dir).1 ≤ g.envmap_width - 1 ∧
    0 ≤ (envmap_coords m g dir).2 ∧ (envmap_coords m g dir).2 ≤ g.envmap_height - 1 ∧
    0 ≤ (envmap_coords m g dir).1 + (envmap_coords m g dir).2 * g.envmap_width ∧
    (envmap_coords m g dir).1 + (envmap_coords m g dir).2 * g.envmap_width
      < g.envmap_width * g.envmap_height := by
  obtain ⟨hpi, hacos, hatan⟩ := hm
  have hwK : (0 : K) ≤ ((g.envmap_width - 1 : ℤ) : K) := by
    have : (0 : ℤ) ≤ g.envmap_width - 1 := by omega
    exact_mod_cast this
  have hhK : (0 : K) ≤ ((g.envmap_height - 1 : ℤ) : K) := by
    have : (0 : ℤ) ≤ g.envmap_height - 1 := by omega
    exact_mod_cast this
  have h2pi : 0 < 2 * m.M_PI := by linarith
  have hi := truncToInt_bounds
    ((m.atan2 dir.z dir.x + m.M_PI) / (2 * m.M_PI) * ((g.envmap_width - 1 : ℤ) : K))
    (g.envmap_width - 1)
    (mul_nonneg (div_nonneg (by linarith [(hatan dir.z dir.x).1]) (le_of_lt h2pi)) hwK)
    (by
      have h1 : (m.atan2 dir.z dir.x + m.M_PI) / (2 * m.M_PI) ≤ 1 := by
        rw [div_le_one h2pi]
        linarith [(hatan dir.z dir.x).2]
      exact mul_le_of_le_one_left hwK h1)
  have hj := truncToInt_bounds
    (m.acos (dir.y / m.sqrtf (dir.dot dir)) / m.M_PI * ((g.envmap_height - 1 : ℤ) : K))
    (g.envmap_height - 1)
    (mul_nonneg (div_nonneg (hacos _).1 (le_of_lt hpi)) hhK)
    (by
      have h1 : m.acos (dir.y / m.sqrtf (dir.dot dir)) / m.M_PI ≤ 1 := by
        rw [div_le_one hpi]
        exact (hacos _).2
      exact mul_le_of_le_one_left hhK h1)
  simp only [envmap_coords]
  refine ⟨hi.1, hi.2, hj.1, hj.2, ?_, ?_⟩
  · nlinarith [hi.1, hj.1]
  · nlinarith [hi.1, hi.2, hj.1, hj.2]

theorem angleSpec_real :
    AngleSpec (⟨Real.sqrt, Real.arccos, fun y x => Complex.arg ⟨x, y⟩, fun x y => x ^ y,
      Real.pi⟩ : Libm ℝ) :=
  ⟨Real.pi_pos, fun x => ⟨Real.arccos_nonneg x, Real.arccos_le_pi x⟩,
    fun _ _ => ⟨le_of_lt (Complex.neg_pi_lt_arg _), Complex.arg_le_pi _⟩⟩

theorem envmap_coords_in_bounds_witness :
    AngleSpec (⟨Real.sqrt, Real.arccos, fun y x => Complex.arg ⟨x, y⟩, fun x y => x ^ y, Real.pi⟩ : Libm ℝ) ∧
    1 ≤ (demo_globals : Globals ℝ).envmap_width ∧
    1 ≤ (demo_globals : Globals ℝ).envmap_height ∧
    (0 ≤ (envmap_coords (⟨Real.sqrt, Real.arccos, fun y x => Complex.arg ⟨x, y⟩, fun x y => x ^ y, Real.pi⟩ : Libm ℝ)
        demo_globals ⟨0, 0, -1⟩).1 ∧
     (envmap_coords (⟨Real.sqrt, Real.arccos, fun y x => Complex.arg ⟨x, y⟩, fun x y => x ^ y, Real.pi⟩ : Libm ℝ)
        demo_globals ⟨0, 0, -1⟩).1 ≤ (demo_globals : Globals ℝ).envmap_width - 1 ∧
     0 ≤ (envmap_coords (⟨Real.sqrt, Real.arccos, fun y x => Complex.arg ⟨x, y⟩, fun x y => x ^ y, Real.pi⟩ : Libm ℝ)
        demo_globals ⟨0, 0, -1⟩).2 ∧
     (envmap_coords (⟨Real.sqrt, Real.arccos, fun y x => Complex.arg ⟨x, y⟩, fun x y => x ^ y, Real.pi⟩ : Libm ℝ)
        demo_globals ⟨0, 0, -1⟩).2 ≤ (demo_globals : Globals ℝ).envmap_height - 1 ∧
     0 ≤ (envmap_coords (⟨Real.sqrt, Real.arccos, fun y x => Complex.arg ⟨x, y⟩, fun x y => x ^ y, Real.pi⟩ : Libm ℝ)
        demo_globals ⟨0, 0, -1⟩).1
        + (envmap_coords (⟨Real.sqrt, Real.arccos, fun y x => Complex.arg ⟨x, y⟩, fun x y => x ^ y, Real.pi⟩ : Libm ℝ)
        demo_globals ⟨0, 0, -1⟩).2 * (demo_globals : Globals ℝ).envmap_width ∧
     (envmap_coords (⟨Real.sqrt, Real.arccos, fun y x => Complex.arg ⟨x, y⟩, fun x y => x ^ y, Real.pi⟩ : Libm ℝ)
        demo_globals ⟨0, 0, -1⟩).1
        + (envmap_coords (⟨Real.sqrt, Real.arccos, fun y x => Complex.arg ⟨x, y⟩, fun x y => x ^ y, Real.pi⟩ : Libm ℝ)
        demo_globals ⟨0, 0, -1⟩).2 * (demo_globals : Globals ℝ).envmap_width
      < (demo_globals : Globals ℝ).envmap_width * (demo_globals : Globals ℝ).envmap_height) :=
  ⟨angleSpec_real, by decide, by decide,
    envmap_coords_in_bounds _ angleSpec_real demo_globals ⟨0, 0, -1⟩ (by decide) (by decide)⟩

theorem cast_ray_log_deep (m : Libm K) (g : Globals K) (spheres : List (Sphere K))
    (lights : List (Light K)) (orig dir : Vec3f K) (depth : ℕ) (h : 4 < depth) :
    cast_ray_log m g spheres lights orig dir depth
      = (envmap_sample m g dir, [(depth, false)]) := by
  rw [cast_ray_log, dif_pos h]

theorem cast_ray_log_shallow (m : Libm K) (g : Globals K) (spheres : List (Sphere K))
    (lights : List (Light K)) (orig dir : Vec3f K) (depth : ℕ) (h : depth ≤ 4) :
    (cast_ray_log m g spheres lights orig dir depth).2 = [(depth, true)] ∨
    ∃ o1 d1 o2 d2,
      (cast_ray_log m g spheres lights orig dir depth).2
        = (depth, true) :: ((cast_ray_log m g spheres lights o1 d1 (depth + 1)).2
            ++ (cast_ray_log m g spheres lights o2 d2 (depth + 1)).2) := by
  rw [cast_ray_log, dif_neg (by omega)]
  simp only []
  split_ifs with hr
  · exact Or.inl rfl
  · exact Or.inr ⟨_, _, _, _, rfl⟩

theorem cast_ray_log_bound (m : Libm K) (g : Globals K) (spheres : List (Sphere K))
    (lights : List (Light K)) (k : ℕ) :
    ∀ (depth : ℕ) (orig dir : Vec3f K), depth + k = 5 →
      (cast_ray_log m g spheres lights orig dir depth).2.length ≤ 2 ^ (k + 1) - 1 ∧
      ∀ e ∈ (cast_ray_log m g spheres lights orig dir depth).2,
        e.1 ≤ 5 ∧ (e.2 = true → e.1 ≤ 4) := by
  induction k with
  | zero =>
    intro depth orig dir hd
    rw [cast_ray_log_deep m g spheres lights orig dir depth (by omega)]
    refine ⟨by simp, ?_⟩
    intro e he
    simp only [List.mem_singleton] at he
    subst he
    exact ⟨by simp; omega, by simp⟩
  | succ k ih =>
    intro depth orig dir hd
    rcases cast_ray_log_shallow m g spheres lights orig dir depth (by omega) with h | h
    · rw [h]
      refine ⟨?_, ?_⟩
      · have : 1 ≤ 2 ^ (k + 1) := Nat.one_le_two_pow
        simp only [List.length_singleton, pow_succ]
        omega
      · intro e he
        simp only [List.mem_singleton] at he
        subst he
        exact ⟨by simp; omega, fun _ => by simp; omega⟩
    · obtain ⟨o1, d1, o2, d2, h⟩ := h
      rw [h]
      obtain ⟨l1, m1⟩ := ih (depth + 1) o1 d1 (by omega)
      obtain ⟨l2, m2⟩ := ih (depth + 1) o2 d2 (by omega)
      refine ⟨?_, ?_⟩
      · have : 1 ≤ 2 ^ (k + 1) := Nat.one_le_two_pow
        simp only [List.length_cons, List.length_append]
        rw [pow_succ 2 (k + 1)]
        omega
      · intro e he
        simp only [List.mem_cons, List.mem_append] at he
        rcases he with he | he | he
        · subst he
          exact ⟨by simp; omega, fun _ => by simp; omega⟩
        · exact m1 e he
        · exact m2 e he

theorem scenario_primary_hit (sqrtf : K → K) (hs : SqrtSpec sqrtf) (g : Globals K)
    (hduck : g.duck.nfaces = 0) (mat : Material K) :
    scene_intersect sqrtf g ⟨0, 0, 0⟩ ⟨0, 0, -1⟩ [⟨⟨0, 0, -10⟩, 2, mat⟩] HitRec.default
      = (true, ⟨⟨0, 0, -8⟩, ⟨0, 0, 1⟩, mat⟩) := by
  have h4 := hs.sqrtf_four
  have s1 : spheres_loop sqrtf ⟨0, 0, 0⟩ ⟨0, 0, -1⟩ [⟨⟨0, 0, -10⟩, 2, mat⟩] HitRec.default
      = (8, ⟨⟨0, 0, -8⟩, ⟨0, 0, 1⟩, mat⟩) := by
    simp only [spheres_loop, List.foldl, sphere_step, Sphere.ray_intersect, Vec3f.sub_def,
      Vec3f.add_def, Vec3f.dot, Vec3f.scale, Vec3f.normalize, Vec3f.norm, FLT_MAX]
    norm_num [h4]
  have s3 : ∀ st : K × HitRec K, small_portal sqrtf ⟨0, 0, 0⟩ ⟨0, 0, -1⟩ st = st := by
    intro st
    simp only [small_portal, Sphere.ray_intersect2, small_sphere, Vec3f.sub_def, Vec3f.dot]
    norm_num
  have s4 : ∀ st : K × HitRec K, large_portal sqrtf ⟨0, 0, 0⟩ ⟨0, 0, -1⟩ st = st := by
    intro st
    simp only [large_portal, Sphere.ray_intersect, large_sphere, Vec3f.sub_def, Vec3f.dot]
    norm_num
  have s5 : ∀ (a b : K) (out : HitRec K),
      checkerboard ⟨0, 0, 0⟩ ⟨0, 0, -1⟩ a b out = (FLT_MAX, out) := by
    intro a b out
    simp only [checkerboard]
    norm_num
  simp only [scene_intersect, s1, duck_loop_empty _ _ _ _ _ _ hduck, s3, s4, s5]
  norm_num [FLT_MAX]

theorem scenario_shadow_miss (sqrtf : K → K) (hs : SqrtSpec sqrtf) (g : Globals K)
    (hduck : g.duck.nfaces = 0) (mat : Material K) :
    (scene_intersect sqrtf g ⟨0, 0, -8 + 0.001⟩ ⟨0, 0, 1⟩ [⟨⟨0, 0, -10⟩, 2, mat⟩]
      HitRec.default).1 = false := by
  have h4 := hs.sqrtf_four
  have s1 : spheres_loop sqrtf ⟨0, 0, -8 + 0.001⟩ ⟨0, 0, 1⟩ [⟨⟨0, 0, -10⟩, 2, mat⟩]
      HitRec.default = (FLT_MAX, HitRec.default) := by
    simp only [spheres_loop, List.foldl, sphere_step, Sphere.ray_intersect, Vec3f.sub_def,
      Vec3f.add_def, Vec3f.dot, Vec3f.scale, Vec3f.normalize, Vec3f.norm, FLT_MAX]
    norm_num [h4]
  have s3 : ∀ st : K × HitRec K,
      small_portal sqrtf ⟨0, 0, -8 + 0.001⟩ ⟨0, 0, 1⟩ st = st := by
    intro st
    simp only [small_portal, Sphere.ray_intersect2, small_sphere, Vec3f.sub_def, Vec3f.dot]
    norm_num
  have s4 : ∀ st : K × HitRec K,
      large_portal sqrtf ⟨0, 0, -8 + 0.001⟩ ⟨0, 0, 1⟩ st = st := by
    intro st
    simp only [large_portal, Sphere.ray_intersect, large_sphere, Vec3f.sub_def, Vec3f.dot]
    norm_num
  have s5 : ∀ (a b : K) (out : HitRec K),
      checkerboard ⟨0, 0, -8 + 0.001⟩ ⟨0, 0, 1⟩ a b out = (FLT_MAX, out) := by
    intro a b out
    simp only [checkerboard]
    norm_num
  simp only [scene_intersect, s1, duck_loop_empty _ _ _ _ _ _ hduck, s3, s4, s5]
  norm_num [FLT_MAX]

theorem scenario_light_loop (m : Libm K) (hs : SqrtSpec m.sqrtf) (g : Globals K)
    (hduck : g.duck.nfaces = 0) (mat : Material K) :
    light_loop m g [⟨⟨0, 0, -10⟩, 2, mat⟩] [⟨⟨0, 0, -5⟩, 1⟩] ⟨0, 0, -1⟩ ⟨0, 0, -8⟩ ⟨0, 0, 1⟩ mat
      = (1, m.powf 1 mat.specular_exponent) := by
  have h9 := hs.sqrtf_nine
  have hmiss := scenario_shadow_miss m.sqrtf hs g hduck mat
  have hld : ((⟨0, 0, -5⟩ : Vec3f K) - ⟨0, 0, -8⟩).normalize m.sqrtf = ⟨0, 0, 1⟩ := by
    simp only [Vec3f.sub_def, Vec3f.normalize, Vec3f.norm, Vec3f.scale]
    norm_num [h9]
  have hso : offset_orig (⟨0, 0, 1⟩ : Vec3f K) ⟨0, 0, -8⟩ ⟨0, 0, 1⟩ = ⟨0, 0, -8 + 0.001⟩ := by
    simp only [offset_orig, Vec3f.dot, Vec3f.add_def, Vec3f.scale]
    norm_num
  simp only [light_loop, List.foldl, light_step, hld, hso, hmiss]
  simp only [reflect, Vec3f.neg_def, Vec3f.sub_def, Vec3f.dot, Vec3f.scale]
  norm_num

/-- C4: the end-to-end diffuse scenario: with an empty mesh, the single sphere centred at
`(0,0,-10)` of radius 2 with albedo `(1,0,0,0)`, the single light at `(0,0,-5)` of intensity 1
and any environment map, the primary ray from `(0,0,0)` toward `(0,0,-1)` hits the sphere at
`(0,0,-8)` with normal `(0,0,1)`, the shadow ray finds the light unoccluded, the diffuse
intensity is `max(0, light_dir.N) = 1`, specular, reflection and refraction contribute
nothing, and `cast_ray` at depth 0 returns exactly `diffuse_color`. -/
theorem cast_ray_diffuse_scenario (m : Libm K) (hs : SqrtSpec m.sqrtf) (g : Globals K)
    (hduck : g.duck.nfaces = 0) (mat : Material K) (halb : mat.albedo = ⟨1, 0, 0, 0⟩) :
    scene_intersect m.sqrtf g ⟨0, 0, 0⟩ ⟨0, 0, -1⟩ [⟨⟨0, 0, -10⟩, 2, mat⟩] HitRec.default
      = (true, ⟨⟨0, 0, -8⟩, ⟨0, 0, 1⟩, mat⟩) ∧
    (scene_intersect m.sqrtf g (offset_orig ⟨0, 0, 1⟩ ⟨0, 0, -8⟩ ⟨0, 0, 1⟩) ⟨0, 0, 1⟩
      [⟨⟨0, 0, -10⟩, 2, mat⟩] HitRec.default).1 = false ∧
    (light_loop m g [⟨⟨0, 0, -10⟩, 2, mat⟩] [⟨⟨0, 0, -5⟩, 1⟩] ⟨0, 0, -1⟩ ⟨0, 0, -8⟩
      ⟨0, 0, 1⟩ mat).1 = max 0 ((⟨0, 0, 1⟩ : Vec3f K).dot ⟨0, 0, 1⟩) ∧
    (∀ (spec : K) (reflect_color refract_color : Vec3f K),
      shade mat (max 0 ((⟨0, 0, 1⟩ : Vec3f K).dot ⟨0, 0, 1⟩)) spec reflect_color refract_color
        = mat.diffuse_color) ∧
    cast_ray m g [⟨⟨0, 0, -10⟩, 2, mat⟩] [⟨⟨0, 0, -5⟩, 1⟩] ⟨0, 0, 0⟩ ⟨0, 0, -1⟩ 0
      = mat.diffuse_color := by
  have hhit := scenario_primary_hit m.sqrtf hs g hduck mat
  have hll := scenario_light_loop m hs g hduck mat
  have hso : offset_orig (⟨0, 0, 1⟩ : Vec3f K) ⟨0, 0, -8⟩ ⟨0, 0, 1⟩ = ⟨0, 0, -8 + 0.001⟩ := by
    simp only [offset_orig, Vec3f.dot, Vec3f.add_def, Vec3f.scale]
    norm_num
  have hmax : max 0 ((⟨0, 0, 1⟩ : Vec3f K).dot ⟨0, 0, 1⟩) = 1 := by
    simp [Vec3f.dot]
  have hshade : ∀ (spec : K) (reflect_color refract_color : Vec3f K),
      shade mat 1 spec reflect_color refract_color = mat.diffuse_color := by
    intro spec rc fc
    simp only [shade, halb, Vec3f.add_def, Vec3f.scale]
    simp
  refine ⟨hhit, ?_, ?_, ?_, ?_⟩
  · rw [hso]
    exact scenario_shadow_miss m.sqrtf hs g hduck mat
  · rw [hll, hmax]
  · rw [hmax]
    exact hshade
  · rw [cast_ray, cast_ray_log, dif_neg (by omega)]
    simp only [hhit, hll]
    exact hshade _ _ _

theorem cast_ray_diffuse_scenario_witness :
    SqrtSpec (⟨Real.sqrt, Real.arccos, fun y x => Complex.arg ⟨x, y⟩, fun x y => x ^ y, Real.pi⟩ : Libm ℝ).sqrtf ∧
    (demo_globals : Globals ℝ).duck.nfaces = 0 ∧
    (demo_diffuse : Material ℝ).albedo = ⟨1, 0, 0, 0⟩ ∧
    (scene_intersect (⟨Real.sqrt, Real.arccos, fun y x => Complex.arg ⟨x, y⟩, fun x y => x ^ y, Real.pi⟩ : Libm ℝ).sqrtf
        demo_globals ⟨0, 0, 0⟩ ⟨0, 0, -1⟩ [(⟨⟨0, 0, -10⟩, 2, demo_diffuse⟩ : Sphere ℝ)] HitRec.default
      = (true, ⟨⟨0, 0, -8⟩, ⟨0, 0, 1⟩, demo_diffuse⟩) ∧
    (scene_intersect (⟨Real.sqrt, Real.arccos, fun y x => Complex.arg ⟨x, y⟩, fun x y => x ^ y, Real.pi⟩ : Libm ℝ).sqrtf
        demo_globals (offset_orig ⟨0, 0, 1⟩ ⟨0, 0, -8⟩ ⟨0, 0, 1⟩) ⟨0, 0, 1⟩
        [(⟨⟨0, 0, -10⟩, 2, demo_diffuse⟩ : Sphere ℝ)] HitRec.default).1 = false ∧
    (light_loop (⟨Real.sqrt, Real.arccos, fun y x => Complex.arg ⟨x, y⟩, fun x y => x ^ y, Real.pi⟩ : Libm ℝ)
        demo_globals [(⟨⟨0, 0, -10⟩, 2, demo_diffuse⟩ : Sphere ℝ)] [⟨⟨0, 0, -5⟩, 1⟩] ⟨0, 0, -1⟩ ⟨0, 0, -8⟩ ⟨0, 0, 1⟩
        demo_diffuse).1 = max 0 ((⟨0, 0, 1⟩ : Vec3f ℝ).dot ⟨0, 0, 1⟩) ∧
    (∀ (spec : ℝ) (reflect_color refract_color : Vec3f ℝ),
      shade demo_diffuse (max 0 ((⟨0, 0, 1⟩ : Vec3f ℝ).dot ⟨0, 0, 1⟩)) spec reflect_color
        refract_color = demo_diffuse.diffuse_color) ∧
    cast_ray (⟨Real.sqrt, Real.arccos, fun y x => Complex.arg ⟨x, y⟩, fun x y => x ^ y, Real.pi⟩ : Libm ℝ)
        demo_globals [(⟨⟨0, 0, -10⟩, 2, demo_diffuse⟩ : Sphere ℝ)] [⟨⟨0, 0, -5⟩, 1⟩] ⟨0, 0, 0⟩ ⟨0, 0, -1⟩ 0
      = demo_diffuse.diffuse_color) :=
  ⟨sqrtSpec_real, rfl, rfl,
    cast_ray_diffuse_scenario _ sqrtSpec_real demo_globals rfl demo_diffuse rfl⟩

theorem truncToInt_intCast (n : ℤ) : truncToInt (n : K) = n := by
  unfold truncToInt
  split_ifs <;> simp

theorem checker_color_leak_point : checker_color (⟨0, -4, -20⟩ : Vec3f K) = ⟨0.3, 0.2, 0.1⟩ := by
  have h1 : (0.5 * 0 + 1000 : K) = ((1000 : ℤ) : K) := by norm_num
  have h2 : (0.5 * -20 : K) = ((-10 : ℤ) : K) := by norm_num
  simp only [checker_color, h1, h2, truncToInt_intCast]
  norm_num

theorem leak_with_sphere (sqrtf : K → K) (hs : SqrtSpec sqrtf) (g : Globals K)
    (hduck : g.duck.nfaces = 0) (mat : Material K) :
    scene_intersect sqrtf g ⟨0, 0, -20⟩ ⟨0, -1, 0⟩ [⟨⟨0, -10, -20⟩, 1, mat⟩] HitRec.default
      = (true, ⟨⟨0, -4, -20⟩, ⟨0, 1, 0⟩,
          ⟨mat.refractive_index, mat.albedo, ⟨0.3, 0.2, 0.1⟩, mat.specular_exponent⟩⟩) := by
  have h1 := hs.sqrtf_one
  have s1 : spheres_loop sqrtf ⟨0, 0, -20⟩ ⟨0, -1, 0⟩ [⟨⟨0, -10, -20⟩, 1, mat⟩] HitRec.default
      = (9, ⟨⟨0, -9, -20⟩, ⟨0, 1, 0⟩, mat⟩) := by
    simp only [spheres_loop, List.foldl, sphere_step, Sphere.ray_intersect, Vec3f.sub_def,
      Vec3f.add_def, Vec3f.dot, Vec3f.scale, Vec3f.normalize, Vec3f.norm, FLT_MAX]
    norm_num [h1]
  have s3 : ∀ st : K × HitRec K, small_portal sqrtf ⟨0, 0, -20⟩ ⟨0, -1, 0⟩ st = st := by
    intro st
    simp only [small_portal, Sphere.ray_intersect2, small_sphere, Vec3f.sub_def, Vec3f.dot]
    norm_num
  have s4 : ∀ st : K × HitRec K, large_portal sqrtf ⟨0, 0, -20⟩ ⟨0, -1, 0⟩ st = st := by
    intro st
    simp only [large_portal, Sphere.ray_intersect, large_sphere, Vec3f.sub_def, Vec3f.dot]
    norm_num
  have hpt : (⟨0, 0, -20⟩ : Vec3f K) + (⟨0, -1, 0⟩ : Vec3f K).scale (-(0 + 4) / -1)
      = ⟨0, -4, -20⟩ := by
    simp only [Vec3f.add_def, Vec3f.scale]
    norm_num
  have s5 : ∀ out : HitRec K,
      checkerboard ⟨0, 0, -20⟩ ⟨0, -1, 0⟩ 9 FLT_MAX out
        = (4, ⟨⟨0, -4, -20⟩, ⟨0, 1, 0⟩,
            ⟨out.material.refractive_index, out.material.albedo, ⟨0.3, 0.2, 0.1⟩,
              out.material.specular_exponent⟩⟩) := by
    intro out
    simp only [checkerboard, hpt, checker_color_leak_point]
    norm_num [FLT_MAX]
  simp only [scene_intersect, s1, duck_loop_empty _ _ _ _ _ _ hduck, s3, s4, s5]
  norm_num [FLT_MAX]

theorem leak_without_sphere (sqrtf : K → K) (g : Globals K) (hduck : g.duck.nfaces = 0) :
    scene_intersect sqrtf g ⟨0, 0, -20⟩ ⟨0, -1, 0⟩ [] HitRec.default
      = (true, ⟨⟨0, -4, -20⟩, ⟨0, 1, 0⟩, ⟨1, ⟨1, 0, 0, 0⟩, ⟨0.3, 0.2, 0.1⟩, 0⟩⟩) := by
  have s1 : spheres_loop sqrtf ⟨0, 0, -20⟩ ⟨0, -1, 0⟩ [] HitRec.default
      = (FLT_MAX, HitRec.default) := rfl
  have s3 : ∀ st : K × HitRec K, small_portal sqrtf ⟨0, 0, -20⟩ ⟨0, -1, 0⟩ st = st := by
    intro st
    simp only [small_portal, Sphere.ray_intersect2, small_sphere, Vec3f.sub_def, Vec3f.dot]
    norm_num
  have s4 : ∀ st : K × HitRec K, large_portal sqrtf ⟨0, 0, -20⟩ ⟨0, -1, 0⟩ st = st := by
    intro st
    simp only [large_portal, Sphere.ray_intersect, large_sphere, Vec3f.sub_def, Vec3f.dot]
    norm_num
  have hpt : (⟨0, 0, -20⟩ : Vec3f K) + (⟨0, -1, 0⟩ : Vec3f K).scale (-(0 + 4) / -1)
      = ⟨0, -4, -20⟩ := by
    simp only [Vec3f.add_def, Vec3f.scale]
    norm_num
  have s5 : ∀ out : HitRec K,
      checkerboard ⟨0, 0, -20⟩ ⟨0, -1, 0⟩ FLT_MAX FLT_MAX out
        = (4, ⟨⟨0, -4, -20⟩, ⟨0, 1, 0⟩,
            ⟨out.material.refractive_index, out.material.albedo, ⟨0.3, 0.2, 0.1⟩,
              out.material.specular_exponent⟩⟩) := by
    intro out
    simp only [checkerboard, hpt, checker_color_leak_point]
    norm_num [FLT_MAX]
  simp only [scene_intersect, s1, duck_loop_empty _ _ _ _ _ _ hduck, s3, s4, s5]
  norm_num [FLT_MAX, HitRec.default, Material.default]

/-- C2: at the ray from `(0,0,-20)` toward `(0,-1,0)`, with an empty mesh and the list
holding one mirror sphere centred at `(0,-10,-20)` of radius 1, the sphere is hit at distance
9, the portal spheres are not hit and the checkerboard is hit at distance 4 < 9;
`scene_intersect` returns the checkerboard hit point and normal `(0,1,0)`, but the material
it returns carries the albedo `(0,0,1,0)` and the specular exponent 1425 of the farther
sphere, whereas with the sphere list empty it returns albedo `(1,0,0,0)` and exponent 0. -/
theorem checkerboard_material_leak :
    (⟨⟨0, -10, -20⟩, 1, demo_mirror⟩ : Sphere ℝ).ray_intersect Real.sqrt
        ⟨0, 0, -20⟩ ⟨0, -1, 0⟩ = some 9 ∧
    (small_sphere : Sphere ℝ).ray_intersect2 Real.sqrt ⟨0, 0, -20⟩ ⟨0, -1, 0⟩ = none ∧
    (large_sphere : Sphere ℝ).ray_intersect Real.sqrt ⟨0, 0, -20⟩ ⟨0, -1, 0⟩ = none ∧
    (checkerboard (⟨0, 0, -20⟩ : Vec3f ℝ) ⟨0, -1, 0⟩ 9 FLT_MAX HitRec.default).1 = 4 ∧
    scene_intersect Real.sqrt (demo_globals : Globals ℝ) ⟨0, 0, -20⟩ ⟨0, -1, 0⟩
        [⟨⟨0, -10, -20⟩, 1, demo_mirror⟩] HitRec.default
      = (true, ⟨⟨0, -4, -20⟩, ⟨0, 1, 0⟩, ⟨1, ⟨0, 0, 1, 0⟩, ⟨0.3, 0.2, 0.1⟩, 1425⟩⟩) ∧
    scene_intersect Real.sqrt (demo_globals : Globals ℝ) ⟨0, 0, -20⟩ ⟨0, -1, 0⟩
        [] HitRec.default
      = (true, ⟨⟨0, -4, -20⟩, ⟨0, 1, 0⟩, ⟨1, ⟨1, 0, 0, 0⟩, ⟨0.3, 0.2, 0.1⟩, 0⟩⟩) ∧
    (scene_intersect Real.sqrt (demo_globals : Globals ℝ) ⟨0, 0, -20⟩ ⟨0, -1, 0⟩
        [⟨⟨0, -10, -20⟩, 1, demo_mirror⟩] HitRec.default).2.material.albedo
      ≠ (scene_intersect Real.sqrt (demo_globals : Globals ℝ) ⟨0, 0, -20⟩ ⟨0, -1, 0⟩
        [] HitRec.default).2.material.albedo := by
  have h1 : Real.sqrt 1 = 1 := Real.sqrt_one
  have hpt : (⟨0, 0, -20⟩ : Vec3f ℝ) + (⟨0, -1, 0⟩ : Vec3f ℝ).scale (-(0 + 4) / -1)
      = ⟨0, -4, -20⟩ := by
    simp only [Vec3f.add_def, Vec3f.scale]
    norm_num
  refine ⟨?_, ?_, ?_, ?_, ?_, ?_, ?_⟩
  · simp only [Sphere.ray_intersect, Vec3f.sub_def, Vec3f.dot]
    norm_num [h1]
  · simp only [Sphere.ray_intersect2, small_sphere, Vec3f.sub_def, Vec3f.dot]
    norm_num
  · simp only [Sphere.ray_intersect, large_sphere, Vec3f.sub_def, Vec3f.dot]
    norm_num
  · simp only [checkerboard, hpt]
    norm_num [FLT_MAX]
  · rw [leak_with_sphere Real.sqrt sqrtSpec_real demo_globals rfl demo_mirror]
    rfl
  · exact leak_without_sphere Real.sqrt demo_globals rfl
  · rw [leak_with_sphere Real.sqrt sqrtSpec_real demo_globals rfl demo_mirror,
      leak_without_sphere Real.sqrt demo_globals rfl]
    simp [demo_mirror]

omit [FloorRing K] in
theorem sphere_step_none (sqrtf : K → K) (orig dir : Vec3f K) (x : Sphere K)
    (z : K × HitRec K) (hx : x.ray_intersect sqrtf orig dir = none) :
    sphere_step sqrtf orig dir z x = z := by
  simp only [sphere_step, hx]

omit [FloorRing K] in
theorem sphere_step_some (sqrtf : K → K) (orig dir : Vec3f K) (x : Sphere K)
    (z : K × HitRec K) (dx : K) (hx : x.ray_intersect sqrtf orig dir = some dx) :
    sphere_step sqrtf orig dir z x
      = if dx < z.1 then
          (dx, ⟨orig + dir.scale dx, (orig + dir.scale dx - x.center).normalize sqrtf,
            x.material⟩)
        else z := by
  simp only [sphere_step, hx]

omit [FloorRing K] in
theorem sphere_step_comm (sqrtf : K → K) (orig dir : Vec3f K) (x y : Sphere K)
    (hxy : x = y ∨ DistinctHits sqrtf orig dir x y) (z : K × HitRec K) :
    sphere_step sqrtf orig dir (sphere_step sqrtf orig dir z x) y
      = sphere_step sqrtf orig dir (sphere_step sqrtf orig dir z y) x := by
  rcases hxy with hxy | hxy
  · subst hxy
    rfl
  · cases hx : x.ray_intersect sqrtf orig dir with
    | none => simp only [sphere_step_none sqrtf orig dir x _ hx]
    | some dx =>
      cases hy : y.ray_intersect sqrtf orig dir with
      | none => simp only [sphere_step_none sqrtf orig dir y _ hy]
      | some dy =>
        have hne := hxy dx dy hx hy
        simp only [sphere_step_some sqrtf orig dir x _ dx hx,
          sphere_step_some sqrtf orig dir y _ dy hy]
        by_cases h1 : dx < z.1
        · by_cases h2 : dy < z.1
          · rw [if_pos h1, if_pos h2]
            rcases lt_or_gt_of_ne hne with h | h
            · rw [if_neg (not_lt.2 (le_of_lt h)), if_pos h]
            · rw [if_pos h, if_neg (not_lt.2 (le_of_lt h))]
          · rw [if_pos h1, if_neg h2, if_pos h1]
            rw [if_neg (not_lt.2 (le_trans (le_of_lt h1) (not_lt.1 h2)))]
        · by_cases h2 : dy < z.1
          · rw [if_neg h1, if_pos h2]
            rw [if_neg (not_lt.2 (le_trans (le_of_lt h2) (not_lt.1 h1)))]
          · rw [if_neg h1, if_neg h2, if_neg h1]

omit [FloorRing K] in
theorem spheres_loop_perm (sqrtf : K → K) (orig dir : Vec3f K)
    (spheres spheres2 : List (Sphere K)) (out : HitRec K) (hperm : spheres.Perm spheres2)
    (hdist : spheres.Pairwise (DistinctHits sqrtf orig dir)) :
    spheres_loop sqrtf orig dir spheres out = spheres_loop sqrtf orig dir spheres2 out := by
  have hsymm : Symmetric (DistinctHits sqrtf orig dir) := by
    intro a b hab da db ha hb heq
    exact hab db da hb ha heq.symm
  unfold spheres_loop
  apply List.Perm.foldl_eq' hperm
  intro x hx y hy z
  apply sphere_step_comm
  by_cases hxy : x = y
  · exact Or.inl hxy
  · exact Or.inr (hdist.forall hsymm hx hy hxy)

/-- C13: `scene_intersect` does not depend on the order of the sphere list: for every ray,
every sphere list whose spheres hit by the ray have pairwise distinct hit distances and
every permutation of that list (mesh and incoming out-parameters fixed), `scene_intersect`
returns the same verdict, hit point, normal and material. -/
theorem scene_intersect_perm (sqrtf : K → K) (g : Globals K) (orig dir : Vec3f K)
    (spheres spheres2 : List (Sphere K)) (out : HitRec K) (hperm : spheres.Perm spheres2)
    (hdist : spheres.Pairwise (DistinctHits sqrtf orig dir)) :
    scene_intersect sqrtf g orig dir spheres2 out
      = scene_intersect sqrtf g orig dir spheres out := by
  unfold scene_intersect
  rw [spheres_loop_perm sqrtf orig dir spheres spheres2 out hperm hdist]

omit [FloorRing K] in
theorem sphere_step_fst_le (sqrtf : K → K) (orig dir : Vec3f K) (st : K × HitRec K)
    (a : Sphere K) : (sphere_step sqrtf orig dir st a).1 ≤ st.1 := by
  cases ha : a.ray_intersect sqrtf orig dir with
  | none => rw [sphere_step_none sqrtf orig dir a st ha]
  | some da =>
    rw [sphere_step_some sqrtf orig dir a st da ha]
    split_ifs with h
    · exact le_of_lt h
    · exact le_refl _

omit [FloorRing K] in
theorem sphere_fold_le_init (sqrtf : K → K) (orig dir : Vec3f K) (l : List (Sphere K)) :
    ∀ st : K × HitRec K, (l.foldl (sphere_step sqrtf orig dir) st).1 ≤ st.1 := by
  induction l with
  | nil => intro st; exact le_refl _
  | cons a l ih =>
    intro st
    exact le_trans (ih _) (sphere_step_fst_le sqrtf orig dir st a)

omit [FloorRing K] in
theorem sphere_fold_le_mem (sqrtf : K → K) (orig dir : Vec3f K) (l : List (Sphere K)) :
    ∀ (st : K × HitRec K) (s : Sphere K) (d : K), s ∈ l →
      s.ray_intersect sqrtf orig dir = some d →
      (l.foldl (sphere_step sqrtf orig dir) st).1 ≤ d := by
  induction l with
  | nil => intro st s d hs; cases hs
  | cons a l ih =>
    intro st s d hs hd
    rcases List.mem_cons.1 hs with h | h
    · subst h
      refine le_trans (sphere_fold_le_init sqrtf orig dir l _) ?_
      rw [sphere_step_some sqrtf orig dir s st d hd]
      split_ifs with h1
      · exact le_refl _
      · exact not_lt.1 h1
    · exact ih _ s d h hd

omit [FloorRing K] in
theorem spheres_loop_le (sqrtf : K → K) (orig dir : Vec3f K) (spheres : List (Sphere K))
    (out : HitRec K) (s : Sphere K) (d : K) (hs : s ∈ spheres)
    (hd : s.ray_intersect sqrtf orig dir = some d) :
    (spheres_loop sqrtf orig dir spheres out).1 ≤ d :=
  sphere_fold_le_mem sqrtf orig dir spheres _ s d hs hd

omit [FloorRing K] in
theorem ray_intersect2_some (sqrtf : K → K) (s : Sphere K) (orig dir : Vec3f K) (t0 t1 : K)
    (h : s.ray_intersect2 sqrtf orig dir = some (t0, t1)) :
    ¬ (s.center - orig).dot (s.center - orig) - s.tca orig dir * s.tca orig dir
        > s.radius * s.radius ∧
    t0 = s.tca orig dir - s.thc sqrtf orig dir ∧
    t1 = s.tca orig dir + s.thc sqrtf orig dir := by
  simp only [Sphere.ray_intersect2] at h
  simp only [Sphere.tca, Sphere.thc]
  split_ifs at h with h1 h2
  have h3 := Option.some.inj h
  exact ⟨h1, (congrArg Prod.fst h3).symm, (congrArg Prod.snd h3).symm⟩

omit [FloorRing K] in
theorem center_dist_sq (sqrtf : K → K) (hs : SqrtSpec sqrtf) (c h : Vec3f K) :
    center_dist sqrtf c h * center_dist sqrtf c h
      = (c.x - h.x) ^ 2 + (c.y - h.y) ^ 2 + (c.z - h.z) ^ 2 :=
  (hs _ (by positivity)).2

omit [FloorRing K] in
theorem center_dist_nonneg (sqrtf : K → K) (hs : SqrtSpec sqrtf) (c h : Vec3f K) :
    0 ≤ center_dist sqrtf c h :=
  (hs _ (by positivity)).1

omit [FloorRing K] in
theorem small_portal_fst (sqrtf : K → K) (orig dir : Vec3f K) (st : K × HitRec K) :
    (small_portal sqrtf orig dir st).1 = st.1 ∨
    ∃ t0 t1 : K, small_sphere.ray_intersect2 sqrtf orig dir = some (t0, t1) ∧ t0 < st.1 ∧
      (small_portal sqrtf orig dir st).1 = t1 := by
  unfold small_portal
  cases h : small_sphere.ray_intersect2 sqrtf orig dir with
  | none => exact Or.inl rfl
  | some p =>
    obtain ⟨t0, t1⟩ := p
    simp only []
    split_ifs with h1 h2
    · exact Or.inr ⟨t0, t1, rfl, h1, rfl⟩
    · exact Or.inl rfl
    · exact Or.inl rfl

omit [FloorRing K] in
theorem outside_before_far_root (sqrtf : K → K) (hs : SqrtSpec sqrtf) (s : Sphere K)
    (orig dir : Vec3f K) (hDD : dir.dot dir = 1) (hr : 0 ≤ s.radius) (t0 t1 dl : K)
    (h2 : s.ray_intersect2 sqrtf orig dir = some (t0, t1)) (hlt : dl < t1)
    (hout : center_dist sqrtf s.center (orig + dir.scale dl) ≥ s.radius) : dl ≤ t0 := by
  obtain ⟨hd, ht0, ht1⟩ := ray_intersect2_some sqrtf s orig dir t0 t1 h2
  have hcd := center_dist_sq sqrtf hs s.center (orig + dir.scale dl)
  have hrr : s.radius * s.radius
      ≤ center_dist sqrtf s.center (orig + dir.scale dl)
        * center_dist sqrtf s.center (orig + dir.scale dl) :=
    mul_self_le_mul_self hr hout
  rw [hcd] at hrr
  have hexp : (s.center.x - (orig + dir.scale dl).x) ^ 2
      + (s.center.y - (orig + dir.scale dl).y) ^ 2
      + (s.center.z - (orig + dir.scale dl).z) ^ 2
      = (dl - s.tca orig dir) * (dl - s.tca orig dir)
        + ((s.center - orig).dot (s.center - orig) - s.tca orig dir * s.tca orig dir) := by
    simp only [Sphere.tca, Vec3f.add_def, Vec3f.sub_def, Vec3f.scale, Vec3f.dot] at hDD ⊢
    linear_combination (dl ^ 2) * hDD
  rw [hexp] at hrr
  have hdisc : 0 ≤ s.radius * s.radius
      - ((s.center - orig).dot (s.center - orig) - s.tca orig dir * s.tca orig dir) := by
    have := not_lt.1 hd
    linarith
  obtain ⟨hthc0, hthc⟩ := hs _ hdisc
  change 0 ≤ s.thc sqrtf orig dir at hthc0
  change s.thc sqrtf orig dir * s.thc sqrtf orig dir = _ at hthc
  rw [ht0]
  rw [ht1] at hlt
  by_contra hc
  have hc2 : s.tca orig dir - s.thc sqrtf orig dir < dl := not_le.1 hc
  nlinarith

end FloorLemmas

/-! ## The portal spheres -/

section PortalLemmas

variable {K : Type} [LinearOrderedField K]

theorem SqrtSpec.sqrtf_hundredth {sqrtf : K → K} (hs : SqrtSpec sqrtf) : sqrtf (1 / 100) = 1 / 10 := by
  have h := hs.sqrtf_mul_self (1 / 10) (by norm_num)
  norm_num at h
  norm_num
  exact h

theorem SqrtSpec.sqrtf_81 {sqrtf : K → K} (hs : SqrtSpec sqrtf) : sqrtf (81 / 100) = 9 / 10 := by
  have h := hs.sqrtf_mul_self (9 / 10) (by norm_num)
  norm_num at h
  norm_num
  exact h

theorem portal_scene_small (sqrtf : K → K) (hs : SqrtSpec sqrtf) (r : HitRec K) :
    small_portal sqrtf ⟨-6, 4.9, -16⟩ ⟨-1, 0, 0⟩ (0.2, r)
      = (0.4, ⟨⟨-6.4, 4.9, -16⟩, ⟨1, 0, 0⟩, small_sphere.material⟩) := by
  have h81 := hs.sqrtf_81
  have h2 : small_sphere.ray_intersect2 sqrtf (⟨-6, 4.9, -16⟩ : Vec3f K) ⟨-1, 0, 0⟩
      = some (-1.4, 0.4) := by
    simp only [Sphere.ray_intersect2, small_sphere, Vec3f.sub_def, Vec3f.dot]
    norm_num [h81]
  have hpt : (⟨-6, 4.9, -16⟩ : Vec3f K) + (⟨-1, 0, 0⟩ : Vec3f K).scale 0.4
      = ⟨-6.4, 4.9, -16⟩ := by
    simp only [Vec3f.add_def, Vec3f.scale]
    norm_num
  have hcd : center_dist sqrtf (large_sphere : Sphere K).center ⟨-6.4, 4.9, -16⟩
      ≤ (large_sphere : Sphere K).radius := by
    simp only [center_dist, large_sphere]
    apply hs.le_of_le_mul_self _ _ (by positivity) (by norm_num)
    norm_num
  have hN : (-((⟨-6.4, 4.9, -16⟩ : Vec3f K) - (small_sphere : Sphere K).center)).normalize sqrtf
      = ⟨1, 0, 0⟩ := by
    simp only [small_sphere, Vec3f.neg_def, Vec3f.sub_def, Vec3f.normalize, Vec3f.norm,
      Vec3f.scale]
    norm_num [h81]
  simp only [small_portal, h2, hpt]
  rw [if_pos (by norm_num), if_pos hcd, hN]

theorem portal_scene_list (sqrtf : K → K) (hs : SqrtSpec sqrtf) (mat : Material K) :
    spheres_loop sqrtf ⟨-6, 4.9, -16⟩ ⟨-1, 0, 0⟩ [⟨⟨-6.3, 4.9, -16⟩, 0.1, mat⟩] HitRec.default
      = (0.2, ⟨⟨-6.2, 4.9, -16⟩, ⟨1, 0, 0⟩, mat⟩) := by
  have h1 := hs.sqrtf_hundredth
  simp only [spheres_loop, List.foldl, sphere_step, Sphere.ray_intersect, Vec3f.sub_def,
    Vec3f.add_def, Vec3f.dot, Vec3f.scale, Vec3f.normalize, Vec3f.norm, FLT_MAX]
  norm_num [h1]

theorem portal_scene_large (sqrtf : K → K) (hs : SqrtSpec sqrtf) (r : HitRec K) :
    large_portal sqrtf ⟨-6, 4.9, -16⟩ ⟨-1, 0, 0⟩ (0.4, r) = (0.4, r) := by
  have hx : (0 : K) ≤ 499 / 100 := by norm_num
  have h2 : (2 : K) < sqrtf (499 / 100) := hs.lt_sqrtf _ _ hx (by norm_num)
  have hl : large_sphere.ray_intersect sqrtf (⟨-6, 4.9, -16⟩ : Vec3f K) ⟨-1, 0, 0⟩
      = some (2 + sqrtf (499 / 100)) := by
    simp only [Sphere.ray_intersect, large_sphere, Vec3f.sub_def, Vec3f.dot]
    norm_num [h2]
    intro h
    exfalso
    linarith
  simp only [large_portal, hl]
  rw [if_neg (by norm_num; linarith)]

theorem hit_scene_list (sqrtf : K → K) (hs : SqrtSpec sqrtf) (mat : Material K) :
    spheres_loop sqrtf ⟨-5.5, 10, -16⟩ ⟨0, -1, 0⟩ [⟨⟨-5.5, 0, -16⟩, 1, mat⟩] HitRec.default
      = (9, ⟨⟨-5.5, 1, -16⟩, ⟨0, 1, 0⟩, mat⟩) := by
  have h1 := hs.sqrtf_one
  simp only [spheres_loop, List.foldl, sphere_step, Sphere.ray_intersect, Vec3f.sub_def,
    Vec3f.add_def, Vec3f.dot, Vec3f.scale, Vec3f.normalize, Vec3f.norm, FLT_MAX]
  norm_num [h1]

theorem hit_scene_small (sqrtf : K → K) (hs : SqrtSpec sqrtf) (r : HitRec K) :
    small_portal sqrtf ⟨-5.5, 10, -16⟩ ⟨0, -1, 0⟩ (9, r)
      = (9, ⟨⟨-5.5, 4, -16⟩, r.N, r.material⟩) := by
  have h81 := hs.sqrtf_81
  have h2 : small_sphere.ray_intersect2 sqrtf (⟨-5.5, 10, -16⟩ : Vec3f K) ⟨0, -1, 0⟩
      = some (4.2, 6) := by
    simp only [Sphere.ray_intersect2, small_sphere, Vec3f.sub_def, Vec3f.dot]
    norm_num [h81]
  have hpt : (⟨-5.5, 10, -16⟩ : Vec3f K) + (⟨0, -1, 0⟩ : Vec3f K).scale 6
      = ⟨-5.5, 4, -16⟩ := by
    simp only [Vec3f.add_def, Vec3f.scale]
    norm_num
  have hcd : ¬ center_dist sqrtf (large_sphere : Sphere K).center ⟨-5.5, 4, -16⟩
      ≤ (large_sphere : Sphere K).radius := by
    simp only [center_dist, large_sphere]
    apply not_le.2
    apply hs.lt_sqrtf _ _ (by positivity)
    norm_num
  simp only [small_portal, h2, hpt]
  rw [if_pos (by norm_num), if_neg hcd]

theorem hit_scene_large (sqrtf : K → K) (st : K × HitRec K) :
    large_portal sqrtf ⟨-5.5, 10, -16⟩ ⟨0, -1, 0⟩ st = st := by
  simp only [large_portal, Sphere.ray_intersect, large_sphere, Vec3f.sub_def, Vec3f.dot]
  norm_num

/-- C14 (amended): for every ray with unit direction and every sphere list: when the small
portal branch of `scene_intersect` assigns its normal and material, the small sphere's near
root `t0` (the distance the branch compares; it records the far root `t1`) is strictly
smaller than the hit distance of every list sphere the ray hits; when the large portal
branch assigns its normal and material, the large sphere's nearest root is strictly smaller
than the hit distance of every list sphere the ray hits. -/
theorem portal_nearer_than_list (sqrtf : K → K) (hs : SqrtSpec sqrtf) (orig dir : Vec3f K)
    (spheres : List (Sphere K)) (out : HitRec K) (hD : dir.norm sqrtf = 1) :
    (small_portal_taken sqrtf orig dir (spheres_loop sqrtf orig dir spheres out).1 →
      ∀ t0 t1 : K, small_sphere.ray_intersect2 sqrtf orig dir = some (t0, t1) →
        ∀ s ∈ spheres, ∀ d : K, s.ray_intersect sqrtf orig dir = some d → t0 < d) ∧
    (∀ r : HitRec K,
      large_portal_taken sqrtf orig dir
        (small_portal sqrtf orig dir ((spheres_loop sqrtf orig dir spheres out).1, r)).1 →
      ∀ dist_i : K, large_sphere.ray_intersect sqrtf orig dir = some dist_i →
        ∀ s ∈ spheres, ∀ d : K, s.ray_intersect sqrtf orig dir = some d → dist_i < d) := by
  have hDD := hs.dot_self_of_norm_one dir hD
  constructor
  · rintro ⟨a0, a1, ha, hlt, _⟩ t0 t1 ht s hsm d hd
    rw [ha] at ht
    have h01 := Option.some.inj ht
    have h0 : a0 = t0 := congrArg Prod.fst h01
    rw [← h0]
    exact lt_of_lt_of_le hlt (spheres_loop_le sqrtf orig dir spheres out s d hsm hd)
  · rintro r ⟨dl, hl, hlt, hout⟩ dist_i hdi s hsm d hd
    rw [hl] at hdi
    have h0 : dl = dist_i := Option.some.inj hdi
    rw [← h0]
    have hle := spheres_loop_le sqrtf orig dir spheres out s d hsm hd
    rcases small_portal_fst sqrtf orig dir ((spheres_loop sqrtf orig dir spheres out).1, r)
      with h | ⟨t0, t1, h2, h3, h4⟩
    · rw [h] at hlt
      exact lt_of_lt_of_le hlt hle
    · rw [h4] at hlt
      have hr : (0 : K) ≤ (small_sphere : Sphere K).radius := by
        simp only [small_sphere]
        norm_num
      have := outside_before_far_root sqrtf hs small_sphere orig dir hDD hr t0 t1 dl h2 hlt hout
      exact lt_of_le_of_lt this (lt_of_lt_of_le h3 hle)

theorem norm_neg_unit_x_real : (⟨-1, 0, 0⟩ : Vec3f ℝ).norm Real.sqrt = 1 := by
  simp [Vec3f.norm]

theorem portal_nearer_than_list_witness :
    SqrtSpec Real.sqrt ∧ (⟨-1, 0, 0⟩ : Vec3f ℝ).norm Real.sqrt = 1 ∧
    ((small_portal_taken Real.sqrt (⟨-6, 4.9, -16⟩ : Vec3f ℝ) (⟨-1, 0, 0⟩ : Vec3f ℝ)
        (spheres_loop Real.sqrt (⟨-6, 4.9, -16⟩ : Vec3f ℝ) (⟨-1, 0, 0⟩ : Vec3f ℝ) [(⟨⟨-6.3, 4.9, -16⟩, 0.1, demo_diffuse⟩ : Sphere ℝ)] HitRec.default).1 →
      ∀ t0 t1 : ℝ, small_sphere.ray_intersect2 Real.sqrt (⟨-6, 4.9, -16⟩ : Vec3f ℝ) (⟨-1, 0, 0⟩ : Vec3f ℝ) = some (t0, t1) →
        ∀ s ∈ [(⟨⟨-6.3, 4.9, -16⟩, 0.1, demo_diffuse⟩ : Sphere ℝ)], ∀ d : ℝ,
          s.ray_intersect Real.sqrt (⟨-6, 4.9, -16⟩ : Vec3f ℝ) (⟨-1, 0, 0⟩ : Vec3f ℝ) = some d → t0 < d) ∧
    (∀ r : HitRec ℝ,
      large_portal_taken Real.sqrt (⟨-6, 4.9, -16⟩ : Vec3f ℝ) (⟨-1, 0, 0⟩ : Vec3f ℝ)
        (small_portal Real.sqrt (⟨-6, 4.9, -16⟩ : Vec3f ℝ) (⟨-1, 0, 0⟩ : Vec3f ℝ)
          ((spheres_loop Real.sqrt (⟨-6, 4.9, -16⟩ : Vec3f ℝ) (⟨-1, 0, 0⟩ : Vec3f ℝ) [(⟨⟨-6.3, 4.9, -16⟩, 0.1, demo_diffuse⟩ : Sphere ℝ)] HitRec.default).1, r)).1 →
      ∀ dist_i : ℝ, large_sphere.ray_intersect Real.sqrt (⟨-6, 4.9, -16⟩ : Vec3f ℝ) (⟨-1, 0, 0⟩ : Vec3f ℝ) = some dist_i →
        ∀ s ∈ [(⟨⟨-6.3, 4.9, -16⟩, 0.1, demo_diffuse⟩ : Sphere ℝ)], ∀ d : ℝ,
          s.ray_intersect Real.sqrt (⟨-6, 4.9, -16⟩ : Vec3f ℝ) (⟨-1, 0, 0⟩ : Vec3f ℝ) = some d → dist_i < d)) :=
  ⟨sqrtSpec_real, norm_neg_unit_x_real,
    portal_nearer_than_list Real.sqrt sqrtSpec_real (⟨-6, 4.9, -16⟩ : Vec3f ℝ) (⟨-1, 0, 0⟩ : Vec3f ℝ) [(⟨⟨-6.3, 4.9, -16⟩, 0.1, demo_diffuse⟩ : Sphere ℝ)] HitRec.default
      norm_neg_unit_x_real⟩

end PortalLemmas

section PortalScenes

variable {K : Type} [LinearOrderedField K] [FloorRing K]

theorem portal_scene (sqrtf : K → K) (hs : SqrtSpec sqrtf) (g : Globals K)
    (hduck : g.duck.nfaces = 0) (mat : Material K) :
    scene_intersect sqrtf g ⟨-6, 4.9, -16⟩ ⟨-1, 0, 0⟩ [⟨⟨-6.3, 4.9, -16⟩, 0.1, mat⟩]
        HitRec.default
      = (true, ⟨⟨-6.4, 4.9, -16⟩, ⟨1, 0, 0⟩, small_sphere.material⟩) := by
  have s5 : ∀ (a b : K) (out : HitRec K),
      checkerboard ⟨-6, 4.9, -16⟩ ⟨-1, 0, 0⟩ a b out = (FLT_MAX, out) := by
    intro a b out
    simp only [checkerboard]
    norm_num
  simp only [scene_intersect, portal_scene_list sqrtf hs, duck_loop_empty _ _ _ _ _ _ hduck,
    portal_scene_small sqrtf hs, portal_scene_large sqrtf hs, s5]
  norm_num [FLT_MAX]

theorem hit_scene (sqrtf : K → K) (hs : SqrtSpec sqrtf) (g : Globals K)
    (hduck : g.duck.nfaces = 0) (mat : Material K) :
    scene_intersect sqrtf g ⟨-5.5, 10, -16⟩ ⟨0, -1, 0⟩ [⟨⟨-5.5, 0, -16⟩, 1, mat⟩]
        HitRec.default
      = (true, ⟨⟨-5.5, 4, -16⟩, ⟨0, 1, 0⟩, mat⟩) := by
  have s5 : ∀ out : HitRec K,
      checkerboard ⟨-5.5, 10, -16⟩ ⟨0, -1, 0⟩ 9 FLT_MAX out = (FLT_MAX, out) := by
    intro out
    simp only [checkerboard, Vec3f.add_def, Vec3f.scale]
    norm_num
  simp only [scene_intersect, hit_scene_list sqrtf hs, duck_loop_empty _ _ _ _ _ _ hduck,
    hit_scene_small sqrtf hs, hit_scene_large sqrtf, s5]
  norm_num [FLT_MAX]

/-- C14 (as stated, refuted): for the ray from `(-6, 4.9, -16)` with unit direction
`(-1,0,0)` and the list holding one sphere centred at `(-6.3, 4.9, -16)` of radius 0.1 (mesh
empty), the list sphere is hit at distance 0.2, the small portal sphere has roots `-1.4` and
`0.4`, its branch is taken and `scene_intersect` returns the small portal sphere's far point,
inverted normal and material; the far root 0.4 it records is not smaller than the list
sphere's hit distance 0.2. -/
theorem portal_far_root_counterexample :
    (⟨-1, 0, 0⟩ : Vec3f ℝ).norm Real.sqrt = 1 ∧
    (⟨⟨-6.3, 4.9, -16⟩, 0.1, demo_diffuse⟩ : Sphere ℝ).ray_intersect Real.sqrt (⟨-6, 4.9, -16⟩ : Vec3f ℝ) (⟨-1, 0, 0⟩ : Vec3f ℝ)
      = some 0.2 ∧
    (small_sphere : Sphere ℝ).ray_intersect2 Real.sqrt (⟨-6, 4.9, -16⟩ : Vec3f ℝ) (⟨-1, 0, 0⟩ : Vec3f ℝ) = some (-1.4, 0.4) ∧
    small_portal_taken Real.sqrt (⟨-6, 4.9, -16⟩ : Vec3f ℝ) (⟨-1, 0, 0⟩ : Vec3f ℝ)
      (spheres_loop Real.sqrt (⟨-6, 4.9, -16⟩ : Vec3f ℝ) (⟨-1, 0, 0⟩ : Vec3f ℝ) [(⟨⟨-6.3, 4.9, -16⟩, 0.1, demo_diffuse⟩ : Sphere ℝ)] HitRec.default).1 ∧
    scene_intersect Real.sqrt (demo_globals : Globals ℝ) (⟨-6, 4.9, -16⟩ : Vec3f ℝ) (⟨-1, 0, 0⟩ : Vec3f ℝ) [(⟨⟨-6.3, 4.9, -16⟩, 0.1, demo_diffuse⟩ : Sphere ℝ)] HitRec.default
      = (true, ⟨⟨-6.4, 4.9, -16⟩, ⟨1, 0, 0⟩, small_sphere.material⟩) ∧
    ¬ ((0.4 : ℝ) < 0.2) := by
  have h81 : Real.sqrt (81 / 100) = 9 / 10 := sqrtSpec_real.sqrtf_81
  have h1 : Real.sqrt (1 / 100) = 1 / 10 := sqrtSpec_real.sqrtf_hundredth
  have hl : (⟨⟨-6.3, 4.9, -16⟩, 0.1, demo_diffuse⟩ : Sphere ℝ).ray_intersect Real.sqrt
      (⟨-6, 4.9, -16⟩ : Vec3f ℝ) (⟨-1, 0, 0⟩ : Vec3f ℝ) = some 0.2 := by
    simp only [Sphere.ray_intersect, Vec3f.sub_def, Vec3f.dot]
    norm_num [h1]
  have h2 : (small_sphere : Sphere ℝ).ray_intersect2 Real.sqrt (⟨-6, 4.9, -16⟩ : Vec3f ℝ) (⟨-1, 0, 0⟩ : Vec3f ℝ)
      = some (-1.4, 0.4) := by
    simp only [Sphere.ray_intersect2, small_sphere, Vec3f.sub_def, Vec3f.dot]
    norm_num [h81]
  have hcd : center_dist Real.sqrt (large_sphere : Sphere ℝ).center
      ((⟨-6, 4.9, -16⟩ : Vec3f ℝ) + (⟨-1, 0, 0⟩ : Vec3f ℝ).scale 0.4) ≤ (large_sphere : Sphere ℝ).radius := by
    simp only [center_dist, large_sphere, Vec3f.add_def, Vec3f.scale]
    apply sqrtSpec_real.le_of_le_mul_self _ _ (by positivity) (by norm_num)
    norm_num
  refine ⟨norm_neg_unit_x_real, hl, h2, ?_, ?_, by norm_num⟩
  · rw [portal_scene_list Real.sqrt sqrtSpec_real]
    exact ⟨-1.4, 0.4, h2, by norm_num, hcd⟩
  · exact portal_scene Real.sqrt sqrtSpec_real demo_globals rfl demo_diffuse

/-- C15: at the ray from `(-5.5, 10, -16)` toward `(0,-1,0)`, with an empty mesh and the
list holding one sphere centred at `(-5.5, 0, -16)` of radius 1, `scene_intersect` reports a
hit; the list sphere is the nearest primitive, at distance 9 (the final `spheres_dist`, the
checkerboard and the large portal sphere not being recorded), and the returned normal and
material are its own; the small portal sphere fails its containment test, yet the returned
hit point is the small sphere's far point `(-5.5, 4, -16)` instead of
`orig + dir*9 = (-5.5, 1, -16)`. -/
theorem portal_overwrites_hit :
    spheres_loop Real.sqrt (⟨-5.5, 10, -16⟩ : Vec3f ℝ) ⟨0, -1, 0⟩
        [⟨⟨-5.5, 0, -16⟩, 1, demo_diffuse⟩] HitRec.default
      = (9, ⟨⟨-5.5, 1, -16⟩, ⟨0, 1, 0⟩, demo_diffuse⟩) ∧
    ¬ small_portal_taken Real.sqrt (⟨-5.5, 10, -16⟩ : Vec3f ℝ) ⟨0, -1, 0⟩ 9 ∧
    (large_sphere : Sphere ℝ).ray_intersect Real.sqrt ⟨-5.5, 10, -16⟩ ⟨0, -1, 0⟩ = none ∧
    (checkerboard (⟨-5.5, 10, -16⟩ : Vec3f ℝ) ⟨0, -1, 0⟩ 9 FLT_MAX HitRec.default).1
      = FLT_MAX ∧
    scene_intersect Real.sqrt (demo_globals : Globals ℝ) ⟨-5.5, 10, -16⟩ ⟨0, -1, 0⟩
        [⟨⟨-5.5, 0, -16⟩, 1, demo_diffuse⟩] HitRec.default
      = (true, ⟨⟨-5.5, 4, -16⟩, ⟨0, 1, 0⟩, demo_diffuse⟩) ∧
    (⟨-5.5, 10, -16⟩ : Vec3f ℝ) + (⟨0, -1, 0⟩ : Vec3f ℝ).scale 9 = ⟨-5.5, 1, -16⟩ ∧
    (⟨-5.5, 4, -16⟩ : Vec3f ℝ) ≠ ⟨-5.5, 1, -16⟩ := by
  have h81 : Real.sqrt (81 / 100) = 9 / 10 := sqrtSpec_real.sqrtf_81
  have h2 : (small_sphere : Sphere ℝ).ray_intersect2 Real.sqrt ⟨-5.5, 10, -16⟩ ⟨0, -1, 0⟩
      = some (4.2, 6) := by
    simp only [Sphere.ray_intersect2, small_sphere, Vec3f.sub_def, Vec3f.dot]
    norm_num [h81]
  have hcd : ¬ center_dist Real.sqrt (large_sphere : Sphere ℝ).center
      ((⟨-5.5, 10, -16⟩ : Vec3f ℝ) + (⟨0, -1, 0⟩ : Vec3f ℝ).scale 6)
        ≤ (large_sphere : Sphere ℝ).radius := by
    simp only [center_dist, large_sphere, Vec3f.add_def, Vec3f.scale]
    apply not_le.2
    apply sqrtSpec_real.lt_sqrtf _ _ (by positivity)
    norm_num
  refine ⟨hit_scene_list Real.sqrt sqrtSpec_real demo_diffuse, ?_, ?_, ?_,
    hit_scene Real.sqrt sqrtSpec_real demo_globals rfl demo_diffuse, ?_, ?_⟩
  · rintro ⟨t0, t1, ht, _, hc⟩
    rw [h2] at ht
    have h := Option.some.inj ht
    have h1 : (6 : ℝ) = t1 := congrArg Prod.snd h
    rw [← h1] at hc
    exact hcd hc
  · simp only [Sphere.ray_intersect, large_sphere, Vec3f.sub_def, Vec3f.dot]
    norm_num
  · simp only [checkerboard, Vec3f.add_def, Vec3f.scale]
    norm_num
  · simp only [Vec3f.add_def, Vec3f.scale]
    norm_num
  · simp only [ne_eq, Vec3f.mk.injEq]
    norm_num

end PortalScenes

/-! ## The compositing loop -/

section Composite

theorem write_pixel_length (pm : List ℕ) (p : ℕ) (px : ℕ × ℕ × ℕ) :
    (write_pixel pm p px).length = pm.length := by
  simp [write_pixel]

theorem write_pixel_below (pm : List ℕ) (p : ℕ) (px : ℕ × ℕ × ℕ) (k : ℕ) (hk : k < p * 3) :
    (write_pixel pm p px)[k]? = pm[k]? := by
  unfold write_pixel
  rw [List.getElem?_set_ne (by omega), List.getElem?_set_ne (by omega),
    List.getElem?_set_ne (by omega)]

theorem write_pixel_at (pm : List ℕ) (p : ℕ) (px : ℕ × ℕ × ℕ) (h : p * 3 + 2 < pm.length) :
    (write_pixel pm p px)[p * 3]? = some px.1 ∧
    (write_pixel pm p px)[p * 3 + 1]? = some px.2.1 ∧
    (write_pixel pm p px)[p * 3 + 2]? = some px.2.2 := by
  unfold write_pixel
  refine ⟨?_, ?_, ?_⟩
  · rw [List.getElem?_set_ne (by omega), List.getElem?_set_ne (by omega),
      List.getElem?_set_self (by omega)]
  · rw [List.getElem?_set_ne (by omega), List.getElem?_set_self (by simp; omega)]
  · rw [List.getElem?_set_self (by simp; omega)]

theorem row_fold (f : ℕ → ℕ × ℕ × ℕ) (base : ℕ) (pm : List ℕ) (n : ℕ) :
    (base + n) * 3 ≤ pm.length →
    ((List.range n).foldl (fun pm i => write_pixel pm (base + i) (f i)) pm).length
      = pm.length ∧
    (∀ i, i < n →
      ((List.range n).foldl (fun pm i => write_pixel pm (base + i) (f i)) pm)[(base + i) * 3]?
        = some (f i).1 ∧
      ((List.range n).foldl (fun pm i => write_pixel pm (base + i) (f i))
        pm)[(base + i) * 3 + 1]? = some (f i).2.1 ∧
      ((List.range n).foldl (fun pm i => write_pixel pm (base + i) (f i))
        pm)[(base + i) * 3 + 2]? = some (f i).2.2) ∧
    (∀ k, k < base * 3 →
      ((List.range n).foldl (fun pm i => write_pixel pm (base + i) (f i)) pm)[k]?
        = pm[k]?) := by
  induction n with
  | zero =>
    intro _
    exact ⟨rfl, fun i hi => absurd hi (Nat.not_lt_zero i), fun k _ => rfl⟩
  | succ n ih =>
    intro hlen
    obtain ⟨hl, hin, hbelow⟩ := ih (by omega)
    rw [List.range_succ, List.foldl_append]
    simp only [List.foldl_cons, List.foldl_nil]
    refine ⟨?_, ?_, ?_⟩
    · rw [write_pixel_length, hl]
    · intro i hi
      rcases Nat.lt_succ_iff_lt_or_eq.1 hi with h | h
      · obtain ⟨a, b, c⟩ := hin i h
        rw [write_pixel_below _ _ _ _ (by omega), write_pixel_below _ _ _ _ (by omega),
          write_pixel_below _ _ _ _ (by omega)]
        exact ⟨a, b, c⟩
      · subst h
        exact write_pixel_at _ _ _ (by rw [hl]; omega)
    · intro k hk
      rw [write_pixel_below _ _ _ _ (by omega)]
      exact hbelow k hk

theorem rows_fold (F : ℕ → ℕ → ℕ × ℕ × ℕ) (W : ℕ) (pm : List ℕ) (H : ℕ) :
    H * W * 3 ≤ pm.length →
    ((List.range H).foldl
      (fun pm j => (List.range W).foldl (fun pm i => write_pixel pm (j * W + i) (F j i)) pm)
      pm).length = pm.length ∧
    ∀ j i, j < H → i < W →
      ((List.range H).foldl
        (fun pm j => (List.range W).foldl (fun pm i => write_pixel pm (j * W + i) (F j i)) pm)
        pm)[(j * W + i) * 3]? = some (F j i).1 ∧
      ((List.range H).foldl
        (fun pm j => (List.range W).foldl (fun pm i => write_pixel pm (j * W + i) (F j i)) pm)
        pm)[(j * W + i) * 3 + 1]? = some (F j i).2.1 ∧
      ((List.range H).foldl
        (fun pm j => (List.range W).foldl (fun pm i => write_pixel pm (j * W + i) (F j i)) pm)
        pm)[(j * W + i) * 3 + 2]? = some (F j i).2.2 := by
  induction H with
  | zero =>
    intro _
    exact ⟨rfl, fun j i hj _ => absurd hj (Nat.not_lt_zero j)⟩
  | succ H ih =>
    intro hlen
    have hmul : (H + 1) * W = H * W + W := Nat.succ_mul H W
    obtain ⟨hl, hin⟩ := ih (by rw [hmul] at hlen; omega)
    rw [List.range_succ, List.foldl_append]
    simp only [List.foldl_cons, List.foldl_nil]
    obtain ⟨rl, rin, rbelow⟩ := row_fold (F H) (H * W)
      ((List.range H).foldl
        (fun pm j => (List.range W).foldl (fun pm i => write_pixel pm (j * W + i) (F j i)) pm)
        pm) W (by rw [hl]; rw [hmul] at hlen; omega)
    refine ⟨by rw [rl, hl], ?_⟩
    intro j i hj hi
    rcases Nat.lt_succ_iff_lt_or_eq.1 hj with h | h
    · have hjw : (j + 1) * W ≤ H * W := Nat.mul_le_mul_right W h
      rw [Nat.succ_mul] at hjw
      rw [rbelow _ (by omega), rbelow _ (by omega), rbelow _ (by omega)]
      exact hin j i h hi
    · subst h
      exact rin i hi

end Composite

section CompositeField

variable {K : Type} [LinearOrderedField K] [FloorRing K]

theorem render_pixmap_pixel (framebuffer1 framebuffer2 : List (Vec3f K)) (j i : ℕ)
    (hj : j < height) (hi : i < width - delta) :
    (render_pixmap framebuffer1 framebuffer2)[(j * (width - delta) + i) * 3]?
      = some (composite_pixel (framebuffer1.getD (i + delta + j * width) Vec3f.zero)
          (framebuffer2.getD (i + j * width) Vec3f.zero)).1 ∧
    (render_pixmap framebuffer1 framebuffer2)[(j * (width - delta) + i) * 3 + 1]?
      = some (composite_pixel (framebuffer1.getD (i + delta + j * width) Vec3f.zero)
          (framebuffer2.getD (i + j * width) Vec3f.zero)).2.1 ∧
    (render_pixmap framebuffer1 framebuffer2)[(j * (width - delta) + i) * 3 + 2]?
      = some (composite_pixel (framebuffer1.getD (i + delta + j * width) Vec3f.zero)
          (framebuffer2.getD (i + j * width) Vec3f.zero)).2.2 := by
  have h := (rows_fold
    (fun j i => composite_pixel (framebuffer1.getD (i + delta + j * width) Vec3f.zero)
      (framebuffer2.getD (i + j * width) Vec3f.zero))
    (width - delta) (List.replicate ((width - delta) * height * 3) 0) height
    (by rw [List.length_replicate, Nat.mul_comm height])).2 j i hj hi
  exact h

theorem render_pixmap_const (c1 c2 : Vec3f K) (j i : ℕ)
    (hj : j < height) (hi : i < width - delta) :
    (render_pixmap (List.replicate (width * height) c1)
        (List.replicate (width * height) c2))[(j * (width - delta) + i) * 3]?
      = some (composite_pixel c1 c2).1 ∧
    (render_pixmap (List.replicate (width * height) c1)
        (List.replicate (width * height) c2))[(j * (width - delta) + i) * 3 + 1]?
      = some (composite_pixel c1 c2).2.1 ∧
    (render_pixmap (List.replicate (width * height) c1)
        (List.replicate (width * height) c2))[(j * (width - delta) + i) * 3 + 2]?
      = some (composite_pixel c1 c2).2.2 := by
  have h := render_pixmap_pixel (List.replicate (width * height) c1)
    (List.replicate (width * height) c2) j i hj hi
  have hb1 : i + delta + j * width < width * height := by
    simp only [width, height, delta] at hj hi ⊢
    omega
  have hb2 : i + j * width < width * height := by
    simp only [width, height, delta] at hj hi ⊢
    omega
  have g1 : (List.replicate (width * height) c1).getD (i + delta + j * width) Vec3f.zero
      = c1 := by
    rw [List.getD_eq_getElem?_getD, List.getElem?_replicate_of_lt hb1]
    rfl
  have g2 : (List.replicate (width * height) c2).getD (i + j * width) Vec3f.zero = c2 := by
    rw [List.getD_eq_getElem?_getD, List.getElem?_replicate_of_lt hb2]
    rfl
  rw [g1, g2] at h
  exact h

theorem toUChar_of_byte_range (x : K) (h0 : 0 ≤ x) (h1 : x ≤ 255) : toUChar x = ⌊x⌋₊ := by
  have hb := truncToInt_bounds x 255 h0 (by exact_mod_cast h1)
  have ht : truncToInt x = ⌊x⌋ := by
    unfold truncToInt
    rw [if_pos h0]
  unfold toUChar
  rw [Int.emod_eq_of_lt hb.1 (by omega), ht, Int.floor_toNat]

theorem composite_pixel_of_inUnit (c1 c2 : Vec3f K) (h1 : InUnit c1) (h2 : InUnit c2) :
    composite_pixel c1 c2
      = (⌊255 * channel_avg c1⌋₊, 0, ⌊255 * channel_avg c2⌋₊) := by
  have b : ∀ c : Vec3f K, InUnit c → 0 ≤ 255 * channel_avg c ∧ 255 * channel_avg c ≤ 255 := by
    intro c hc
    obtain ⟨hx0, hx, hy0, hy, hz0, hz⟩ := hc
    unfold channel_avg
    constructor
    · have : 0 ≤ (c.x + c.y + c.z) / 3 := div_nonneg (by linarith) (by norm_num)
      linarith
    · have : (c.x + c.y + c.z) / 3 ≤ 1 := by
        rw [div_le_one (by norm_num)]
        linarith
      linarith
  simp only [composite_pixel, tone_map_of_inUnit c1 h1, tone_map_of_inUnit c2 h2,
    toUChar_of_byte_range _ (b c1 h1).1 (b c1 h1).2,
    toUChar_of_byte_range _ (b c2 h2).1 (b c2 h2).2]

/-- C5 (as stated, refuted): for the constant framebuffers of colour `(1/2, 1/2, 1/2)`, whose
channels lie in `[0,1]` and whose channel average is `L1 = 1/2`, the red byte of the first
output pixel is 127, while `round(255*L1) = 128`. -/
theorem composite_round_counterexample :
    InUnit (⟨1 / 2, 1 / 2, 1 / 2⟩ : Vec3f ℚ) ∧
    (render_pixmap (List.replicate (width * height) (⟨1 / 2, 1 / 2, 1 / 2⟩ : Vec3f ℚ))
        (List.replicate (width * height)
          (⟨1 / 2, 1 / 2, 1 / 2⟩ : Vec3f ℚ)))[(0 * (width - delta) + 0) * 3]? = some 127 ∧
    round (255 * channel_avg (⟨1 / 2, 1 / 2, 1 / 2⟩ : Vec3f ℚ)) = 128 := by
  have hu : InUnit (⟨1 / 2, 1 / 2, 1 / 2⟩ : Vec3f ℚ) := by
    simp only [InUnit]
    norm_num
  refine ⟨hu, ?_, ?_⟩
  · rw [(render_pixmap_const (⟨1 / 2, 1 / 2, 1 / 2⟩ : Vec3f ℚ) ⟨1 / 2, 1 / 2, 1 / 2⟩ 0 0
      (by decide) (by decide)).1, composite_pixel_of_inUnit _ _ hu hu]
    simp only [channel_avg, Option.some.injEq]
    rw [Nat.floor_eq_iff (by norm_num)]
    norm_num
  · simp only [channel_avg]
    rw [round_eq, Int.floor_eq_iff]
    norm_num

/-- C5 (amended): for two constant-colour framebuffers with channels in `[0,1]`, with `L1`
the channel average of `framebuffer1` and `L2` that of `framebuffer2`, every output pixel
written by the compositing loop of `render` has red byte `floor(255*L1)`, green byte 0 and
blue byte `floor(255*L2)`. -/
theorem composite_constant_floor (c1 c2 : Vec3f K) (h1 : InUnit c1) (h2 : InUnit c2)
    (j i : ℕ) (hj : j < height) (hi : i < width - delta) :
    (render_pixmap (List.replicate (width * height) c1)
        (List.replicate (width * height) c2))[(j * (width - delta) + i) * 3]?
      = some ⌊255 * channel_avg c1⌋₊ ∧
    (render_pixmap (List.replicate (width * height) c1)
        (List.replicate (width * height) c2))[(j * (width - delta) + i) * 3 + 1]?
      = some 0 ∧
    (render_pixmap (List.replicate (width * height) c1)
        (List.replicate (width * height) c2))[(j * (width - delta) + i) * 3 + 2]?
      = some ⌊255 * channel_avg c2⌋₊ := by
  have h := render_pixmap_const c1 c2 j i hj hi
  rw [composite_pixel_of_inUnit c1 c2 h1 h2] at h
  exact h

theorem composite_constant_floor_witness :
    InUnit (⟨1 / 2, 1 / 2, 1 / 2⟩ : Vec3f ℚ) ∧ InUnit (⟨1, 1, 1⟩ : Vec3f ℚ) ∧
    0 < height ∧ 0 < width - delta ∧
    ((render_pixmap (List.replicate (width * height) (⟨1 / 2, 1 / 2, 1 / 2⟩ : Vec3f ℚ))
        (List.replicate (width * height)
          (⟨1, 1, 1⟩ : Vec3f ℚ)))[(0 * (width - delta) + 0) * 3]?
      = some ⌊255 * channel_avg (⟨1 / 2, 1 / 2, 1 / 2⟩ : Vec3f ℚ)⌋₊ ∧
    (render_pixmap (List.replicate (width * height) (⟨1 / 2, 1 / 2, 1 / 2⟩ : Vec3f ℚ))
        (List.replicate (width * height)
          (⟨1, 1, 1⟩ : Vec3f ℚ)))[(0 * (width - delta) + 0) * 3 + 1]?
      = some 0 ∧
    (render_pixmap (List.replicate (width * height) (⟨1 / 2, 1 / 2, 1 / 2⟩ : Vec3f ℚ))
        (List.replicate (width * height)
          (⟨1, 1, 1⟩ : Vec3f ℚ)))[(0 * (width - delta) + 0) * 3 + 2]?
      = some ⌊255 * channel_avg (⟨1, 1, 1⟩ : Vec3f ℚ)⌋₊) :=
  ⟨by simp only [InUnit]; norm_num, by simp only [InUnit]; norm_num, by decide, by decide,
    composite_constant_floor ⟨1 / 2, 1 / 2, 1 / 2⟩ ⟨1, 1, 1⟩
      (by simp only [InUnit]; norm_num) (by simp only [InUnit]; norm_num) 0 0
      (by decide) (by decide)⟩

end CompositeField

/-! ## The mesh loop and the checkerboard shade -/

section MeshLemmas

variable {K : Type} [LinearOrderedField K]

theorem demo_mesh_face0 (t : K) :
    (demo_mesh : Model K).ray_triangle_intersect 0 ⟨0, 0, 0⟩ ⟨0, 0, -1⟩ t = (true, 1) := by
  simp only [demo_mesh, Model.ofTriangles, ray_triangle, Vec3f.sub_def, Vec3f.cross, Vec3f.dot]
  norm_num

theorem demo_mesh_face1 (t : K) :
    (demo_mesh : Model K).ray_triangle_intersect 1 ⟨0, 0, 0⟩ ⟨0, 0, -1⟩ t = (true, 2.75) := by
  simp only [demo_mesh, Model.ofTriangles, ray_triangle, Vec3f.sub_def, Vec3f.cross, Vec3f.dot]
  norm_num

theorem demo_mesh_normal0 (sqrtf : K → K) (hs : SqrtSpec sqrtf) :
    (Vec3f.cross
      ((demo_mesh : Model K).point ((demo_mesh : Model K).vert 0 1)
        - (demo_mesh : Model K).point ((demo_mesh : Model K).vert 0 0))
      ((demo_mesh : Model K).point ((demo_mesh : Model K).vert 0 2)
        - (demo_mesh : Model K).point ((demo_mesh : Model K).vert 0 0))).normalize sqrtf
      = ⟨0, 0, 1⟩ := by
  have h16 : sqrtf 16 = 4 := by
    have h := hs.sqrtf_mul_self 4 (by norm_num)
    norm_num at h
    exact h
  simp only [demo_mesh, Model.ofTriangles, Vec3f.sub_def, Vec3f.cross, Vec3f.normalize,
    Vec3f.norm, Vec3f.scale]
  norm_num [h16]

theorem demo_mesh_normal1 (sqrtf : K → K) (hs : SqrtSpec sqrtf) :
    (Vec3f.cross
      ((demo_mesh : Model K).point ((demo_mesh : Model K).vert 1 1)
        - (demo_mesh : Model K).point ((demo_mesh : Model K).vert 1 0))
      ((demo_mesh : Model K).point ((demo_mesh : Model K).vert 1 2)
        - (demo_mesh : Model K).point ((demo_mesh : Model K).vert 1 0))).normalize sqrtf
      = ⟨0, 3 / 5, 4 / 5⟩ := by
  have h25 : sqrtf 25 = 5 := by
    have h := hs.sqrtf_mul_self 5 (by norm_num)
    norm_num at h
    exact h
  simp only [demo_mesh, Model.ofTriangles, Vec3f.sub_def, Vec3f.cross, Vec3f.normalize,
    Vec3f.norm, Vec3f.scale]
  norm_num [h25]

theorem demo_mesh_step0 (sqrtf : K → K) (hs : SqrtSpec sqrtf) (dist_tr : ℕ → K)
    (st : K × HitRec K) :
    duck_step sqrtf demo_mesh dist_tr ⟨0, 0, 0⟩ ⟨0, 0, -1⟩ st 0
      = if dist_tr 0 < 1 then
          (dist_tr 0, ⟨(⟨0, 0, 0⟩ : Vec3f K) + (⟨0, 0, -1⟩ : Vec3f K).scale (dist_tr 0),
            ⟨0, 0, 1⟩, duck_material⟩)
        else (1, st.2) := by
  unfold duck_step
  simp only [demo_mesh_face0, demo_mesh_normal0 sqrtf hs, true_and]

theorem demo_mesh_step1 (sqrtf : K → K) (hs : SqrtSpec sqrtf) (dist_tr : ℕ → K)
    (st : K × HitRec K) :
    duck_step sqrtf demo_mesh dist_tr ⟨0, 0, 0⟩ ⟨0, 0, -1⟩ st 1
      = if dist_tr 1 < 2.75 then
          (dist_tr 1, ⟨(⟨0, 0, 0⟩ : Vec3f K) + (⟨0, 0, -1⟩ : Vec3f K).scale (dist_tr 1),
            ⟨0, 3 / 5, 4 / 5⟩, duck_material⟩)
        else (2.75, st.2) := by
  unfold duck_step
  simp only [demo_mesh_face1, demo_mesh_normal1 sqrtf hs, true_and]

theorem demo_mesh_loop (sqrtf : K → K) (hs : SqrtSpec sqrtf) (dist_tr : ℕ → K)
    (out : HitRec K) :
    duck_loop sqrtf demo_mesh dist_tr ⟨0, 0, 0⟩ ⟨0, 0, -1⟩ out
      = if dist_tr 1 < 2.75 then
          (dist_tr 1, ⟨(⟨0, 0, 0⟩ : Vec3f K) + (⟨0, 0, -1⟩ : Vec3f K).scale (dist_tr 1),
            ⟨0, 3 / 5, 4 / 5⟩, duck_material⟩)
        else if dist_tr 0 < 1 then
          (2.75, ⟨(⟨0, 0, 0⟩ : Vec3f K) + (⟨0, 0, -1⟩ : Vec3f K).scale (dist_tr 0),
            ⟨0, 0, 1⟩, duck_material⟩)
        else (2.75, out) := by
  have h : duck_loop sqrtf demo_mesh dist_tr ⟨0, 0, 0⟩ ⟨0, 0, -1⟩ out
      = duck_step sqrtf demo_mesh dist_tr ⟨0, 0, 0⟩ ⟨0, 0, -1⟩
          (duck_step sqrtf demo_mesh dist_tr ⟨0, 0, 0⟩ ⟨0, 0, -1⟩ (FLT_MAX, out) 0) 1 := by
    have hn : List.range (demo_mesh : Model K).nfaces = [0, 1] := by
      simp [demo_mesh, Model.ofTriangles, List.range_succ]
    unfold duck_loop
    rw [hn]
    rfl
  rw [h, demo_mesh_step1 sqrtf hs, demo_mesh_step0 sqrtf hs]
  split_ifs <;> rfl

/-- C16: for the mesh `demo_mesh` and the ray from the origin toward `(0,0,-1)`, the
triangle routine reports a hit at distance 1 for face 0 (face normal `(0,0,1)`) and at
distance 2.75 for face 1; whatever value the unassigned local `dist_tr` holds, the mesh loop
of `scene_intersect` does not end with `duck_dist = 1` and the normal of face 0: with
`dist_tr = 0` it ends with `duck_dist = 0`, the hit point at the origin and the normal of the
farther face 1; with `dist_tr` large it ends with `duck_dist = 2.75` and writes nothing. -/
theorem mesh_loop_not_nearest :
    (demo_mesh : Model ℝ).ray_triangle_intersect 0 ⟨0, 0, 0⟩ ⟨0, 0, -1⟩ FLT_MAX = (true, 1) ∧
    (demo_mesh : Model ℝ).ray_triangle_intersect 1 ⟨0, 0, 0⟩ ⟨0, 0, -1⟩ 1 = (true, 2.75) ∧
    (Vec3f.cross
      ((demo_mesh : Model ℝ).point ((demo_mesh : Model ℝ).vert 0 1)
        - (demo_mesh : Model ℝ).point ((demo_mesh : Model ℝ).vert 0 0))
      ((demo_mesh : Model ℝ).point ((demo_mesh : Model ℝ).vert 0 2)
        - (demo_mesh : Model ℝ).point ((demo_mesh : Model ℝ).vert 0 0))).normalize Real.sqrt
      = ⟨0, 0, 1⟩ ∧
    (∀ dist_tr : ℕ → ℝ,
      ¬ ((duck_loop Real.sqrt demo_mesh dist_tr ⟨0, 0, 0⟩ ⟨0, 0, -1⟩ HitRec.default).1 = 1 ∧
         (duck_loop Real.sqrt demo_mesh dist_tr ⟨0, 0, 0⟩ ⟨0, 0, -1⟩ HitRec.default).2.N
           = ⟨0, 0, 1⟩)) ∧
    duck_loop Real.sqrt demo_mesh (fun _ => 0) ⟨0, 0, 0⟩ ⟨0, 0, -1⟩ HitRec.default
      = (0, ⟨⟨0, 0, 0⟩, ⟨0, 3 / 5, 4 / 5⟩, duck_material⟩) ∧
    duck_loop Real.sqrt demo_mesh (fun _ => FLT_MAX) ⟨0, 0, 0⟩ ⟨0, 0, -1⟩ HitRec.default
      = (2.75, HitRec.default) := by
  refine ⟨demo_mesh_face0 _, demo_mesh_face1 _, demo_mesh_normal0 Real.sqrt sqrtSpec_real,
    ?_, ?_, ?_⟩
  · intro dist_tr
    rw [demo_mesh_loop Real.sqrt sqrtSpec_real]
    split_ifs
    · rintro ⟨_, h⟩
      simp only [Vec3f.mk.injEq] at h
      norm_num at h
    · rintro ⟨h, _⟩
      norm_num at h
    · rintro ⟨h, _⟩
      norm_num at h
  · rw [demo_mesh_loop Real.sqrt sqrtSpec_real]
    simp only [Vec3f.add_def, Vec3f.scale]
    norm_num
  · rw [demo_mesh_loop Real.sqrt sqrtSpec_real]
    norm_num [FLT_MAX]

end MeshLemmas

section CheckerLemmas

variable {K : Type} [LinearOrderedField K] [FloorRing K]

theorem checker_color_eq (p : Vec3f K) (hp : InBoard p) :
    checker_color p
      = if (⌊0.5 * p.x⌋ + ⌈0.5 * p.z⌉) % 2 ≠ 0 then ⟨0.3, 0.3, 0.3⟩ else ⟨0.3, 0.2, 0.1⟩ := by
  obtain ⟨hx, hz1, hz2⟩ := hp
  have hx1 := (abs_lt.1 hx).1
  have h1 : truncToInt (0.5 * p.x + 1000) = ⌊0.5 * p.x⌋ + 1000 := by
    unfold truncToInt
    rw [if_pos (by linarith)]
    have : (0.5 * p.x + 1000 : K) = 0.5 * p.x + ((1000 : ℤ) : K) := by norm_num
    rw [this, Int.floor_add_int]
  have h2 : truncToInt (0.5 * p.z) = ⌈0.5 * p.z⌉ := by
    unfold truncToInt
    rw [if_neg (by linarith)]
  have h3 : (⌊0.5 * p.x⌋ + 1000 + ⌈0.5 * p.z⌉) % 2 = (⌊0.5 * p.x⌋ + ⌈0.5 * p.z⌉) % 2 := by
    omega
  simp only [checker_color, h1, h2, h3]

omit [FloorRing K] in
theorem shades_ne : (⟨0.3, 0.3, 0.3⟩ : Vec3f K) ≠ ⟨0.3, 0.2, 0.1⟩ := by
  simp only [ne_eq, Vec3f.mk.injEq]
  norm_num

/-- C17 (amended): the checkerboard shade is keyed by the parity of
`floor(0.5*x) + ceil(0.5*z)` (the conversion `int(.5*z)` truncates toward zero and `z` is
negative in the region): for every two hit points inside the tested region, equal parities
give the same diffuse colour and different parities give the two different shades
`(.3,.3,.3)` and `(.3,.2,.1)`; whenever the checkerboard branch of `scene_intersect` records
a hit, the diffuse colour it assigns is this shade of the hit point it writes. -/
theorem checker_color_parity (p q : Vec3f K) (hp : InBoard p) (hq : InBoard q) :
    ((⌊0.5 * p.x⌋ + ⌈0.5 * p.z⌉) % 2 = (⌊0.5 * q.x⌋ + ⌈0.5 * q.z⌉) % 2 →
      checker_color p = checker_color q) ∧
    ((⌊0.5 * p.x⌋ + ⌈0.5 * p.z⌉) % 2 ≠ (⌊0.5 * q.x⌋ + ⌈0.5 * q.z⌉) % 2 →
      (checker_color p = ⟨0.3, 0.3, 0.3⟩ ∧ checker_color q = ⟨0.3, 0.2, 0.1⟩) ∨
      (checker_color p = ⟨0.3, 0.2, 0.1⟩ ∧ checker_color q = ⟨0.3, 0.3, 0.3⟩)) ∧
    (⟨0.3, 0.3, 0.3⟩ : Vec3f K) ≠ ⟨0.3, 0.2, 0.1⟩ ∧
    ∀ (orig dir : Vec3f K) (spheres_dist duck_dist : K) (out : HitRec K),
      checkerboard orig dir spheres_dist duck_dist out = (FLT_MAX, out) ∨
      (checkerboard orig dir spheres_dist duck_dist out).2.material.diffuse_color
        = checker_color (checkerboard orig dir spheres_dist duck_dist out).2.hit := by
  rw [checker_color_eq p hp, checker_color_eq q hq]
  refine ⟨?_, ?_, shades_ne, ?_⟩
  · intro h
    rw [h]
  · intro h
    by_cases h1 : (⌊0.5 * p.x⌋ + ⌈0.5 * p.z⌉) % 2 = 0
    · have h2 : (⌊0.5 * q.x⌋ + ⌈0.5 * q.z⌉) % 2 ≠ 0 := by
        intro h3
        exact h (h1.trans h3.symm)
      right
      rw [if_neg (not_not.2 h1), if_pos h2]
      exact ⟨rfl, rfl⟩
    · have h2 : (⌊0.5 * q.x⌋ + ⌈0.5 * q.z⌉) % 2 = 0 := by
        omega
      left
      rw [if_pos h1, if_neg (not_not.2 h2)]
      exact ⟨rfl, rfl⟩
  · intro orig dir sd dd out
    simp only [checkerboard]
    split_ifs
    · exact Or.inr rfl
    · exact Or.inl rfl
    · exact Or.inl rfl

/-- C17 (as stated, refuted): the hit points `(0,-4,-12)` and `(0,-4,-12.5)` lie inside the
tested region, `floor(0.5*x) + floor(0.5*z)` is `-6` for the first and `-7` for the second,
of different parity, yet both receive the same diffuse colour. -/
theorem checker_floor_counterexample :
    InBoard (⟨0, -4, -12⟩ : Vec3f ℚ) ∧ InBoard (⟨0, -4, -25 / 2⟩ : Vec3f ℚ) ∧
    (⌊(0.5 : ℚ) * (⟨0, -4, -12⟩ : Vec3f ℚ).x⌋ + ⌊(0.5 : ℚ) * (⟨0, -4, -12⟩ : Vec3f ℚ).z⌋) % 2
      ≠ (⌊(0.5 : ℚ) * (⟨0, -4, -25 / 2⟩ : Vec3f ℚ).x⌋
          + ⌊(0.5 : ℚ) * (⟨0, -4, -25 / 2⟩ : Vec3f ℚ).z⌋) % 2 ∧
    checker_color (⟨0, -4, -12⟩ : Vec3f ℚ) = checker_color (⟨0, -4, -25 / 2⟩ : Vec3f ℚ) := by
  have b1 : InBoard (⟨0, -4, -12⟩ : Vec3f ℚ) := by
    simp only [InBoard]
    norm_num
  have b2 : InBoard (⟨0, -4, -25 / 2⟩ : Vec3f ℚ) := by
    simp only [InBoard]
    norm_num
  have f0 : ⌊(0.5 : ℚ) * 0⌋ = 0 := by
    rw [Int.floor_eq_iff]; norm_num
  have f1 : ⌊(0.5 : ℚ) * -12⌋ = -6 := by
    rw [Int.floor_eq_iff]; norm_num
  have f2 : ⌊(0.5 : ℚ) * (-25 / 2)⌋ = -7 := by
    rw [Int.floor_eq_iff]; norm_num
  have c1 : ⌈(0.5 : ℚ) * -12⌉ = -6 := by
    rw [Int.ceil_eq_iff]; norm_num
  have c2 : ⌈(0.5 : ℚ) * (-25 / 2)⌉ = -6 := by
    rw [Int.ceil_eq_iff]; norm_num
  refine ⟨b1, b2, ?_, ?_⟩
  · simp only [f0, f1, f2]
    decide
  · rw [checker_color_eq _ b1, checker_color_eq _ b2]
    simp only [f0, c1, c2]

theorem checker_color_parity_witness :
    InBoard (⟨0, -4, -12⟩ : Vec3f ℚ) ∧ InBoard (⟨3, -4, -12⟩ : Vec3f ℚ) ∧
    (((⌊(0.5 : ℚ) * (⟨0, -4, -12⟩ : Vec3f ℚ).x⌋ + ⌈(0.5 : ℚ) * (⟨0, -4, -12⟩ : Vec3f ℚ).z⌉) % 2
        = (⌊(0.5 : ℚ) * (⟨3, -4, -12⟩ : Vec3f ℚ).x⌋
            + ⌈(0.5 : ℚ) * (⟨3, -4, -12⟩ : Vec3f ℚ).z⌉) % 2 →
      checker_color (⟨0, -4, -12⟩ : Vec3f ℚ) = checker_color (⟨3, -4, -12⟩ : Vec3f ℚ)) ∧
    ((⌊(0.5 : ℚ) * (⟨0, -4, -12⟩ : Vec3f ℚ).x⌋ + ⌈(0.5 : ℚ) * (⟨0, -4, -12⟩ : Vec3f ℚ).z⌉) % 2
        ≠ (⌊(0.5 : ℚ) * (⟨3, -4, -12⟩ : Vec3f ℚ).x⌋
            + ⌈(0.5 : ℚ) * (⟨3, -4, -12⟩ : Vec3f ℚ).z⌉) % 2 →
      (checker_color (⟨0, -4, -12⟩ : Vec3f ℚ) = ⟨0.3, 0.3, 0.3⟩ ∧
        checker_color (⟨3, -4, -12⟩ : Vec3f ℚ) = ⟨0.3, 0.2, 0.1⟩) ∨
      (checker_color (⟨0, -4, -12⟩ : Vec3f ℚ) = ⟨0.3, 0.2, 0.1⟩ ∧
        checker_color (⟨3, -4, -12⟩ : Vec3f ℚ) = ⟨0.3, 0.3, 0.3⟩)) ∧
    (⟨0.3, 0.3, 0.3⟩ : Vec3f ℚ) ≠ ⟨0.3, 0.2, 0.1⟩ ∧
    ∀ (orig dir : Vec3f ℚ) (spheres_dist duck_dist : ℚ) (out : HitRec ℚ),
      checkerboard orig dir spheres_dist duck_dist out = (FLT_MAX, out) ∨
      (checkerboard orig dir spheres_dist duck_dist out).2.material.diffuse_color
        = checker_color (checkerboard orig dir spheres_dist duck_dist out).2.hit) :=
  ⟨by simp only [InBoard]; norm_num, by simp only [InBoard]; norm_num,
    checker_color_parity ⟨0, -4, -12⟩ ⟨3, -4, -12⟩ (by simp only [InBoard]; norm_num)
      (by simp only [InBoard]; norm_num)⟩

end CheckerLemmas

/-! ## Non-negative colours -/

section NonnegLemmas

variable {K : Type} [LinearOrderedField K]

theorem nonnegMaterial_default : NonnegMaterial (Material.default : Material K) := by
  simp only [NonnegMaterial, NonnegColor, Material.default, Vec3f.zero]
  norm_num

theorem nonnegMaterial_duck : NonnegMaterial (duck_material : Material K) := by
  simp only [NonnegMaterial, NonnegColor, duck_material]
  norm_num

theorem nonnegMaterial_small : NonnegMaterial (small_sphere : Sphere K).material := by
  simp only [NonnegMaterial, NonnegColor, small_sphere]
  norm_num

theorem nonnegMaterial_large : NonnegMaterial (large_sphere : Sphere K).material := by
  simp only [NonnegMaterial, NonnegColor, large_sphere]
  norm_num

theorem sphere_step_material (sqrtf : K → K) (orig dir : Vec3f K) (st : K × HitRec K)
    (s : Sphere K) (h1 : NonnegMaterial st.2.material) (h2 : NonnegMaterial s.material) :
    NonnegMaterial (sphere_step sqrtf orig dir st s).2.material := by
  unfold sphere_step
  cases s.ray_intersect sqrtf orig dir with
  | none => exact h1
  | some d =>
    simp only []
    split_ifs
    · exact h2
    · exact h1

theorem sphere_fold_material (sqrtf : K → K) (orig dir : Vec3f K) (l : List (Sphere K)) :
    ∀ st : K × HitRec K, NonnegMaterial st.2.material →
      (∀ s ∈ l, NonnegMaterial s.material) →
      NonnegMaterial (l.foldl (sphere_step sqrtf orig dir) st).2.material := by
  induction l with
  | nil => intro st h _; exact h
  | cons a l ih =>
    intro st h hl
    exact ih _ (sphere_step_material sqrtf orig dir st a h (hl a (List.mem_cons_self a l)))
      (fun s hs => hl s (List.mem_cons_of_mem a hs))

theorem duck_step_material (sqrtf : K → K) (duck : Model K) (dist_tr : ℕ → K)
    (orig dir : Vec3f K) (st : K × HitRec K) (fi : ℕ) (h1 : NonnegMaterial st.2.material) :
    NonnegMaterial (duck_step sqrtf duck dist_tr orig dir st fi).2.material := by
  unfold duck_step
  simp only []
  split_ifs
  · exact nonnegMaterial_duck
  · exact h1

theorem duck_fold_material (sqrtf : K → K) (duck : Model K) (dist_tr : ℕ → K)
    (orig dir : Vec3f K) (l : List ℕ) :
    ∀ st : K × HitRec K, NonnegMaterial st.2.material →
      NonnegMaterial (l.foldl (duck_step sqrtf duck dist_tr orig dir) st).2.material := by
  induction l with
  | nil => intro st h; exact h
  | cons a l ih =>
    intro st h
    exact ih _ (duck_step_material sqrtf duck dist_tr orig dir st a h)

theorem small_portal_material (sqrtf : K → K) (orig dir : Vec3f K) (st : K × HitRec K)
    (h1 : NonnegMaterial st.2.material) :
    NonnegMaterial (small_portal sqrtf orig dir st).2.material := by
  unfold small_portal
  cases small_sphere.ray_intersect2 sqrtf orig dir with
  | none => exact h1
  | some p =>
    simp only []
    split_ifs
    · exact nonnegMaterial_small
    · exact h1
    · exact h1

theorem large_portal_material (sqrtf : K → K) (orig dir : Vec3f K) (st : K × HitRec K)
    (h1 : NonnegMaterial st.2.material) :
    NonnegMaterial (large_portal sqrtf orig dir st).2.material := by
  unfold large_portal
  cases large_sphere.ray_intersect sqrtf orig dir with
  | none => exact h1
  | some p =>
    simp only []
    split_ifs
    · exact nonnegMaterial_large
    · exact h1
    · exact h1

theorem nonnegColor_add (a b : Vec3f K) (ha : NonnegColor a) (hb : NonnegColor b) :
    NonnegColor (a + b) := by
  obtain ⟨a1, a2, a3⟩ := ha
  obtain ⟨b1, b2, b3⟩ := hb
  simp only [NonnegColor, Vec3f.add_def]
  exact ⟨add_nonneg a1 b1, add_nonneg a2 b2, add_nonneg a3 b3⟩

theorem nonnegColor_scale (a : Vec3f K) (t : K) (ha : NonnegColor a) (ht : 0 ≤ t) :
    NonnegColor (a.scale t) := by
  obtain ⟨a1, a2, a3⟩ := ha
  simp only [NonnegColor, Vec3f.scale]
  exact ⟨mul_nonneg a1 ht, mul_nonneg a2 ht, mul_nonneg a3 ht⟩

theorem shade_nonneg (mat : Material K) (d sp : K) (rc fc : Vec3f K)
    (hm : NonnegMaterial mat) (hd : 0 ≤ d) (hsp : 0 ≤ sp) (hrc : NonnegColor rc)
    (hfc : NonnegColor fc) : NonnegColor (shade mat d sp rc fc) := by
  obtain ⟨h0, h1, h2, h3, hc⟩ := hm
  unfold shade
  refine nonnegColor_add _ _ (nonnegColor_add _ _ (nonnegColor_add _ _ ?_ ?_) ?_) ?_
  · exact nonnegColor_scale _ _ (nonnegColor_scale _ _ hc hd) h0
  · refine nonnegColor_scale _ _ (nonnegColor_scale _ _ ?_ hsp) h1
    simp only [NonnegColor]
    norm_num
  · exact nonnegColor_scale _ _ hrc h2
  · exact nonnegColor_scale _ _ hfc h3

theorem tone_map_inUnit (c : Vec3f K) (hc : NonnegColor c) : InUnit (tone_map c) := by
  obtain ⟨hx, hy, hz⟩ := hc
  have hget : max (c.get 0) (max (c.get 1) (c.get 2)) = max c.x (max c.y c.z) := rfl
  by_cases hm : max c.x (max c.y c.z) > 1
  · have hpos : 0 < max c.x (max c.y c.z) := lt_trans zero_lt_one hm
    have hxm : c.x ≤ max c.x (max c.y c.z) := le_max_left _ _
    have hym : c.y ≤ max c.x (max c.y c.z) := le_trans (le_max_left _ _) (le_max_right _ _)
    have hzm : c.z ≤ max c.x (max c.y c.z) := le_trans (le_max_right _ _) (le_max_right _ _)
    simp only [tone_map, hget, hm, if_true, Vec3f.scale, InUnit, mul_one_div]
    generalize max c.x (max c.y c.z) = mx at *
    refine ⟨div_nonneg hx (le_of_lt hpos), (div_le_one hpos).2 hxm,
      div_nonneg hy (le_of_lt hpos), (div_le_one hpos).2 hym,
      div_nonneg hz (le_of_lt hpos), (div_le_one hpos).2 hzm⟩
  · have hle := not_lt.1 hm
    simp only [tone_map, hget, hm, if_false, InUnit]
    exact ⟨hx, le_trans (le_max_left _ _) hle, hy,
      le_trans (le_trans (le_max_left _ _) (le_max_right _ _)) hle, hz,
      le_trans (le_trans (le_max_right _ _) (le_max_right _ _)) hle⟩

theorem channel_avg_inUnit (c : Vec3f K) (hc : InUnit c) :
    0 ≤ channel_avg c ∧ channel_avg c ≤ 1 := by
  obtain ⟨hx0, hx, hy0, hy, hz0, hz⟩ := hc
  unfold channel_avg
  constructor
  · exact div_nonneg (by linarith) (by norm_num)
  · rw [div_le_one (by norm_num)]
    linarith

end NonnegLemmas

section NonnegScene

variable {K : Type} [LinearOrderedField K] [FloorRing K]

theorem checker_color_nonneg (p : Vec3f K) : NonnegColor (checker_color p) := by
  unfold checker_color
  split_ifs <;> simp only [NonnegColor] <;> norm_num

theorem checkerboard_material (orig dir : Vec3f K) (sd dd : K) (out : HitRec K)
    (h : NonnegMaterial out.material) :
    NonnegMaterial (checkerboard orig dir sd dd out).2.material := by
  obtain ⟨h0, h1, h2, h3, _⟩ := h
  simp only [checkerboard]
  split_ifs
  · exact ⟨h0, h1, h2, h3, checker_color_nonneg _⟩
  · exact ⟨h0, h1, h2, h3, ‹_›⟩
  · exact ⟨h0, h1, h2, h3, ‹_›⟩

theorem scene_intersect_material (sqrtf : K → K) (g : Globals K) (orig dir : Vec3f K)
    (spheres : List (Sphere K)) (out : HitRec K) (hout : NonnegMaterial out.material)
    (hsph : ∀ s ∈ spheres, NonnegMaterial s.material) :
    NonnegMaterial (scene_intersect sqrtf g orig dir spheres out).2.material := by
  unfold scene_intersect
  simp only []
  apply checkerboard_material
  apply large_portal_material
  apply small_portal_material
  exact duck_fold_material sqrtf g.duck g.dist_tr orig dir _ _
    (sphere_fold_material sqrtf orig dir spheres _ hout hsph)

theorem light_step_nonneg (m : Libm K) (hpow : PowSpec m.powf) (g : Globals K)
    (spheres : List (Sphere K)) (dir point N : Vec3f K) (mat : Material K) (acc : K × K)
    (l : Light K) (hacc : 0 ≤ acc.1 ∧ 0 ≤ acc.2) (hl : 0 ≤ l.intensity) :
    0 ≤ (light_step m g spheres dir point N mat acc l).1 ∧
      0 ≤ (light_step m g spheres dir point N mat acc l).2 := by
  unfold light_step
  simp only []
  split_ifs
  · exact hacc
  · exact ⟨add_nonneg hacc.1 (mul_nonneg hl (le_max_left _ _)),
      add_nonneg hacc.2 (mul_nonneg (hpow _ _ (le_max_left _ _)) hl)⟩

theorem light_fold_nonneg (m : Libm K) (hpow : PowSpec m.powf) (g : Globals K)
    (spheres : List (Sphere K)) (dir point N : Vec3f K) (mat : Material K)
    (lights : List (Light K)) :
    ∀ acc : K × K, 0 ≤ acc.1 ∧ 0 ≤ acc.2 → (∀ l ∈ lights, 0 ≤ l.intensity) →
      0 ≤ (lights.foldl (light_step m g spheres dir point N mat) acc).1 ∧
        0 ≤ (lights.foldl (light_step m g spheres dir point N mat) acc).2 := by
  induction lights with
  | nil => intro acc h _; exact h
  | cons a l ih =>
    intro acc h hl
    exact ih _ (light_step_nonneg m hpow g spheres dir point N mat acc a h
      (hl a (List.mem_cons_self a l))) (fun x hx => hl x (List.mem_cons_of_mem a hx))

theorem envmap_at_nonneg (g : Globals K) (henv : ∀ c ∈ g.envmap, NonnegColor c) (idx : ℤ) :
    NonnegColor (envmap_at g idx) := by
  have hz : NonnegColor (Vec3f.zero : Vec3f K) := by
    simp only [NonnegColor, Vec3f.zero]
    norm_num
  unfold envmap_at
  cases idx with
  | ofNat n =>
    simp only [List.getD_eq_getElem?_getD]
    cases h : g.envmap[n]? with
    | none => exact hz
    | some c => exact henv c (List.getElem?_mem h)
  | negSucc n => exact hz

theorem cast_ray_log_nonneg (m : Libm K) (hpow : PowSpec m.powf) (g : Globals K)
    (henv : ∀ c ∈ g.envmap, NonnegColor c) (spheres : List (Sphere K))
    (hsph : ∀ s ∈ spheres, NonnegMaterial s.material) (lights : List (Light K))
    (hl : ∀ l ∈ lights, 0 ≤ l.intensity) (k : ℕ) :
    ∀ (depth : ℕ) (orig dir : Vec3f K), 5 ≤ depth + k →
      NonnegColor (cast_ray_log m g spheres lights orig dir depth).1 := by
  induction k with
  | zero =>
    intro depth orig dir hd
    rw [cast_ray_log, dif_pos (by omega)]
    exact envmap_at_nonneg g henv _
  | succ k ih =>
    intro depth orig dir hd
    rw [cast_ray_log]
    by_cases h1 : depth > 4
    · rw [dif_pos h1]
      exact envmap_at_nonneg g henv _
    rw [dif_neg h1]
    simp only []
    by_cases h2 : (scene_intersect m.sqrtf g orig dir spheres HitRec.default).1 = false
    · rw [if_pos h2]
      exact envmap_at_nonneg g henv _
    · rw [if_neg h2]
      have hll := light_fold_nonneg m hpow g spheres dir
        (scene_intersect m.sqrtf g orig dir spheres HitRec.default).2.hit
        (scene_intersect m.sqrtf g orig dir spheres HitRec.default).2.N
        (scene_intersect m.sqrtf g orig dir spheres HitRec.default).2.material
        lights (0, 0) ⟨le_refl _, le_refl _⟩ hl
      exact shade_nonneg _ _ _ _ _
        (scene_intersect_material m.sqrtf g orig dir spheres HitRec.default
          nonnegMaterial_default hsph)
        hll.1 hll.2 (ih _ _ _ (by omega)) (ih _ _ _ (by omega))

/-- C20: `cast_ray` never produces a negative channel: for every ray and depth, every
environment map with non-negative entries, every light list with non-negative intensities
and every sphere list whose materials have non-negative albedo weights and diffuse colours,
each channel of the colour returned by `cast_ray` is `>= 0`; consequently its tone-mapped
channel average lies in `[0,1]`, `255*avg` lies in `[0,255]`, and its conversion to an output
byte is the plain truncation, a value `<= 255`. -/
theorem cast_ray_nonneg (m : Libm K) (hpow : PowSpec m.powf) (g : Globals K)
    (henv : ∀ c ∈ g.envmap, NonnegColor c) (spheres : List (Sphere K))
    (hsph : ∀ s ∈ spheres, NonnegMaterial s.material) (lights : List (Light K))
    (hl : ∀ l ∈ lights, 0 ≤ l.intensity) (orig dir : Vec3f K) (depth : ℕ) :
    NonnegColor (cast_ray m g spheres lights orig dir depth) ∧
    0 ≤ channel_avg (tone_map (cast_ray m g spheres lights orig dir depth)) ∧
    channel_avg (tone_map (cast_ray m g spheres lights orig dir depth)) ≤ 1 ∧
    0 ≤ 255 * channel_avg (tone_map (cast_ray m g spheres lights orig dir depth)) ∧
    255 * channel_avg (tone_map (cast_ray m g spheres lights orig dir depth)) ≤ 255 ∧
    toUChar (255 * channel_avg (tone_map (cast_ray m g spheres lights orig dir depth)))
      = ⌊255 * channel_avg (tone_map (cast_ray m g spheres lights orig dir depth))⌋₊ ∧
    toUChar (255 * channel_avg (tone_map (cast_ray m g spheres lights orig dir depth)))
      ≤ 255 := by
  have hc : NonnegColor (cast_ray m g spheres lights orig dir depth) :=
    cast_ray_log_nonneg m hpow g henv spheres hsph lights hl 5 depth orig dir (by omega)
  obtain ⟨ha0, ha1⟩ := channel_avg_inUnit _ (tone_map_inUnit _ hc)
  have hb0 : 0 ≤ 255 * channel_avg (tone_map (cast_ray m g spheres lights orig dir depth)) := by
    linarith
  have hb1 : 255 * channel_avg (tone_map (cast_ray m g spheres lights orig dir depth))
      ≤ 255 := by
    linarith
  have hu := toUChar_of_byte_range _ hb0 hb1
  refine ⟨hc, ha0, ha1, hb0, hb1, hu, ?_⟩
  rw [hu]
  exact Nat.floor_le_of_le (by exact_mod_cast hb1)

theorem powSpec_real : PowSpec (fun x y : ℝ => x ^ y) :=
  fun _ _ hx => Real.rpow_nonneg hx _

theorem cast_ray_nonneg_witness :
    PowSpec (⟨Real.sqrt, Real.arccos, fun y x => Complex.arg ⟨x, y⟩, fun x y => x ^ y, Real.pi⟩ : Libm ℝ).powf ∧
    (∀ c ∈ (demo_globals : Globals ℝ).envmap, NonnegColor c) ∧
    (∀ s ∈ [(⟨⟨0, 0, -10⟩, 2, demo_diffuse⟩ : Sphere ℝ)], NonnegMaterial s.material) ∧
    (∀ l ∈ [(⟨⟨0, 0, -5⟩, 1⟩ : Light ℝ)], 0 ≤ l.intensity) ∧
    (NonnegColor (cast_ray (⟨Real.sqrt, Real.arccos, fun y x => Complex.arg ⟨x, y⟩, fun x y => x ^ y, Real.pi⟩ : Libm ℝ)
        demo_globals [⟨⟨0, 0, -10⟩, 2, demo_diffuse⟩] [⟨⟨0, 0, -5⟩, 1⟩] ⟨0, 0, 0⟩ ⟨0, 0, -1⟩ 0) ∧
    0 ≤ channel_avg (tone_map (cast_ray (⟨Real.sqrt, Real.arccos, fun y x => Complex.arg ⟨x, y⟩, fun x y => x ^ y, Real.pi⟩ : Libm ℝ)
        demo_globals [⟨⟨0, 0, -10⟩, 2, demo_diffuse⟩] [⟨⟨0, 0, -5⟩, 1⟩] ⟨0, 0, 0⟩ ⟨0, 0, -1⟩ 0)) ∧
    channel_avg (tone_map (cast_ray (⟨Real.sqrt, Real.arccos, fun y x => Complex.arg ⟨x, y⟩, fun x y => x ^ y, Real.pi⟩ : Libm ℝ)
        demo_globals [⟨⟨0, 0, -10⟩, 2, demo_diffuse⟩] [⟨⟨0, 0, -5⟩, 1⟩] ⟨0, 0, 0⟩ ⟨0, 0, -1⟩ 0)) ≤ 1 ∧
    0 ≤ 255 * channel_avg (tone_map (cast_ray (⟨Real.sqrt, Real.arccos, fun y x => Complex.arg ⟨x, y⟩, fun x y => x ^ y, Real.pi⟩ : Libm ℝ)
        demo_globals [⟨⟨0, 0, -10⟩, 2, demo_diffuse⟩] [⟨⟨0, 0, -5⟩, 1⟩] ⟨0, 0, 0⟩ ⟨0, 0, -1⟩ 0)) ∧
    255 * channel_avg (tone_map (cast_ray (⟨Real.sqrt, Real.arccos, fun y x => Complex.arg ⟨x, y⟩, fun x y => x ^ y, Real.pi⟩ : Libm ℝ)
        demo_globals [⟨⟨0, 0, -10⟩, 2, demo_diffuse⟩] [⟨⟨0, 0, -5⟩, 1⟩] ⟨0, 0, 0⟩ ⟨0, 0, -1⟩ 0)) ≤ 255 ∧
    toUChar (255 * channel_avg (tone_map (cast_ray (⟨Real.sqrt, Real.arccos, fun y x => Complex.arg ⟨x, y⟩, fun x y => x ^ y, Real.pi⟩ : Libm ℝ)
        demo_globals [⟨⟨0, 0, -10⟩, 2, demo_diffuse⟩] [⟨⟨0, 0, -5⟩, 1⟩] ⟨0, 0, 0⟩ ⟨0, 0, -1⟩ 0)))
      = ⌊255 * channel_avg (tone_map (cast_ray (⟨Real.sqrt, Real.arccos, fun y x => Complex.arg ⟨x, y⟩, fun x y => x ^ y, Real.pi⟩ : Libm ℝ)
        demo_globals [⟨⟨0, 0, -10⟩, 2, demo_diffuse⟩] [⟨⟨0, 0, -5⟩, 1⟩] ⟨0, 0, 0⟩ ⟨0, 0, -1⟩ 0))⌋₊ ∧
    toUChar (255 * channel_avg (tone_map (cast_ray (⟨Real.sqrt, Real.arccos, fun y x => Complex.arg ⟨x, y⟩, fun x y => x ^ y, Real.pi⟩ : Libm ℝ)
        demo_globals [⟨⟨0, 0, -10⟩, 2, demo_diffuse⟩] [⟨⟨0, 0, -5⟩, 1⟩] ⟨0, 0, 0⟩ ⟨0, 0, -1⟩ 0))) ≤ 255) := by
  have henv : ∀ c ∈ (demo_globals : Globals ℝ).envmap, NonnegColor c := by
    intro c hc
    simp only [demo_globals, List.mem_cons, List.mem_singleton, List.not_mem_nil, or_false]
      at hc
    rcases hc with hc | hc <;> subst hc <;> simp only [NonnegColor] <;> norm_num
  have hsph : ∀ s ∈ [(⟨⟨0, 0, -10⟩, 2, demo_diffuse⟩ : Sphere ℝ)],
      NonnegMaterial s.material := by
    intro s hs
    simp only [List.mem_singleton] at hs
    subst hs
    simp only [NonnegMaterial, NonnegColor, demo_diffuse]
    norm_num
  have hl : ∀ l ∈ [(⟨⟨0, 0, -5⟩, 1⟩ : Light ℝ)], 0 ≤ l.intensity := by
    intro l hl
    simp only [List.mem_singleton] at hl
    subst hl
    norm_num
  exact ⟨powSpec_real, henv, hsph, hl,
    cast_ray_nonneg _ powSpec_real demo_globals henv _ hsph _ hl ⟨0, 0, 0⟩ ⟨0, 0, -1⟩ 0⟩

end NonnegScene

/-! ## Instances of the order independence -/

theorem distinctHits_demo :
    [(⟨⟨0, 0, -10⟩, 2, demo_diffuse⟩ : Sphere ℝ), ⟨⟨0, 0, -20⟩, 2, demo_mirror⟩].Pairwise
      (DistinctHits Real.sqrt ⟨0, 0, 0⟩ ⟨0, 0, -1⟩) := by
  have h4 : Real.sqrt 4 = 2 := sqrtSpec_real.sqrtf_four
  have hA : (⟨⟨0, 0, -10⟩, 2, demo_diffuse⟩ : Sphere ℝ).ray_intersect Real.sqrt
      ⟨0, 0, 0⟩ ⟨0, 0, -1⟩ = some 8 := by
    simp only [Sphere.ray_intersect, Vec3f.sub_def, Vec3f.dot]
    norm_num [h4]
  have hB : (⟨⟨0, 0, -20⟩, 2, demo_mirror⟩ : Sphere ℝ).ray_intersect Real.sqrt
      ⟨0, 0, 0⟩ ⟨0, 0, -1⟩ = some 18 := by
    simp only [Sphere.ray_intersect, Vec3f.sub_def, Vec3f.dot]
    norm_num [h4]
  rw [List.pairwise_pair]
  intro da db ha hb
  rw [hA] at ha
  rw [hB] at hb
  have h1 : (8 : ℝ) = da := Option.some.inj ha
  have h2 : (18 : ℝ) = db := Option.some.inj hb
  rw [← h1, ← h2]
  norm_num

theorem scene_intersect_perm_witness :
    [(⟨⟨0, 0, -10⟩, 2, demo_diffuse⟩ : Sphere ℝ), ⟨⟨0, 0, -20⟩, 2, demo_mirror⟩].Perm
      [(⟨⟨0, 0, -20⟩, 2, demo_mirror⟩ : Sphere ℝ), ⟨⟨0, 0, -10⟩, 2, demo_diffuse⟩] ∧
    [(⟨⟨0, 0, -10⟩, 2, demo_diffuse⟩ : Sphere ℝ), ⟨⟨0, 0, -20⟩, 2, demo_mirror⟩].Pairwise
      (DistinctHits Real.sqrt ⟨0, 0, 0⟩ ⟨0, 0, -1⟩) ∧
    scene_intersect Real.sqrt (demo_globals : Globals ℝ) ⟨0, 0, 0⟩ ⟨0, 0, -1⟩
        [⟨⟨0, 0, -20⟩, 2, demo_mirror⟩, ⟨⟨0, 0, -10⟩, 2, demo_diffuse⟩] HitRec.default
      = scene_intersect Real.sqrt (demo_globals : Globals ℝ) ⟨0, 0, 0⟩ ⟨0, 0, -1⟩
        [⟨⟨0, 0, -10⟩, 2, demo_diffuse⟩, ⟨⟨0, 0, -20⟩, 2, demo_mirror⟩] HitRec.default :=
  ⟨List.Perm.swap _ _ _, distinctHits_demo,
    scene_intersect_perm Real.sqrt demo_globals ⟨0, 0, 0⟩ ⟨0, 0, -1⟩ _ _ HitRec.default
      (List.Perm.swap _ _ _) distinctHits_demo⟩

/-! ## Termination of `refract` and `cast_ray` on floats -/

namespace Ieee

section IeeeLemmas

variable {K : Type} [LinearOrderedField K] [Rounding K]

open Fl

omit [Rounding K] in
theorem Fl.neg_num (x : K) : Fl.neg (num x) = num (-x) := rfl

omit [Rounding K] in
theorem Fl.neg_pinf : Fl.neg (pinf : Fl K) = ninf := rfl

omit [Rounding K] in
theorem Fl.neg_ninf : Fl.neg (ninf : Fl K) = pinf := rfl

omit [Rounding K] in
theorem Fl.neg_nan : Fl.neg (nan : Fl K) = nan := rfl

omit [Rounding K] in
theorem Fl.neg_neg_eq (a : Fl K) : Fl.neg (Fl.neg a) = a := by
  cases a <;> simp [Fl.neg]

omit [Rounding K] in
theorem Fl.signedInf_neg (x : K) : (Fl.signedInf (-x) : Fl K) = Fl.neg (Fl.signedInf x) := by
  unfold Fl.signedInf
  rcases lt_trichotomy x 0 with h | h | h
  · have h1 : (0 : K) < -x := by linarith
    have h2 : ¬ (0 : K) < x := by intro h3; linarith
    rw [if_pos h1, if_neg h2, if_pos h]; rfl
  · subst h; simp [Fl.neg]
  · have h1 : ¬ (0 : K) < -x := by intro h3; linarith
    have h2 : -x < 0 := by linarith
    rw [if_neg h1, if_pos h2, if_pos h]; rfl

theorem Fl.mul_neg_right (a b : Fl K) : a * (-b) = -(a * b) := by
  show Fl.mul a (Fl.neg b) = Fl.neg (Fl.mul a b)
  cases a <;> cases b <;>
    simp only [Fl.mul, Fl.neg_num, Fl.neg_pinf, Fl.neg_ninf, Fl.neg_nan, mul_neg,
      Rounding.rnd_neg, Fl.signedInf_neg, Fl.neg_neg_eq, neg_neg]

theorem Fl.neg_add_neg (a b : Fl K) : (-a) + (-b) = -(a + b) := by
  show Fl.add (Fl.neg a) (Fl.neg b) = Fl.neg (Fl.add a b)
  cases a <;> cases b <;>
    simp only [Fl.add, Fl.neg_num, Fl.neg_pinf, Fl.neg_ninf, Fl.neg_nan, ← neg_add,
      Rounding.rnd_neg]

theorem vdot_vneg (I N : Vec3f (Fl K)) : vdot I (vneg N) = -(vdot I N) := by
  simp only [vdot, vneg, Fl.mul_neg_right, Fl.neg_add_neg]

omit [Rounding K] in
theorem Fl.lt_unfold (a b : Fl K) : (a < b) = (Fl.ltb a b = true) := rfl

omit [Rounding K] in
theorem Fl.neg_unfold (a : Fl K) : -a = Fl.neg a := rfl

/-- The clamped cosine as a function of the dot product. -/
theorem refract_cosi_eq (I N : Vec3f (Fl K)) :
    refract_cosi I N = Fl.neg (std_max (num (-1)) (std_min (num 1) (vdot I N))) := rfl

omit [Rounding K] in
theorem clamp_nan :
    Fl.neg (std_max (num (-1)) (std_min (num 1) (nan : Fl K))) = num (-1) := by
  simp [std_min, std_max, Fl.lt_unfold, Fl.ltb, Fl.neg]

omit [Rounding K] in
theorem clamp_inverts (d : Fl K) (hd : d ≠ nan)
    (h : Fl.neg (std_max (num (-1)) (std_min (num 1) d)) < num 0) :
    num 0 < Fl.neg (std_max (num (-1)) (std_min (num 1) (Fl.neg d))) := by
  cases d with
  | nan => exact absurd rfl hd
  | pinf =>
    simp [std_min, std_max, Fl.lt_unfold, Fl.ltb, Fl.neg]
  | ninf =>
    simp [std_min, std_max, Fl.lt_unfold, Fl.ltb, Fl.neg] at h
    exact absurd h (by norm_num)
  | num x =>
    simp only [std_min, std_max, Fl.lt_unfold, Fl.ltb, Fl.neg_num, decide_eq_true_eq] at h ⊢
    split_ifs at h ⊢ <;>
      simp only [Fl.neg_num, Fl.ltb, decide_eq_true_eq] at h ⊢ <;> linarith

theorem refract_cosi_of_nan (I N : Vec3f (Fl K)) (h : vdot I N = nan) :
    refract_cosi I N < num 0 := by
  rw [refract_cosi_eq, h, clamp_nan, Fl.lt_unfold]
  simp [Fl.ltb]

theorem vdot_vneg_nan (I N : Vec3f (Fl K)) (h : vdot I N = nan) : vdot I (vneg N) = nan := by
  rw [vdot_vneg, h]; rfl

theorem refract_cosi_vneg (I N : Vec3f (Fl K)) (hd : vdot I N ≠ nan)
    (h : refract_cosi I N < num 0) : num 0 < refract_cosi I (vneg N) := by
  rw [refract_cosi_eq, vdot_vneg]
  exact clamp_inverts _ hd h

omit [Rounding K] in
theorem Fl.not_lt_of_lt (a b : Fl K) (h : a < b) : ¬ b < a := by
  rw [Fl.lt_unfold] at h ⊢
  cases a <;> cases b <;> simp [Fl.ltb] at h ⊢
  exact le_of_lt h

theorem refract_step_not_neg (sqrtf : Fl K → Fl K) (fuel : ℕ) (I N : Vec3f (Fl K))
    (eta_t eta_i : Fl K) (h : ¬ refract_cosi I N < num 0) :
    refract sqrtf (fuel + 1) I N eta_t eta_i = some (refract_body sqrtf I N eta_t eta_i) := by
  rw [refract, if_neg h]

theorem refract_step_neg (sqrtf : Fl K → Fl K) (fuel : ℕ) (I N : Vec3f (Fl K))
    (eta_t eta_i : Fl K) (h : refract_cosi I N < num 0) :
    refract sqrtf (fuel + 1) I N eta_t eta_i = refract sqrtf fuel I (vneg N) eta_i eta_t := by
  rw [refract, if_pos h]

theorem refract_of_nan (sqrtf : Fl K → Fl K) (fuel : ℕ) :
    ∀ (I N : Vec3f (Fl K)) (eta_t eta_i : Fl K), vdot I N = nan →
      refract sqrtf fuel I N eta_t eta_i = none := by
  induction fuel with
  | zero => intro I N eta_t eta_i _; rfl
  | succ n ih =>
    intro I N eta_t eta_i h
    rw [refract_step_neg sqrtf n I N eta_t eta_i (refract_cosi_of_nan I N h)]
    exact ih I (vneg N) eta_i eta_t (vdot_vneg_nan I N h)

theorem refract_of_ordered (sqrtf : Fl K → Fl K) (fuel : ℕ) (I N : Vec3f (Fl K))
    (eta_t eta_i : Fl K) (hd : vdot I N ≠ nan) :
    refract sqrtf (fuel + 2) I N eta_t eta_i
      = some (if refract_cosi I N < num 0 then refract_body sqrtf I (vneg N) eta_i eta_t
          else refract_body sqrtf I N eta_t eta_i) := by
  by_cases h : refract_cosi I N < num 0
  · rw [if_pos h, refract_step_neg sqrtf (fuel + 1) I N eta_t eta_i h]
    exact refract_step_not_neg sqrtf fuel I (vneg N) eta_i eta_t
      (Fl.not_lt_of_lt _ _ (refract_cosi_vneg I N hd h))
  · rw [if_neg h]
    exact refract_step_not_neg sqrtf (fuel + 1) I N eta_t eta_i h

theorem refract_fuel (sqrtf : Fl K → Fl K) (fuel : ℕ) (I N : Vec3f (Fl K))
    (eta_t eta_i : Fl K) :
    refract sqrtf (fuel + 2) I N eta_t eta_i = refract sqrtf 2 I N eta_t eta_i := by
  by_cases hd : vdot I N = nan
  · rw [refract_of_nan sqrtf (fuel + 2) I N eta_t eta_i hd,
      refract_of_nan sqrtf 2 I N eta_t eta_i hd]
  · rw [refract_of_ordered sqrtf fuel I N eta_t eta_i hd,
      refract_of_ordered sqrtf 0 I N eta_t eta_i hd]

theorem refract_none (sqrtf : Fl K → Fl K) (fuel : ℕ) (I N : Vec3f (Fl K))
    (eta_t eta_i : Fl K) (h : refract sqrtf (fuel + 2) I N eta_t eta_i = none) :
    vdot I N = nan := by
  by_contra hd
  rw [refract_of_ordered sqrtf fuel I N eta_t eta_i hd] at h
  cases h

end IeeeLemmas

section CastRayLemmas

variable {K : Type} [LinearOrderedField K] [FloorRing K] [Rounding K]

open Fl

theorem cast_ray_deep (m : Libm (Fl K)) (g : Globals (Fl K)) (spheres : List (Sphere (Fl K)))
    (lights : List (Light (Fl K))) (rfuel fuel : ℕ) (orig dir : Vec3f (Fl K)) (depth : ℕ)
    (h : 4 < depth) :
    cast_ray m g spheres lights rfuel (fuel + 1) orig dir depth
      = Outcome.value (envmap_sample m g dir) [(depth, false)] := by
  rw [cast_ray, if_pos h]

theorem cast_ray_out_of_fuel (m : Libm (Fl K)) (g : Globals (Fl K))
    (spheres : List (Sphere (Fl K))) (lights : List (Light (Fl K))) (rfuel fuel : ℕ)
    (orig dir : Vec3f (Fl K)) (depth : ℕ)
    (h : cast_ray m g spheres lights rfuel (fuel + 1) orig dir depth = Outcome.out_of_fuel) :
    depth ≤ 4 ∧ ∃ o d, cast_ray m g spheres lights rfuel fuel o d (depth + 1)
      = Outcome.out_of_fuel := by
  rw [cast_ray] at h
  by_cases h1 : depth > 4
  · rw [if_pos h1] at h; cases h
  · rw [if_neg h1] at h
    refine ⟨not_lt.1 h1, ?_⟩
    simp only [] at h
    split at h
    · cases h
    · split at h
      · cases h
      · split at h
        · split at h
          · cases h
          · cases h
          · exact ⟨_, _, by assumption⟩
        · cases h
        · exact ⟨_, _, by assumption⟩

theorem cast_ray_stuck (m : Libm (Fl K)) (g : Globals (Fl K))
    (spheres : List (Sphere (Fl K))) (lights : List (Light (Fl K))) (rfuel fuel : ℕ)
    (orig dir : Vec3f (Fl K)) (depth : ℕ) (I N : Vec3f (Fl K))
    (h : cast_ray m g spheres lights rfuel (fuel + 1) orig dir depth
      = Outcome.refract_stuck I N) :
    (∃ eta_t, refract m.sqrtf rfuel I N eta_t (num 1) = none) ∨
    ∃ o d, cast_ray m g spheres lights rfuel fuel o d (depth + 1)
      = Outcome.refract_stuck I N := by
  rw [cast_ray] at h
  by_cases h1 : depth > 4
  · rw [if_pos h1] at h; cases h
  · rw [if_neg h1] at h
    simp only [] at h
    split at h
    · cases h
    · split at h
      · rename_i hr
        cases h
        exact Or.inl ⟨_, hr⟩
      · split at h
        · split at h
          · cases h
          · rename_i hc
            cases h
            exact Or.inr ⟨_, _, hc⟩
          · cases h
        · rename_i hc
          cases h
          exact Or.inr ⟨_, _, hc⟩
        · cases h

theorem cast_ray_value (m : Libm (Fl K)) (g : Globals (Fl K))
    (spheres : List (Sphere (Fl K))) (lights : List (Light (Fl K))) (rfuel fuel : ℕ)
    (orig dir : Vec3f (Fl K)) (depth : ℕ) (c : Vec3f (Fl K)) (log : List (ℕ × Bool))
    (h1 : depth ≤ 4)
    (h : cast_ray m g spheres lights rfuel (fuel + 1) orig dir depth = Outcome.value c log) :
    log = [(depth, true)] ∨
    ∃ o1 d1 o2 d2 c1 l1 c2 l2,
      cast_ray m g spheres lights rfuel fuel o1 d1 (depth + 1) = Outcome.value c1 l1 ∧
      cast_ray m g spheres lights rfuel fuel o2 d2 (depth + 1) = Outcome.value c2 l2 ∧
      log = (depth, true) :: (l1 ++ l2) := by
  rw [cast_ray, if_neg (not_lt.2 h1)] at h
  simp only [] at h
  split at h
  · cases h
    exact Or.inl rfl
  · split at h
    · cases h
    · split at h
      · rename_i hc1
        split at h
        · rename_i hc2
          cases h
          exact Or.inr ⟨_, _, _, _, _, _, _, _, hc1, hc2, rfl⟩
        · cases h
        · cases h
      · cases h
      · cases h

theorem cast_ray_returns (m : Libm (Fl K)) (g : Globals (Fl K))
    (spheres : List (Sphere (Fl K))) (lights : List (Light (Fl K))) (rfuel : ℕ) :
    ∀ (fuel depth : ℕ), 5 ≤ depth + fuel → ∀ (orig dir : Vec3f (Fl K)),
      cast_ray m g spheres lights rfuel (fuel + 1) orig dir depth ≠ Outcome.out_of_fuel := by
  intro fuel
  induction fuel with
  | zero =>
    intro depth hd orig dir h
    have := (cast_ray_out_of_fuel m g spheres lights rfuel 0 orig dir depth h).1
    omega
  | succ n ih =>
    intro depth hd orig dir h
    obtain ⟨_, o, d, hc⟩ := cast_ray_out_of_fuel m g spheres lights rfuel (n + 1) orig dir depth h
    exact ih (depth + 1) (by omega) o d hc

theorem cast_ray_stuck_nan (m : Libm (Fl K)) (g : Globals (Fl K))
    (spheres : List (Sphere (Fl K))) (lights : List (Light (Fl K))) (rfuel : ℕ)
    (I N : Vec3f (Fl K)) :
    ∀ (fuel depth : ℕ) (orig dir : Vec3f (Fl K)),
      cast_ray m g spheres lights (rfuel + 2) fuel orig dir depth = Outcome.refract_stuck I N →
      vdot I N = nan := by
  intro fuel
  induction fuel with
  | zero =>
    intro depth orig dir h
    rw [cast_ray] at h
    cases h
  | succ n ih =>
    intro depth orig dir h
    rcases cast_ray_stuck m g spheres lights (rfuel + 2) n orig dir depth I N h with
      ⟨eta_t, hr⟩ | ⟨o, d, hc⟩
    · exact refract_none m.sqrtf rfuel I N eta_t (num 1) hr
    · exact ih (depth + 1) o d hc

theorem cast_ray_value_bound (m : Libm (Fl K)) (g : Globals (Fl K))
    (spheres : List (Sphere (Fl K))) (lights : List (Light (Fl K))) (rfuel : ℕ) :
    ∀ (fuel n depth : ℕ), depth + n = 5 → ∀ (orig dir c : Vec3f (Fl K))
      (log : List (ℕ × Bool)),
      cast_ray m g spheres lights rfuel fuel orig dir depth = Outcome.value c log →
      log.length + 1 ≤ 2 ^ (n + 1) ∧ ∀ e ∈ log, e.1 ≤ 5 ∧ (e.2 = true → e.1 ≤ 4) := by
  intro fuel
  induction fuel with
  | zero =>
    intro n depth _ orig dir c log h
    rw [cast_ray] at h
    cases h
  | succ f ih =>
    intro n depth hn orig dir c log h
    by_cases h1 : 4 < depth
    · rw [cast_ray_deep m g spheres lights rfuel f orig dir depth h1] at h
      cases h
      have hd : depth = 5 := by omega
      subst hd
      refine ⟨?_, ?_⟩
      · have : 1 ≤ 2 ^ n := Nat.one_le_two_pow
        simp only [List.length_singleton, pow_succ]
        omega
      · intro e he
        simp only [List.mem_singleton] at he
        subst he
        exact ⟨le_refl _, fun h => by cases h⟩
    · have h4 : depth ≤ 4 := not_lt.1 h1
      obtain ⟨k, rfl⟩ : ∃ k, n = k + 1 := ⟨n - 1, by omega⟩
      rcases cast_ray_value m g spheres lights rfuel f orig dir depth c log h4 h with
        hl | ⟨o1, d1, o2, d2, c1, l1, c2, l2, hc1, hc2, hl⟩
      · subst hl
        refine ⟨?_, ?_⟩
        · have : 1 ≤ 2 ^ k := Nat.one_le_two_pow
          simp only [List.length_singleton, pow_succ]
          omega
        · intro e he
          simp only [List.mem_singleton] at he
          subst he
          exact ⟨by simp; omega, fun _ => h4⟩
      · obtain ⟨b1, m1⟩ := ih k (depth + 1) (by omega) o1 d1 c1 l1 hc1
        obtain ⟨b2, m2⟩ := ih k (depth + 1) (by omega) o2 d2 c2 l2 hc2
        subst hl
        refine ⟨?_, ?_⟩
        · simp only [List.length_cons, List.length_append]
          have : 2 ^ (k + 1 + 1) = 2 ^ (k + 1) + 2 ^ (k + 1) := by ring
          omega
        · intro e he
          simp only [List.mem_cons, List.mem_append] at he
          rcases he with he | he | he
          · subst he
            exact ⟨by simp; omega, fun _ => h4⟩
          · exact m1 e he
          · exact m2 e he

theorem cast_ray_fuel (m : Libm (Fl K)) (g : Globals (Fl K))
    (spheres : List (Sphere (Fl K))) (lights : List (Light (Fl K))) (rfuel : ℕ) :
    ∀ (n depth : ℕ), 5 ≤ depth + n → ∀ (k : ℕ) (orig dir : Vec3f (Fl K)),
      cast_ray m g spheres lights (rfuel + 2) (n + k + 1) orig dir depth
        = cast_ray m g spheres lights 2 (n + 1) orig dir depth := by
  intro n
  induction n with
  | zero =>
    intro depth hd k orig dir
    rw [cast_ray_deep m g spheres lights (rfuel + 2) (0 + k) orig dir depth (by omega),
      cast_ray_deep m g spheres lights 2 0 orig dir depth (by omega)]
  | succ n ih =>
    intro depth hd k orig dir
    have e : n + 1 + k + 1 = (n + k + 1) + 1 := by omega
    rw [e, cast_ray, cast_ray]
    simp only [refract_fuel m.sqrtf rfuel, ih (depth + 1) (by omega) k]

end CastRayLemmas

section IeeeScenes

variable {K : Type} [LinearOrderedField K]

open Fl

theorem Fl.add_unfold (a b : Fl K) : a + b = Fl.add a b := rfl

theorem Fl.sub_unfold (a b : Fl K) : a - b = Fl.add a (Fl.neg b) := rfl

theorem Fl.mul_unfold (a b : Fl K) : a * b = Fl.mul a b := rfl

theorem Fl.div_unfold (a b : Fl K) : a / b = Fl.div a b := rfl

theorem Fl.rnd_unfold (x : K) :
    @Rounding.rnd K _ idealRounding x
      = if 340282346638528859811704183484516925440 < x then pinf
        else if x < -340282346638528859811704183484516925440 then ninf else num x := rfl

theorem num_lt (x y : K) : (num x < num y) ↔ x < y := by
  rw [Fl.lt_unfold]; simp [Fl.ltb]

theorem nan_scene_spheres [FloorRing K] (sqrtf : Fl K → Fl K) (h0 : sqrtf (num 0) = num 0) :
    spheres_loop sqrtf (vec 0 0 0) (vec 0 0 (-1)) [point_sphere] default_hit
      = (num 10, ⟨vec 0 0 (-10), nan_vec, point_sphere.material⟩) := by
  simp only [spheres_loop, List.foldl, sphere_step, ray_intersect, point_sphere, vec, vsub,
    vdot, vadd, vscale, vnormalize, vnorm, nan_vec, Fl.add_unfold, Fl.sub_unfold, Fl.mul_unfold,
    Fl.div_unfold, Fl.add, Fl.mul, Fl.div, Fl.neg_num, Fl.rnd_unfold]
  norm_num [num_lt, h0, FLT_MAX, Fl.add_unfold, Fl.sub_unfold, Fl.mul_unfold,
    Fl.div_unfold, Fl.add, Fl.mul, Fl.div, Fl.neg_num, Fl.rnd_unfold, Fl.signedInf]

theorem nan_scene_hit [FloorRing K] (sqrtf : Fl K → Fl K) (h0 : sqrtf (num 0) = num 0) :
    scene_intersect sqrtf demo_globals (vec 0 0 0) (vec 0 0 (-1)) [point_sphere] default_hit
      = (true, ⟨vec 0 0 (-10), nan_vec, point_sphere.material⟩) := by
  have s2 : ∀ out : HitRec (Fl K),
      duck_loop sqrtf (demo_globals : Globals (Fl K)).duck
        (demo_globals : Globals (Fl K)).dist_tr (vec 0 0 0) (vec 0 0 (-1)) out
        = (num FLT_MAX, out) := by
    intro out
    simp [duck_loop, demo_globals, empty_model]
  have s3 : ∀ st : Fl K × HitRec (Fl K),
      small_portal sqrtf (vec 0 0 0) (vec 0 0 (-1)) st = st := by
    intro st
    simp only [small_portal, ray_intersect2, small_sphere, vec, vsub, vdot, Fl.add_unfold,
      Fl.sub_unfold, Fl.mul_unfold, Fl.add, Fl.mul, Fl.neg_num, Fl.rnd_unfold]
    norm_num [num_lt, Fl.add_unfold, Fl.sub_unfold, Fl.mul_unfold, Fl.add, Fl.mul, Fl.neg_num,
      Fl.rnd_unfold]
  have s4 : ∀ st : Fl K × HitRec (Fl K),
      large_portal sqrtf (vec 0 0 0) (vec 0 0 (-1)) st = st := by
    intro st
    simp only [large_portal, ray_intersect, large_sphere, vec, vsub, vdot, Fl.add_unfold,
      Fl.sub_unfold, Fl.mul_unfold, Fl.add, Fl.mul, Fl.neg_num, Fl.rnd_unfold]
    norm_num [num_lt, Fl.add_unfold, Fl.sub_unfold, Fl.mul_unfold, Fl.add, Fl.mul, Fl.neg_num,
      Fl.rnd_unfold]
  have s5 : ∀ (a b : Fl K) (out : HitRec (Fl K)),
      checkerboard (vec 0 0 0) (vec 0 0 (-1)) a b out = (num FLT_MAX, out) := by
    intro a b out
    simp only [checkerboard, vec, fabs]
    norm_num [num_lt]
  simp only [scene_intersect, nan_scene_spheres sqrtf h0, s2, s3, s4, s5]
  norm_num [std_min, num_lt, FLT_MAX]

theorem vdot_nan_vec [Rounding K] (I : Vec3f (Fl K)) : vdot I nan_vec = nan := by
  simp only [vdot, nan_vec]
  cases I.x <;> cases I.y <;> cases I.z <;> rfl

end IeeeScenes

section IeeeRefract

variable {K : Type} [LinearOrderedField K] [Rounding K]

open Fl

/-- C18 (amended): when the dot product `I*N` is not NaN, `refract` inverts at most once:
if the first invocation sees `cosi < 0` false it returns without recursing; if it sees
`cosi < 0` it recurses with the normal negated and the two indices swapped, in that inner
invocation `cosi > 0`, and the inner invocation returns without recursing. -/
theorem refract_inverts_once_ordered (sqrtf : Fl K → Fl K) (fuel : ℕ) (I N : Vec3f (Fl K))
    (eta_t eta_i : Fl K) (hd : vdot I N ≠ nan) :
    (¬ refract_cosi I N < num 0 →
      refract sqrtf (fuel + 1) I N eta_t eta_i
        = some (refract_body sqrtf I N eta_t eta_i)) ∧
    (refract_cosi I N < num 0 →
      num 0 < refract_cosi I (vneg N) ∧
      refract sqrtf (fuel + 2) I N eta_t eta_i
        = refract sqrtf (fuel + 1) I (vneg N) eta_i eta_t ∧
      refract sqrtf (fuel + 1) I (vneg N) eta_i eta_t
        = some (refract_body sqrtf I (vneg N) eta_i eta_t)) := by
  refine ⟨fun h => refract_step_not_neg sqrtf fuel I N eta_t eta_i h, fun h => ?_⟩
  have h2 := refract_cosi_vneg I N hd h
  exact ⟨h2, refract_step_neg sqrtf (fuel + 1) I N eta_t eta_i h,
    refract_step_not_neg sqrtf fuel I (vneg N) eta_i eta_t (Fl.not_lt_of_lt _ _ h2)⟩

end IeeeRefract

section IeeeClaims

variable {K : Type} [LinearOrderedField K] [FloorRing K] [Rounding K]

open Fl

theorem cast_ray_stuck_of (m : Libm (Fl K)) (g : Globals (Fl K))
    (spheres : List (Sphere (Fl K))) (lights : List (Light (Fl K))) (rfuel fuel : ℕ)
    (orig dir : Vec3f (Fl K)) (depth : ℕ) (hd : depth ≤ 4) (hr : HitRec (Fl K))
    (hs : scene_intersect m.sqrtf g orig dir spheres default_hit = (true, hr))
    (hn : refract m.sqrtf rfuel dir hr.N hr.material.refractive_index (num 1) = none) :
    cast_ray m g spheres lights rfuel (fuel + 1) orig dir depth
      = Outcome.refract_stuck dir hr.N := by
  rw [cast_ray, if_neg (not_lt.2 hd)]
  simp only [hs, hn]
  simp

/-- C3 (amended): the recursion of `cast_ray` is bounded by the depth argument: an
invocation with `depth > 4` returns the environment sample without calling
`scene_intersect` or recursing; every other invocation that returns made no recursive call
or exactly two, both at `depth + 1`; the outcome of a call started at depth 0 is the same
for every allowance of at least 6 nested invocations of `cast_ray` and 2 of `refract`; and
that call either returns, after at most 63 invocations, none deeper than 5, with
`scene_intersect` called only at depths `<= 4`, or it makes a call `refract(I, N, ...)`
whose dot product `I*N` is NaN and which never returns. -/
theorem cast_ray_recursion_bounded (m : Libm (Fl K)) (g : Globals (Fl K))
    (spheres : List (Sphere (Fl K))) (lights : List (Light (Fl K))) :
    (∀ (rfuel fuel : ℕ) (orig dir : Vec3f (Fl K)) (depth : ℕ), 4 < depth →
      cast_ray m g spheres lights rfuel (fuel + 1) orig dir depth
        = Outcome.value (envmap_sample m g dir) [(depth, false)]) ∧
    (∀ (rfuel fuel : ℕ) (orig dir : Vec3f (Fl K)) (depth : ℕ) (c : Vec3f (Fl K))
      (log : List (ℕ × Bool)), depth ≤ 4 →
      cast_ray m g spheres lights rfuel (fuel + 1) orig dir depth = Outcome.value c log →
      (log = [(depth, true)] ∨
       ∃ o1 d1 o2 d2 c1 l1 c2 l2,
        cast_ray m g spheres lights rfuel fuel o1 d1 (depth + 1) = Outcome.value c1 l1 ∧
        cast_ray m g spheres lights rfuel fuel o2 d2 (depth + 1) = Outcome.value c2 l2 ∧
        log = (depth, true) :: (l1 ++ l2))) ∧
    (∀ (rfuel fuel : ℕ) (orig dir : Vec3f (Fl K)),
      cast_ray m g spheres lights (rfuel + 2) (fuel + 6) orig dir 0
        = cast_ray m g spheres lights 2 6 orig dir 0) ∧
    (∀ (orig dir : Vec3f (Fl K)),
      (∃ c log, cast_ray m g spheres lights 2 6 orig dir 0 = Outcome.value c log ∧
        log.length ≤ 63 ∧ ∀ e ∈ log, e.1 ≤ 5 ∧ (e.2 = true → e.1 ≤ 4)) ∨
      (∃ I N, cast_ray m g spheres lights 2 6 orig dir 0 = Outcome.refract_stuck I N ∧
        vdot I N = nan ∧
        ∀ (k : ℕ) (eta_t eta_i : Fl K), refract m.sqrtf k I N eta_t eta_i = none)) := by
  refine ⟨fun rfuel fuel orig dir depth h =>
      cast_ray_deep m g spheres lights rfuel fuel orig dir depth h,
    fun rfuel fuel orig dir depth c log h1 h =>
      cast_ray_value m g spheres lights rfuel fuel orig dir depth c log h1 h,
    fun rfuel fuel orig dir => ?_, fun orig dir => ?_⟩
  · have e : fuel + 6 = 5 + fuel + 1 := by omega
    rw [e]
    exact cast_ray_fuel m g spheres lights rfuel 5 0 (by omega) fuel orig dir
  · cases h : cast_ray m g spheres lights 2 6 orig dir 0 with
    | value c log =>
      left
      obtain ⟨b, hm⟩ := cast_ray_value_bound m g spheres lights 2 6 5 0 rfl orig dir c log h
      exact ⟨c, log, rfl, by norm_num at b; omega, hm⟩
    | refract_stuck I N =>
      right
      have hn := cast_ray_stuck_nan m g spheres lights 0 I N 6 0 orig dir h
      exact ⟨I, N, rfl, hn, fun k eta_t eta_i => refract_of_nan m.sqrtf k I N eta_t eta_i hn⟩
    | out_of_fuel =>
      exact absurd h (cast_ray_returns m g spheres lights 2 5 0 (by omega) orig dir)

end IeeeClaims

section IeeeExamples

open Fl

theorem sqrt_real_zero : Fl.sqrt Real.sqrt (num (0 : ℝ)) = num 0 := by
  norm_num [Fl.sqrt, Fl.rnd_unfold]

/-- C18 (counterexample): the normal computed for a hit at the centre of a sphere of radius
0 is `normalize` of the zero vector, NaN in every component; with it `refract` sees
`cosi < 0` in the first invocation, does not see `cosi > 0` in the inner one, and does not
return however many nested invocations it is allowed. -/
theorem refract_nan_counterexample :
    vnormalize (Fl.sqrt Real.sqrt) (vec (0 : ℝ) 0 0) = nan_vec ∧
    refract_cosi (vec (0 : ℝ) 0 (-1)) nan_vec < num 0 ∧
    ¬ (num 0 < refract_cosi (vec (0 : ℝ) 0 (-1)) (vneg nan_vec)) ∧
    ∀ fuel : ℕ,
      refract (Fl.sqrt Real.sqrt) fuel (vec (0 : ℝ) 0 (-1)) nan_vec (num 1.5) (num 1)
        = none := by
  have hn : vdot (vec (0 : ℝ) 0 (-1)) (vneg nan_vec) = nan :=
    vdot_vneg_nan _ _ (vdot_nan_vec _)
  refine ⟨?_, refract_cosi_of_nan _ _ (vdot_nan_vec _), ?_, fun fuel =>
    refract_of_nan _ fuel _ _ _ _ (vdot_nan_vec _)⟩
  · simp only [vnormalize, vnorm, vscale, vec, nan_vec, Fl.mul_unfold, Fl.add_unfold, Fl.div_unfold,
      Fl.mul, Fl.add, Fl.rnd_unfold]
    norm_num [sqrt_real_zero, Fl.div_unfold, Fl.div, Fl.mul_unfold, Fl.mul, Fl.signedInf]
  · exact Fl.not_lt_of_lt _ _ (refract_cosi_of_nan _ _ hn)

/-- Witness of C18 (amended): a ray leaving along the normal, where the inversion is
taken. -/
theorem refract_inverts_once_ordered_witness :
    vdot (vec (0 : ℝ) 0 (-1)) (vec 0 0 (-1)) ≠ nan ∧
    ((¬ refract_cosi (vec (0 : ℝ) 0 (-1)) (vec 0 0 (-1)) < num 0 →
      refract (Fl.sqrt Real.sqrt) (0 + 1) (vec 0 0 (-1)) (vec 0 0 (-1)) (num 1.5) (num 1)
        = some (refract_body (Fl.sqrt Real.sqrt) (vec 0 0 (-1)) (vec 0 0 (-1)) (num 1.5)
            (num 1))) ∧
    (refract_cosi (vec (0 : ℝ) 0 (-1)) (vec 0 0 (-1)) < num 0 →
      num 0 < refract_cosi (vec (0 : ℝ) 0 (-1)) (vneg (vec 0 0 (-1))) ∧
      refract (Fl.sqrt Real.sqrt) (0 + 2) (vec 0 0 (-1)) (vec 0 0 (-1)) (num 1.5) (num 1)
        = refract (Fl.sqrt Real.sqrt) (0 + 1) (vec 0 0 (-1)) (vneg (vec 0 0 (-1))) (num 1)
            (num 1.5) ∧
      refract (Fl.sqrt Real.sqrt) (0 + 1) (vec 0 0 (-1)) (vneg (vec 0 0 (-1))) (num 1)
          (num 1.5)
        = some (refract_body (Fl.sqrt Real.sqrt) (vec 0 0 (-1)) (vneg (vec 0 0 (-1)))
            (num 1) (num 1.5)))) := by
  have hd : vdot (vec (0 : ℝ) 0 (-1)) (vec 0 0 (-1)) ≠ nan := by
    simp only [vdot, vec, Fl.mul_unfold, Fl.add_unfold, Fl.mul, Fl.add, Fl.rnd_unfold]
    norm_num [Fl.add_unfold, Fl.add, Fl.rnd_unfold]
    exact fun h => Fl.noConfusion h
  exact ⟨hd, refract_inverts_once_ordered (Fl.sqrt Real.sqrt) 0 (vec 0 0 (-1))
    (vec 0 0 (-1)) (num 1.5) (num 1) hd⟩

/-- C3 (counterexample): a scene whose only sphere has radius 0, met at its centre by the
ray from the origin along `-z`: `scene_intersect` reports the hit with the normal
`normalize` of the zero vector, NaN in every component; the call of `refract` that
`cast_ray` makes with it never returns, so the invocation of `cast_ray` at depth 0 does not
return, whatever the number of nested invocations allowed. -/
theorem cast_ray_nan_counterexample :
    scene_intersect (Fl.sqrt Real.sqrt) demo_globals (vec (0 : ℝ) 0 0) (vec 0 0 (-1))
        [point_sphere] default_hit
      = (true, ⟨vec 0 0 (-10), nan_vec, point_sphere.material⟩) ∧
    (∀ k : ℕ, refract (Fl.sqrt Real.sqrt) k (vec (0 : ℝ) 0 (-1)) nan_vec
        point_sphere.material.refractive_index (num 1) = none) ∧
    ∀ rfuel fuel : ℕ,
      cast_ray ⟨Fl.sqrt Real.sqrt, Fl.map Real.arccos,
          Fl.map2 (fun y x => Complex.arg ⟨x, y⟩), Fl.map2 (fun x y => x ^ y),
          num Real.pi⟩
        demo_globals [point_sphere] [⟨vec (-20) 20 20, num 1.5⟩] rfuel (fuel + 1)
        (vec (0 : ℝ) 0 0) (vec 0 0 (-1)) 0
      = Outcome.refract_stuck (vec 0 0 (-1)) nan_vec := by
  have hs := nan_scene_hit (Fl.sqrt Real.sqrt) sqrt_real_zero
  refine ⟨hs, fun k => refract_of_nan _ k _ _ _ _ (vdot_nan_vec _), fun rfuel fuel => ?_⟩
  exact cast_ray_stuck_of _ demo_globals [point_sphere] _ rfuel fuel _ _ 0 (by norm_num)
    ⟨vec 0 0 (-10), nan_vec, point_sphere.material⟩ hs
    (refract_of_nan _ rfuel _ _ _ _ (vdot_nan_vec _))

end IeeeExamples

end Ieee

end TinyRaytracer
